import Mathlib

/-! Curriculum-vitae page: view construction, category filter and summaries

A shallow embedding of `assets/js/creator.js` (class `Creator`) and
`assets/js/events.js` (the `DOMContentLoaded` handler, `clickCards`, `showCards`,
`getAndUseAccessToken`, `base64Encode`, `base64Decode`, `isUnlocked`,
`menuDetails`), followed by the properties proved about them.

Conventions of the embedding.

* A JavaScript string is a Lean `String`; algorithms on its characters work on
  the underlying `List Char`.
* A JavaScript number that only ever holds an integer is an `Int`; `NaN` is
  `none` in an `Option Int`.
* The document is a tree of `Node`s.  A `DOMTokenList` (`classList`) is the
  ordered set of the tokens of the `class` attribute, kept as a `List String`.
* The result of a `querySelectorAll` is the list of matched nodes in document
  order; the functions below take that list as their input.
-/

namespace CV

/-! ## Ordered sets and class lists -/

/-- ASCII whitespace of the DOM standard: TAB, LF, FF, CR and SPACE. -/
def isAsciiWhitespace (c : Char) : Bool :=
  c == '\t' || c == '\n' || c == '\x0c' || c == '\r' || c == ' '

/-- Worker of `splitOnAsciiWhitespace`: `cur` is the token being read, reversed. -/
def splitAux : List Char → List Char → List (List Char)
  | [], cur => if cur.isEmpty then [] else [cur.reverse]
  | c :: cs, cur =>
    if isAsciiWhitespace c then
      (if cur.isEmpty then splitAux cs [] else cur.reverse :: splitAux cs [])
    else splitAux cs (c :: cur)

/-- Split a string on ASCII whitespace (DOM standard), dropping empty tokens. -/
def splitOnAsciiWhitespace (s : String) : List String :=
  (splitAux s.data []).map String.mk

/-- Append `x` to an ordered set unless it is already a member: the insertion of
a JavaScript `Set` and of a `DOMTokenList`. -/
def setAppend (acc : List String) (x : String) : List String :=
  if x ∈ acc then acc else acc ++ [x]

/-- The elements of `new Set(xs)` in iteration (insertion) order. -/
def setFromArray (xs : List String) : List String :=
  xs.foldl setAppend []

/-- The ordered set of tokens of a `class` attribute value. -/
def parseOrderedSet (s : String) : List String :=
  setFromArray (splitOnAsciiWhitespace s)

/-- `classList.contains(token)`. -/
def classListContains (cl : List String) (token : String) : Bool :=
  decide (token ∈ cl)

/-- `classList.add(token)`. -/
def classListAdd (cl : List String) (token : String) : List String :=
  setAppend cl token

/-- `classList.remove(token)`. -/
def classListRemove (cl : List String) (token : String) : List String :=
  cl.filter (fun t => t ≠ token)

/-! ## Document nodes -/

/-- The scalar state of an element. `innerHTML` is the markup last assigned
through the `innerHTML` setter (the empty string when it was never assigned);
`attributes` holds every other property or attribute set on the element. -/
structure ElementProps where
  tag : String
  classList : List String
  id : String
  attributes : List (String × String)
  innerHTML : String
  deriving DecidableEq, Repr

/-- A document node: a text node or an element with its child nodes. -/
inductive Node where
  | text (data : String)
  | element (props : ElementProps) (childNodes : List Node)
  deriving Repr

namespace Node

/-- The class list of a node (text nodes have none). -/
def classList : Node → List String
  | text _ => []
  | element p _ => p.classList

/-- The `id` of a node. -/
def id : Node → String
  | text _ => ""
  | element p _ => p.id

/-- The child nodes of a node. -/
def childNodes : Node → List Node
  | text _ => []
  | element _ cs => cs

/-- Replace the class list of an element. -/
def setClassList (cl : List String) : Node → Node
  | text d => text d
  | element p cs => element { p with classList := cl } cs

/-- `node.classList.contains(token)`. -/
def hasClass (n : Node) (token : String) : Bool :=
  classListContains n.classList token

/-- `parent.appendChild(child)` for a child that is not yet in the document; a
text node takes no child. -/
def appendChild (parent child : Node) : Node :=
  match parent with
  | text d => text d
  | element p cs => element p (cs ++ [child])

/-- The markup last assigned to `el.innerHTML`. -/
def innerHTML : Node → String
  | text _ => ""
  | element p _ => p.innerHTML

/-- Assignment to `el.innerHTML`. -/
def setInnerHTML (markup : String) : Node → Node
  | text d => text d
  | element p cs => element { p with innerHTML := markup } cs

end Node

/-! ## `Creator.createElement` and `Creator.createCard` -/

/-- A child handed to `createElement`: a string or an existing node. -/
inductive Child where
  | str (s : String)
  | node (n : Node)

/-- One step of the attribute loop of `createElement`. `className` replaces the
class list, `id` is set as a property, every other key is recorded as an
attribute of the element, whether the source sets it as a property or through
`setAttribute`. Attribute values are strings: no call passes a `dataset`. -/
def applyAttribute (p : ElementProps) (kv : String × String) : ElementProps :=
  if kv.1 = "className" then { p with classList := parseOrderedSet kv.2 }
  else if kv.1 = "id" then { p with id := kv.2 }
  else { p with attributes := p.attributes.filter (fun a => a.1 ≠ kv.1) ++ [kv] }

/-- The local `appendChild` helper of `createElement`: a string becomes a text
node, a node is appended as it is. -/
def appendChildOf (el : Node) : Child → Node
  | Child.str s => el.appendChild (Node.text s)
  | Child.node n => el.appendChild n

/-- `Creator.createElement(tag, attributes, children)`. -/
def createElement (tag : String) (attributes : List (String × String))
    (children : List Child) : Node :=
  let props := attributes.foldl applyAttribute
    { tag := tag, classList := [], id := "", attributes := [], innerHTML := "" }
  children.foldl appendChildOf (Node.element props [])

/-- The `cardData` part of a card record. -/
structure CardData where
  className : String
  id : String
  title : String
  deriving DecidableEq, Repr

/-- The `contentData` part of a card record. -/
structure ContentData where
  id : String
  innerHTML : String
  deriving DecidableEq, Repr

/-- One entry of a static card table. -/
structure CardRecord where
  cardData : CardData
  contentData : ContentData
  deriving DecidableEq, Repr

/-- `Creator.createCard(cardData, contentData)`. -/
def createCard (cardData : CardData) (contentData : ContentData) : Node :=
  let card := createElement "div"
    [("className", "card " ++ cardData.className), ("id", cardData.id)]
    [Child.str cardData.title]
  let content := createElement "div" [("className", "body"), ("id", contentData.id)] []
  let content := content.setInnerHTML contentData.innerHTML
  card.appendChild content

/-! ## `showCards` -/

/-- The body of the `forEach` of `showCards` for one card. -/
def showCard (cardType : String) (card : Node) : Node :=
  if !card.hasClass cardType then
    card.setClassList (classListRemove card.classList "visible")
  else
    card.setClassList (classListAdd card.classList "visible")

/-- `showCards()`: `cards` is the result of `querySelectorAll(".card")`. -/
def showCards (cardType : String) (cards : List Node) : List Node :=
  cards.map (showCard cardType)

/-- The five categories of the page. -/
def categories : List String :=
  ["identity", "professional", "formation", "skills", "project"]

/-- A card record has category `C` when `C` is one of the class tokens of its
`className`. -/
def CardRecord.hasCategory (r : CardRecord) (C : String) : Bool :=
  decide (C ∈ splitOnAsciiWhitespace r.cardData.className)

/-- The cards rendered from a list of records, as a card-group loop appends them. -/
def renderCards (records : List CardRecord) : List Node :=
  records.map (fun r => createCard r.cardData r.contentData)

/-! ## JavaScript string primitives used by `menuDetails` -/

/-- The `WhiteSpace` and `LineTerminator` code points of ECMAScript, stripped by
`String.prototype.trim` and skipped by `parseInt`. -/
def isJsWhiteSpace (c : Char) : Bool :=
  decide (c.toNat ∈ [0x09, 0x0A, 0x0B, 0x0C, 0x0D, 0x20, 0xA0, 0x1680, 0x2028, 0x2029,
    0x202F, 0x205F, 0x3000, 0xFEFF]) || (decide (0x2000 ≤ c.toNat) && decide (c.toNat ≤ 0x200A))

/-- `String.prototype.trim` on the characters of a string. -/
def trimChars (l : List Char) : List Char :=
  ((l.dropWhile isJsWhiteSpace).reverse.dropWhile isJsWhiteSpace).reverse

/-- `s.trim()`. -/
def jsTrim (s : String) : String := String.mk (trimChars s.data)

/-- `s.startsWith(p)`. -/
def startsWith (s p : String) : Bool := p.data.isPrefixOf s.data

/-- Index of the first occurrence of `needle` in `l` counted from `i`, or `-1`. -/
def indexOfFrom (needle : List Char) : List Char → Nat → Int
  | [], i => if needle.isEmpty then (i : Int) else -1
  | c :: cs, i => if needle.isPrefixOf (c :: cs) then (i : Int) else indexOfFrom needle cs (i + 1)

/-- `s.indexOf(needle)`. -/
def indexOf (s needle : String) : Int := indexOfFrom needle.data s.data 0

/-- `s.substring(start, end)`: both bounds are clamped to `[0, length]` and
swapped when `start > end`. -/
def substring (s : String) (start stop : Int) : String :=
  let a := min start.toNat s.data.length
  let b := min stop.toNat s.data.length
  String.mk ((s.data.drop (min a b)).take (max a b - min a b))

/-- The value of a digit character in the given radix, if it is one. -/
def digitValue (radix : Nat) (c : Char) : Option Nat :=
  let v : Option Nat :=
    if 48 ≤ c.toNat ∧ c.toNat ≤ 57 then some (c.toNat - 48)
    else if 97 ≤ c.toNat ∧ c.toNat ≤ 122 then some (c.toNat - 87)
    else if 65 ≤ c.toNat ∧ c.toNat ≤ 90 then some (c.toNat - 55)
    else none
  match v with
  | some d => if d < radix then some d else none
  | none => none

/-- Read the longest prefix of digits of the radix, most significant first;
`acc` is the value read so far and `seen` tells whether a digit was read.
`none` when the prefix is empty. -/
def parseDigits (radix : Nat) : List Char → Nat → Bool → Option Nat
  | [], acc, seen => if seen then some acc else none
  | c :: cs, acc, seen =>
    match digitValue radix c with
    | some d => parseDigits radix cs (acc * radix + d) true
    | none => if seen then some acc else none

/-- The unsigned part of `parseInt`: radix 16 after a `0x` or `0X` prefix,
radix 10 otherwise. -/
def parseUnsigned : List Char → Option Nat
  | '0' :: 'x' :: cs => parseDigits 16 cs 0 false
  | '0' :: 'X' :: cs => parseDigits 16 cs 0 false
  | cs => parseDigits 10 cs 0 false

/-- `parseInt(s)` without a radix argument; `none` is `NaN`. -/
def parseInt (s : String) : Option Int :=
  match s.data.dropWhile isJsWhiteSpace with
  | '-' :: cs => (parseUnsigned cs).map (fun n => -(n : Int))
  | '+' :: cs => (parseUnsigned cs).map (fun n => (n : Int))
  | cs => (parseUnsigned cs).map (fun n => (n : Int))

/-- Worker of `splitOnChar`: `cur` is the segment being read, reversed. -/
def splitOnCharAux (sep : Char) : List Char → List Char → List (List Char)
  | [], cur => [cur.reverse]
  | c :: cs, cur =>
    if c = sep then cur.reverse :: splitOnCharAux sep cs []
    else splitOnCharAux sep cs (c :: cur)

/-- `s.split(sep)` for a one-character separator. -/
def splitOnChar (s : String) (sep : Char) : List String :=
  (splitOnCharAux sep s.data []).map String.mk

/-- Template-literal rendering of a number that holds an integer or `NaN`. -/
def numberToString : Option Int → String
  | some n => toString n
  | none => "NaN"

/-- `parts.join(sep)`. -/
def join (sep : String) : List String → String
  | [] => ""
  | [a] => a
  | a :: b :: rest => a ++ sep ++ join sep (b :: rest)

/-- `s.endsWith(p)`. -/
def endsWith (s p : String) : Bool := p.data.reverse.isPrefixOf s.data.reverse

/-- Insert `a` into a list sorted for the comparator `cmp`, after every element
that does not have to come after it: `b` stays in front of `a` unless
`cmp(b, a) > 0`. -/
def sortedInsert (cmp : String → String → Option Int) (a : String) : List String → List String
  | [] => [a]
  | b :: l =>
    if (match cmp a b with | some d => decide (d ≤ 0) | none => true) then a :: b :: l
    else b :: sortedInsert cmp a l

/-- `xs.sort(cmp)`. ECMAScript requires the sort to be stable, so for a
consistent comparator the result is the one stable arrangement, computed here by
insertion from the right. A comparator result that is `NaN` counts as `0`. -/
def sortWith (cmp : String → String → Option Int) : List String → List String
  | [] => []
  | a :: l => sortedInsert cmp a (sortWith cmp l)

/-! ## Navigation entries -/

/-- One `li` of the navigation list: its `data-class`, its text and its `title`. -/
structure NavEntry where
  dataClass : String
  text : String
  title : String
  deriving DecidableEq, Repr

/-- `document.querySelector('li[data-class="dc"]').title = title`: the first
matching entry gets the title; `none` (a `TypeError`) when no entry matches. -/
def setEntryTitle (dc title : String) : List NavEntry → Option (List NavEntry)
  | [] => none
  | e :: es =>
    if e.dataClass = dc then some ({ e with title := title } :: es)
    else (setEntryTitle dc title es).map (fun es' => e :: es')

/-- The `title` of the first entry with the given `data-class`. -/
def entryTitle (dc : String) (nav : List NavEntry) : Option String :=
  (nav.find? (fun e => e.dataClass = dc)).map (fun e => e.title)

/-! ## `menuDetails` -/

/-- The month count read from one `data-diff` value:
`parseInt(diff.substring(0, diff.indexOf(" mois")))`. -/
def monthsOfDiff (diff : String) : Option Int :=
  parseInt (substring diff 0 (indexOf diff " mois"))

/-- Sum of two numbers, `NaN` when either is. -/
def addNumber (a b : Option Int) : Option Int :=
  match a, b with
  | some x, some y => some (x + y)
  | _, _ => none

/-- `totalPro`: the month counts of the period elements, summed from `0`. The
argument lists `dataset.diff` of each period element, `none` when the element
has no `data-diff`; the result is `none` when reading it throws. -/
def totalPro (diffs : List (Option String)) : Option (Option Int) :=
  (diffs.mapM (fun (d : Option String) => d.map monthsOfDiff)).map (fun ms => ms.foldl addNumber (some 0))

/-- The tenure title for a total: `years` is `Math.floor(total / 12)`. -/
def tenureTitle (total : Option Int) : String :=
  let years : Option Int := total.map (fun t => t / 12)
  let rest : Option Int := total.map (fun t => t - (t / 12) * 12)
  numberToString years ++ " an"
    ++ (if (match years with | some y => decide (y > 1) | none => false) then "s" else "")
    ++ " & " ++ numberToString rest ++ " mois"

/-- The sort key of a level: `parseInt(l.split("+")[1])`; a missing second segment
is `undefined`, which `parseInt` reads as the string `undefined`. -/
def bacKey (l : String) : Option Int :=
  parseInt (((splitOnChar l '+').get? 1).getD "undefined")

/-- The comparator of the sort of `bacLevels`:
`parseInt(b.split("+")[1]) - parseInt(a.split("+")[1])`. -/
def bacCompare (a b : String) : Option Int :=
  match bacKey b, bacKey a with
  | some x, some y => some (x - y)
  | _, _ => none

/-- The formation title computed from the `innerText` of the level elements.
`toUpperCase` stands for `String.prototype.toUpperCase`. -/
def formationTitle (toUpperCase : String → String) (innerTexts : List String) : String :=
  let levels := innerTexts.map (fun t => toUpperCase (jsTrim t))
  let bacLevels := sortWith bacCompare (levels.filter (fun l => startsWith l "BAC +"))
  let others := setFromArray (levels.filter (fun l => !startsWith l "BAC +"))
  let parts : List (Option String) :=
    bacLevels.head? :: (others.filter (fun o => !decide (o ∈ bacLevels))).map some
  join " / " (parts.filterMap (fun p => p.filter (fun x => x ≠ "")))

/-- Whether a node is an element. -/
def Node.isElement : Node → Bool
  | Node.text _ => false
  | Node.element _ _ => true

/-- `el.children`: the child nodes that are elements. -/
def Node.children (n : Node) : List Node :=
  n.childNodes.filter Node.isElement

/-- `el.role`: the `role` attribute, `none` when absent. -/
def Node.role : Node → Option String
  | Node.text _ => none
  | Node.element p _ => (p.attributes.find? (fun a => a.1 = "role")).map (fun a => a.2)

/-- The number of direct children of a card body whose role is `access`. -/
def accessCount (body : Node) : Nat :=
  (body.children.filter (fun el => el.role = some "access")).length

/-- `totalAccess`: the access counts of the project card bodies, summed from `0`. -/
def totalAccess (bodies : List Node) : Nat :=
  (bodies.map accessCount).foldl (fun sum val => sum + val) 0

/-- The project title for a count. -/
def projectTitle (count : Nat) : String :=
  toString count ++ " projets accessibles"

/-- `menuDetails()`. The arguments are what its selectors match in the document:
the navigation entries, `dataset.diff` of the professional period elements, the
`innerText` of the formation level elements and the bodies of the project cards.
The result is the navigation list with the three titles set, or `none` when a
`TypeError` is thrown on the way. -/
def menuDetails (toUpperCase : String → String) (nav : List NavEntry)
    (periodDiffs : List (Option String)) (levelTexts : List String)
    (projectBodies : List Node) : Option (List NavEntry) := do
  let total ← totalPro periodDiffs
  let nav ← setEntryTitle "professional" (tenureTitle total) nav
  let nav ← setEntryTitle "formation" (formationTitle toUpperCase levelTexts) nav
  setEntryTitle "project" (projectTitle (totalAccess projectBodies)) nav

/-- Upper-casing of the ASCII letters; it agrees with
`String.prototype.toUpperCase` on every string of ASCII characters. -/
def asciiToUpperCase (s : String) : String := String.mk (s.data.map Char.toUpper)

/-! ## The access token: `base64Encode`, `getAndUseAccessToken`, `isUnlocked` -/

/-- The UTF-8 bytes of one character. -/
def utf8Bytes (c : Char) : List Nat :=
  let n := c.toNat
  if n < 0x80 then [n]
  else if n < 0x800 then [0xC0 + n / 64, 0x80 + n % 64]
  else if n < 0x10000 then [0xE0 + n / 4096, 0x80 + n / 64 % 64, 0x80 + n % 64]
  else [0xF0 + n / 262144, 0x80 + n / 4096 % 64, 0x80 + n / 64 % 64, 0x80 + n % 64]

/-- The UTF-8 bytes of a string. -/
def utf8 (l : List Char) : List Nat := l.flatMap utf8Bytes

/-- Upper-case hexadecimal digit of a value below 16. -/
def hexDigit (n : Nat) : Char :=
  if n < 10 then Char.ofNat (48 + n) else Char.ofNat (55 + n)

/-- The escape `%XX` of one byte. -/
def percentEscape (b : Nat) : List Char := ['%', hexDigit (b / 16), hexDigit (b % 16)]

/-- The characters `encodeURIComponent` leaves as they are:
`A-Z a-z 0-9 - _ . ! ~ * ' ( )`. -/
def isUriUnreserved (c : Char) : Bool :=
  decide (65 ≤ c.toNat ∧ c.toNat ≤ 90) || decide (97 ≤ c.toNat ∧ c.toNat ≤ 122)
    || decide (48 ≤ c.toNat ∧ c.toNat ≤ 57)
    || decide (c.toNat ∈ [45, 95, 46, 33, 126, 42, 39, 40, 41])

/-- `encodeURIComponent` for one character. -/
def encodeURIComponentChar (c : Char) : List Char :=
  if isUriUnreserved c then [c] else (utf8Bytes c).flatMap percentEscape

/-- `encodeURIComponent(str)`. A Lean string is a sequence of Unicode scalar
values, so the `URIError` for a lone surrogate cannot occur. -/
def encodeURIComponent (str : String) : String :=
  String.mk (str.data.flatMap encodeURIComponentChar)

/-- The UTF-16 code units of one character. -/
def utf16Units (c : Char) : List Nat :=
  if c.toNat < 0x10000 then [c.toNat]
  else [0xD800 + (c.toNat - 0x10000) / 1024, 0xDC00 + (c.toNat - 0x10000) % 1024]

/-- The UTF-16 code units of a string: the JavaScript view of its contents. -/
def toCodeUnits (s : String) : List Nat := s.data.flatMap utf16Units

/-- The value of a code unit that is a hexadecimal digit. -/
def hexValue (u : Nat) : Option Nat :=
  if 48 ≤ u ∧ u ≤ 57 then some (u - 48)
  else if 65 ≤ u ∧ u ≤ 70 then some (u - 55)
  else if 97 ≤ u ∧ u ≤ 102 then some (u - 87)
  else none

/-- The value of a run of hexadecimal digits, `none` if one of them is not a digit. -/
def hexRun (us : List Nat) : Option Nat :=
  us.foldl (fun acc u => match acc, hexValue u with
    | some a, some d => some (a * 16 + d)
    | _, _ => none) (some 0)

/-- `unescape` on code units (ECMAScript, Annex B): `%uXXXX` and `%XX` with
hexadecimal digits are replaced by the code unit they name, everything else is
copied. -/
def unescape : List Nat → List Nat
  | [] => []
  | 37 :: 117 :: a :: b :: c :: d :: rest =>
    match hexRun [a, b, c, d] with
    | some v => v :: unescape rest
    | none =>
      match hexRun [117, a] with
      | some v => v :: unescape (b :: c :: d :: rest)
      | none => 37 :: unescape (117 :: a :: b :: c :: d :: rest)
  | 37 :: a :: b :: rest =>
    match hexRun [a, b] with
    | some v => v :: unescape rest
    | none => 37 :: unescape (a :: b :: rest)
  | u :: rest => u :: unescape rest

/-- The character of a 6-bit value in the Base64 alphabet. -/
def base64Char (i : Nat) : Char :=
  if i < 26 then Char.ofNat (65 + i)
  else if i < 52 then Char.ofNat (71 + i)
  else if i < 62 then Char.ofNat (i - 4)
  else if i = 62 then '+' else '/'

/-- Base64 of a list of bytes, with `=` padding. -/
def base64OfBytes : List Nat → List Char
  | [] => []
  | [a] => [base64Char (a / 4), base64Char (a % 4 * 16), '=', '=']
  | [a, b] => [base64Char (a / 4), base64Char (a % 4 * 16 + b / 16), base64Char (b % 16 * 4), '=']
  | a :: b :: c :: rest =>
    base64Char (a / 4) :: base64Char (a % 4 * 16 + b / 16)
      :: base64Char (b % 16 * 4 + c / 64) :: base64Char (c % 64) :: base64OfBytes rest

/-- `btoa(data)` on code units: `none` (an `InvalidCharacterError`) when a code
unit is above `0xFF`. -/
def btoa (units : List Nat) : Option String :=
  if units.all (fun u => decide (u ≤ 255)) then some (String.mk (base64OfBytes units)) else none

/-- `base64Encode(str)`: `btoa(unescape(encodeURIComponent(str)))`. -/
def base64Encode (str : String) : Option String :=
  btoa (unescape (toCodeUnits (encodeURIComponent str)))

/-- `isUnlocked()`; `token` is the global of that name. -/
def isUnlocked (token : String) : Bool :=
  decide (token = "THVjYXNLdW50ejU3MDcwTWV0eg==")

/-- `params.get(name)`: the value of the first pair with that name, or `null`. -/
def paramsGet (params : List (String × String)) (name : String) : Option String :=
  (params.find? (fun p => p.1 = name)).map (fun p => p.2)

/-- `getAndUseAccessToken()`: `params` lists the name-value pairs of
`new URLSearchParams(window.location.search)`, `token` is the global before the
call; the result is the global after the call, `none` when the call throws. A
`null` parameter value is converted to the string `null` by
`encodeURIComponent`. -/
def getAndUseAccessToken (params : List (String × String)) (token : String) : Option String :=
  if params.length = 1 ∧ paramsGet params "access_token" ≠ some "" then
    let param := paramsGet params "access_token"
    base64Encode (param.getD "null")
  else some token

/-- The value of the global `token` when the script starts. -/
def initialToken : String := ""

/-- The value of the global `cardType` when the script starts. -/
def initialCardType : String := "professional"

/-! ## The static card tables of `Creator` -/

/-- The markup of `bodyIdentity1`. -/
def markupBodyIdentity1 : String :=
  "
          <div data-after='Voir la carte d'identité'>Lucas KUNTZ</div>
          <div class='imgContainer'><img src='./assets/pics/identity.jpg'></div>
          <div>Développeur Fullstack</div>
          <div data-after='Voir le Permis de Conduire'>Véhiculé</div>
        "

/-- The markup of `bodyIdentity2`. -/
def markupBodyIdentity2 : String :=
  "
          <div>67b rue de la Cheneau, 57070, Metz, France</div>
        "

/-- The markup of `bodyIdentity3`. -/
def markupBodyIdentity3 : String :=
  "
          <div><a href='tel:+33778810469'>(+33) 7 78 81 04 69</a></div>
          <div><a href='mailto:kuntz.lucas@gmail.com'>kuntz.lucas@gmail.com</a></div>
        "

/-- The markup of `bodyIdentity5`. -/
def markupBodyIdentity5 : String :=
  "
          <div><a target=\"_blank\" href=\"./assets/docs/DiplomeUniversitaireDeTechnologie.pdf\">Diplôme Universitaire De Technologie</a></div>
          <div><a target=\"_blank\" href=\"./assets/docs/DiplomeLicenceProfesssionnelle.pdf\">Diplôme de Licence Professsionnelle</a></div>
          <div><a target=\"_blank\" href=\"./assets/docs/LKU - SecNum attestation.jpg\">Attestation Sécurité Numérique ANSSI</a></div>
          <div><a target=\"_blank\" href=\"./assets/docs/lucas_kuntz_dd3bbd64035fdfb94d07155358084e40.pdf\">Certification TOSA Javascript</a></div>
        "

/-- The markup of `bodyPro1`. -/
def markupBodyPro1 : String :=
  "
          <div class='imgLogo'><span>Sira Multiservices</span></div>
          <div role='titre'>Développeur PHP</div>
          <hr/>
          <div role='periode' data-diff='2 mois'>Avril 2013 (Début stage DUT) <br/>Juin 2013 (Fin stage DUT)</div>
          <hr/>
          <ul role='missions'>
            <li role='mission'>Nettoyage du code de l'application DevisLux en Pear PHP.</li>
            <li role='mission'>Amélioration de l'application pour un meilleur référencement.</li>
          </ul>
        "

/-- The markup of `bodyPro2`. -/
def markupBodyPro2 : String :=
  "
          <div class='imgLogo'><img src='./assets/pics/ogmi_cyrus.jpg'></div>
          <div role='titre'>Développeur VB .Net</div>
          <hr/>
          <div role='periode' data-diff='4 mois'>Mai 2015 (Début stage Licence Pro) <br/>Septembre 2015 (Fin stage Licence Pro)</div>
          <hr/>
          <ul role='missions'>
            <li role='mission'>Développement d'un applicatif web de consultation des données d'une base de données PostgreSQL.</li>
            <li role='mission'>Collaboration avec les développeurs de l'application VB Cyrus pour une synchronisation entre les deux applicatifs.</li>
          </ul>
        "

/-- The markup of `bodyPro3`. -/
def markupBodyPro3 : String :=
  "
          <div class='imgLogo'><img src='./assets/pics/efluid_logo.png'></div>
          <div role='titre'>Développeur JAVA</div>
          <hr/>
          <div role='periode' data-diff='18 mois'>Janvier 2017 (Début intérim) <br/>Juin 2018 (Fin intérim)</div>
          <hr/>
          <ul role='missions'>
            <li role='mission'>Développement & mise en place du système d'intégration métier en Java.</li>
          </ul>
        "

/-- The markup of `bodyPro4`. -/
def markupBodyPro4 : String :=
  "
          <div class='imgLogo'><img src='./assets/pics/cac_histo.png'></div>
          <div role='titre'>Technicien informatique</div>
          <hr/>
          <div role='periode' data-diff='15 mois'>Août 2018 (Début CDI) <br/>Novembre 2019 (Fin CDI)</div>
          <hr/>
          <ul role='missions'>
            <li role='mission'>Développement et maintien de la solution de gestion commerciale en Pascal Delphi.</li>
          </ul>
        "

/-- The markup of `bodyPro5`. -/
def markupBodyPro5 : String :=
  "
          <div class='imgLogo'><img src='./assets/pics/happiso_logo.jpg'></div>
          <div role='titre'>Développeur Php</div>
          <hr/>
          <div role='periode' data-diff='36 mois'>Janvier 2020 (Début intérim) <br/>Mai 2020 (Fin intérim/Début CDI) <br/>Janvier 2023 (Fin CDI)</div>
          <hr/>
          <ul role='missions'>
            <li role='mission'>Développement & maintien d'une solution de gestion RH en Cakephp, Javascript & Less.</li>
            <li role='mission'>Transformation de la solution Cakephp en solution Typescript React.</li>
            <li role='mission'>Support téléphonique aux utilisateurs.</li>
          </ul>
        "

/-- The markup of `bodyPro6`. -/
def markupBodyPro6 : String :=
  "
          <div class='imgLogo'><img src='./assets/pics/proflu.jpg'></div>
          <div role='titre'>Développeur Web</div>
          <hr/>
          <div role='periode' data-diff='2 mois'>Mai 2025 (Début stage) - Juillet 2025 (Fin stage)</div>
          <hr/>
          <ul role='missions'>
            <li role='mission'>Développement d'une représentation graphique sous forme d'onde sonore pour le réseau social Needle.</li>
            <li role='mission'>Développement de marqueurs sur cette représentation pour indiquer des modulations importantes.</li>
          </ul>
        "

/-- The markup of `bodyFormation1`. -/
def markupBodyFormation1 : String :=
  "
          <div class='imgLogo'><img src='./assets/pics/ul.svg'></div>
          <div role='label'>Diplôme Universitaire en Technologie</div>
          <div role='level'>Bac +2</div>
          <hr>
          <div role='periode'>Septembre 2011 (Début formation) <br/>Juillet 2014 (Fin formation)</div>
          <div role='location'>Institut Universitaire en Technologie (57000)</div>
          <hr>
          <div role='internship'>Stage d'Avril 2013 à Juin 2013 chez Sira Multiservices (57050)</div>
        "

/-- The markup of `bodyFormation2`. -/
def markupBodyFormation2 : String :=
  "
          <div class='imgLogo'><img src='./assets/pics/ul.svg'></div>
          <div role='label'>Licence Professionelle en Web & E-Commerce</div>
          <div role='level'>Bac +3</div>
          <hr>
          <div role='periode'>Septembre 2014 (Début formation) <br/>Septembre 2015 (Fin formation)</div>
          <div role='location'>Institut Universitaire en Technologie de Metz (57000)</div>
          <hr>
          <div role='internship'>Stage de Mai 2015 à Septembre 2015 chez OGMI (54000)</div>
        "

/-- The markup of `bodyFormation3`. -/
def markupBodyFormation3 : String :=
  "
          <div class='imgLogo'><img src='./assets/pics/afpa.png'></div>
          <div role='label'>Titre Professionel Concepteur Développeur d'Applications</div>
          <div role='level'>RNCP 6</div>
          <hr>
          <div role='periode'>Septembre 2024 (Début formation) <br/>Juillet 2025 (Fin formation)</div>
          <div role='location'>Centre AFPA de Pompey (54390)</div>
          <hr>
          <div role='internship'>Stage de Mai 2025 à Juillet 2025 chez Profluens SAS</div>
        "

/-- The markup of `bodySkills1`. -/
def markupBodySkills1 : String :=
  "
          <div>Français : Niveau C1</div>
          <hr>
          <div>English : Niveau C1</div>
        "

/-- The markup of `bodySkills2`. -/
def markupBodySkills2 : String :=
  "
          <ul role='desktop items'>
            <li role='desktop item'>Swing - Interface graphique</li>
            <li role='desktop item'>Junit - Tests Unitaires</li>
          </ul>
          <hr>
          <ul role='desktop support items'>
            <li role='desktop support item'>Maven - Gestion de dépendances</li>
            <li role='desktop support item'>Hibernate - ORM (Object-Relational Mapping)</li>
          </ul>
          <hr>
          <ul role='web items'>
            <li role='web item'>Tomcat - Serveur Applicatifs Web</li>
            <li role='web item'>Sélenium - Tests d'interface graphiques</li>
            <li role='web item'>JakartaEE - Applicatif Web</li>
            <li role='web item'>SpringBoot - Framework Web pour API (Application Programming Interface)</li>
          </ul>
        "

/-- The markup of `bodySkills3`. -/
def markupBodySkills3 : String :=
  "
          <ul role='display items'>
            <li role='display item'>HTML/CSS - Balises web</li>
            <li role='display item'>Less Preprocessor - Génération de CSS</li>
          </ul>
          <hr>
          <ul role='javascript items'>
            <li role='javascript item'>Javascript - Comportement client web</li>
            <li role='javascript item'>JQuery - Framework JS</li>
            <li role='javascript item'>VueJS - Framework JS</li>
            <li role='javascript item'>MeteorJS - Framework JS</li>
            <li role='javascript item'>Typescript - Framework JS</li>
            <li role='javascript item'>React - Framework JS</li>
          </ul>
          <hr>
          <ul role='css items'>
            <li role='css item'>Bootstrap CSS - Toolkit CSS</li>
            <li role='css item'>Tailwind CSS - Toolkit CSS</li>
          </ul>
          <hr>
          <div>NPM - Gestionnaire de dépendances NodeJS</div>
        "

/-- The markup of `bodySkills4`. -/
def markupBodySkills4 : String :=
  "
          <ul role='languages items'>
            <li role='language item'>PHP : Hypertext Preprocessor</li>
            <li role='language item'>Visual Basic .NET</li>
          </ul>
          <hr>
          <ul role='php framework items'>
            <li role='php framework item'>CakePHP - Framework PHP</li>
            <li role='php framework item'>Pear PHP - Framework PHP</li>
            <li role='php framework item'>Smarty - Framework PHP</li>
          </ul>
          <hr>
          <div>Composer - Gestionnaire de dépendances PHP</div>
        "

/-- The markup of `bodySkills5`. -/
def markupBodySkills5 : String :=
  "
          <ul role='SGBDR items'>
            <li role='SGBDR item'>MySQL - SGBDR</li>
            <li role='SGBDR item'>SQLServer - SGBDR</li>
            <li role='SGBDR item'>PostgreSQL - SGBDR</li>
          </ul>
          <hr>
          <div>MongoDB - NoSQL</div>
          <hr>
          <div>FileSystem - Fake SQL</div>
        "

/-- The markup of `bodySkills6`. -/
def markupBodySkills6 : String :=
  "
          <ul role='methods items'>
            <li role='methods item'>UML - Conception basée sur les classes</li>
            <li role='methods item'>Merise - Conception basée sur les tables de la BDD</li>
          </ul>
          <hr>
          <ul role='agile items'>
            <li role='agile item'>Agile - Multiple méthodes de gestion de projets</li>
            <li role='agile item'>Scrum - Méthode de gestion de projets</li>
          </ul>
          <hr>
          <ul role='git items'>
            <li role='git item'>Git - Versioning de projet</li>
            <li role='git item'>Gerrit - Revue de code collaboratif</li>
            <li role='git item'>Github - Hébergement et gestion de répertoire de projets</li>
          </ul>
        "

/-- The markup of `bodySkills7`. -/
def markupBodySkills7 : String :=
  "
          <div>Docker - Conteneurisation pour intégration continue</div>
          <hr>
          <ul role='CD items'>
            <li role='CD item'>Github-Actions - Développement continu</li>
            <li role='CD item'>Jenkins - Développement continu</li>
          </ul>
        "

/-- The markup of `bodyProject1`. -/
def markupBodyProject1 : String :=
  "
          <div role='repository'><a target='_blank' href='https://github.com/Fhurai/AFPA_CDA_gestionClients'>Repository</a></div>
          <hr/>
          <div role='description'>Projet pour simuler la gestion de clients et de prospects dans un projet desktop Java</div>
          <hr/>
          <ul role='technologies'>
            <li>Java</li>
            <li>Junit - Tests Unitaires</li>
            <li>Swing - Interface graphique</li>
            <li>MySQL - SGBDR</li>
            <li>MongoDB - NoSQL</li>
            <li>FileSystem - Fake SQL</li>
          </ul>
        "

/-- The markup of `bodyProject2`. -/
def markupBodyProject2 : String :=
  "
          <div role='repository'><a target='_blank' href='https://github.com/Fhurai/AFPA_CDA_web'>Repository</a></div>
          <hr/>
          <div role='access'><a target='blank' href='https://fhurai.github.io/AFPA_CDA_web/'>Access</a></div>
          <hr/>
          <div role='description'>Divers exercices web pour se maintenir à jour et s'améliorer.</div>
          <hr/>
          <ul role='technologies'>
            <li>HTML/CSS - Balises web</li>
            <li>Javascript - Comportement client web</li>
          </ul>
        "

/-- The markup of `bodyProject3`. -/
def markupBodyProject3 : String :=
  "
          <div role='repository'><a target='_blank' href='https://github.com/Fhurai/AFPA_CDA_Front'>Repository</a></div>
          <hr/>
          <div role='description'>Juste la partie front du projet JakartaEE, totalement généré en javascript et utilisant des API.</div>
          <hr/>
          <ul role='technologies'>
            <li>HTML/CSS - Balises web</li>
            <li>Javascript - Comportement client web</li>
            <li>Less Preprocessor</li>
          </ul>
        "

/-- The markup of `bodyProject4`. -/
def markupBodyProject4 : String :=
  "
          <div role='repository'><a target='_blank' href='https://github.com/Fhurai/AFPA_CDA_JakartaEE'>Repository</a></div>
          <hr/>
          <div role='description'>Projet Gestion Clients sous forme d'un projet JakartaEE</div>
          <hr/>
          <ul role='technologies'>
            <li>Java</li>
            <li>Maven - Gestion de dépendances</li>
            <li>CSS</li>
            <li>Javascript - Comportement client web</li>
            <li>Less Preprocessor</li>
          </ul>
        "

/-- The markup of `bodyProject5`. -/
def markupBodyProject5 : String :=
  "
          <ul role='repository'>
            <li><a target='_blank' href='https://github.com/Fhurai/ParcInfo'>Repository Web</a></li>
            <li><a target='_blank' href='https://github.com/Fhurai/ParcInfoAPI'>Repository API</a></li>
          </ul>
          <hr/>
          <div role='description'>Projet de gestion d'un parc informatique pour apprendre l'utilisation de Springboot Framework</div>
          <hr/>
          <ul role='technologies'>
            <li>Java</li>
            <li>Springboot</li>
            <li>Thymeleaf template</li>
            <li>HTML/CSS - Balises web</li>
            <li>Less Preprocessor</li>
            <li>MySQL - SGBDR</li>
            <li>Docker</li>
          </ul>
        "

/-- The markup of `bodyProject6`. -/
def markupBodyProject6 : String :=
  "
          <ul role='repository'>
            <li><a target='_blank' href='https://github.com/AzureSistersXIV/commissionXplorer'>Repository Web</a></li>
            <li><a target='_blank' href='https://github.com/AzureSistersXIV/commissionXplorerAPI'>Repository API</a></li>
          </ul>
          <hr/>
          <div role='access'><a target='blank' href='https://azuresistersxiv.github.io/commissionXplorer/'>Access</a></div>
          <hr/>
          <div role='description'>Applicatif de gallerie de commissions, permettant de visionner l'ensemble des commissions obtenues</div>
          <hr/>
          <ul role='technologies'>
            <li>PHP : Hypertext Preprocessor</li>
            <li>HTML/CSS - Balises web</li>
            <li>Javascript - Comportement client web</li>
          </ul>
        "

/-- The markup of `bodyProject7`. -/
def markupBodyProject7 : String :=
  "
          <ul role='repository'>
            <li><a target='_blank' href='https://github.com/AzureSistersXIV/gposesXplorer'>Repository Web</a></li>
            <li><a target='_blank' href='https://github.com/AzureSistersXIV/gposesXplorerAPI'>Repository API</a></li>
          </ul>
          <hr/>
          <div role='access'><a target='blank' href='https://azuresistersxiv.github.io/gposesXplorer/'>Access</a></div>
          <hr/>
          <div role='description'>Applicatif de gallerie de screenshots moddés, permettant de visionner l'ensemble des screenshots créés.</div>
          <hr/>
          <ul role='technologies'>
            <li>PHP : Hypertext Preprocessor</li>
            <li>HTML/CSS - Balises web</li>
            <li>Javascript - Comportement client web</li>
          </ul>
        "

/-- The markup of `bodyProject9`. -/
def markupBodyProject9 : String :=
  "
          <div role='repository'><a target='_blank' href='https://github.com/Fhurai/_FanBk'>Repository</a></div>
          <hr/>
          <div role='description'>Projet Cakephp pour garder en mémoire ce qui a été durant plusieurs années en milieu professionnel</div>
          <hr/>
          <ul role='technologies'>
            <li>PHP : Hypertext Preprocessor</li>
            <li>Javascript - Comportement client web</li>
            <li>HTML/CSS - Balises web</li>
            <li>CakePHP - Framework PHP</li>
          </ul>
        "

/-- The markup of `bodyProject10`. -/
def markupBodyProject10 : String :=
  "
          <div role='repository'><a target='_blank' href='https://github.com/Fhurai/_ffb_webservices'>Repository</a></div>
          <hr/>
          <div role='description'>API de gestion des marques pages de fanfictions lues/à lire sur Internet.</div>
          <hr/>
          <ul role='technologies'>
            <li>PHP : Hypertext Preprocessor</li>
            <li>MySQL - SGBDR</li>
          </ul>
        "

/-- The markup of `bodyProject11`. -/
def markupBodyProject11 : String :=
  "
          <div role='repository'><a target='_blank' href='https://github.com/Fhurai/_cv'>Repository</a></div>
          <hr/>
          <div role='access'><a target='blank' href='https://fhurai.github.io/_cv/'>Access</a></div>
          <hr/>
          <div role='description'>CV en ligne.</div>
          <hr/>
          <ul role='technologies'>
            <li>HTML/CSS - Balises web</li>
            <li>Javascript - Comportement client web</li>
          </ul>
        "

/-- The markup of `bodyProject12`. -/
def markupBodyProject12 : String :=
  "
          <div role='repository'><a target='_blank' href='https://github.com/Fhurai/_exercices'>Repository</a></div>
          <hr/>
          <div role='access'><a target='blank' href='https://fhurai.github.io/_exercices/'>Access</a></div>
          <hr/>
          <div role='description'>Différents exercices sur des composants et des jeux en ligne.</div>
          <hr/>
          <ul role='technologies'>
            <li>HTML/CSS - Balises web</li>
            <li>Javascript - Comportement client web</li>
          </ul>
        "

/-- The table of `Creator.createIdentityCards`. -/
def identityCards : List CardRecord :=
  [
    { cardData := { className := "identity", id := "identity1", title := "Identité" },
      contentData := { id := "bodyIdentity1", innerHTML := markupBodyIdentity1 } },
    { cardData := { className := "identity", id := "identity2", title := "Coordonnées" },
      contentData := { id := "bodyIdentity2", innerHTML := markupBodyIdentity2 } },
    { cardData := { className := "identity", id := "identity3", title := "Contact" },
      contentData := { id := "bodyIdentity3", innerHTML := markupBodyIdentity3 } },
    { cardData := { className := "identity", id := "identity5", title := "Diplômes / Attestation / Certificat" },
      contentData := { id := "bodyIdentity5", innerHTML := markupBodyIdentity5 } }
  ]

/-- The table of `Creator.createProfessionalExCards`, oldest experience first. -/
def experiences : List CardRecord :=
  [
    { cardData := { className := "professional ul", id := "professional1", title := "1ère expérience : Sira Multiservices" },
      contentData := { id := "bodyPro1", innerHTML := markupBodyPro1 } },
    { cardData := { className := "professional ul", id := "professional2", title := "2ème expérience : OGMI" },
      contentData := { id := "bodyPro2", innerHTML := markupBodyPro2 } },
    { cardData := { className := "professional", id := "professional3", title := "3ème expérience : Efluid" },
      contentData := { id := "bodyPro3", innerHTML := markupBodyPro3 } },
    { cardData := { className := "professional", id := "professional4", title := "4ème expérience : CAC" },
      contentData := { id := "bodyPro4", innerHTML := markupBodyPro4 } },
    { cardData := { className := "professional", id := "professional5", title := "5ème expérience : Happiso" },
      contentData := { id := "bodyPro5", innerHTML := markupBodyPro5 } },
    { cardData := { className := "professional afpa", id := "professional6", title := "6ème expérience : Profluens" },
      contentData := { id := "bodyPro6", innerHTML := markupBodyPro6 } }
  ]

/-- The table of `Creator.createFormationsCards`, oldest formation first. -/
def formations : List CardRecord :=
  [
    { cardData := { className := "formation ul", id := "formation1", title := "1ère formation : DUT" },
      contentData := { id := "bodyFormation1", innerHTML := markupBodyFormation1 } },
    { cardData := { className := "formation ul", id := "formation2", title := "2ème formation : LP WCE" },
      contentData := { id := "bodyFormation2", innerHTML := markupBodyFormation2 } },
    { cardData := { className := "formation afpa", id := "formation3", title := "3ème formation : TP CDA" },
      contentData := { id := "bodyFormation3", innerHTML := markupBodyFormation3 } }
  ]

/-- The table of `Creator.createSkillsCards`. -/
def skillsCards : List CardRecord :=
  [
    { cardData := { className := "skills", id := "skills1", title := "Langages" },
      contentData := { id := "bodySkills1", innerHTML := markupBodySkills1 } },
    { cardData := { className := "skills", id := "skills2", title := "Java" },
      contentData := { id := "bodySkills2", innerHTML := markupBodySkills2 } },
    { cardData := { className := "skills", id := "skills3", title := "Front" },
      contentData := { id := "bodySkills3", innerHTML := markupBodySkills3 } },
    { cardData := { className := "skills", id := "skills4", title := "Back" },
      contentData := { id := "bodySkills4", innerHTML := markupBodySkills4 } },
    { cardData := { className := "skills", id := "skills5", title := "Base de données" },
      contentData := { id := "bodySkills5", innerHTML := markupBodySkills5 } },
    { cardData := { className := "skills", id := "skills6", title := "Gestion de projet" },
      contentData := { id := "bodySkills6", innerHTML := markupBodySkills6 } },
    { cardData := { className := "skills", id := "skills7", title := "DevOps - CI/CD" },
      contentData := { id := "bodySkills7", innerHTML := markupBodySkills7 } }
  ]

/-- The table of `Creator.createProjectsCards`. -/
def projects : List CardRecord :=
  [
    { cardData := { className := "project afpa", id := "project1", title := "Gestion clients AFPA" },
      contentData := { id := "bodyProject1", innerHTML := markupBodyProject1 } },
    { cardData := { className := "project afpa", id := "project2", title := "Exercices web AFPA" },
      contentData := { id := "bodyProject2", innerHTML := markupBodyProject2 } },
    { cardData := { className := "project afpa", id := "project3", title := "Front web AFPA" },
      contentData := { id := "bodyProject3", innerHTML := markupBodyProject3 } },
    { cardData := { className := "project afpa", id := "project4", title := "JakartaEE AFPA" },
      contentData := { id := "bodyProject4", innerHTML := markupBodyProject4 } },
    { cardData := { className := "project afpa", id := "project5", title := "Parc Info AFPA + API" },
      contentData := { id := "bodyProject5", innerHTML := markupBodyProject5 } },
    { cardData := { className := "project asxiv", id := "project6", title := "Commission Xplorer" },
      contentData := { id := "bodyProject6", innerHTML := markupBodyProject6 } },
    { cardData := { className := "project asxiv", id := "project7", title := "Gposes Xplorer" },
      contentData := { id := "bodyProject7", innerHTML := markupBodyProject7 } },
    { cardData := { className := "project", id := "project9", title := "FanBk" },
      contentData := { id := "bodyProject9", innerHTML := markupBodyProject9 } },
    { cardData := { className := "project", id := "project10", title := "ffb_webservices" },
      contentData := { id := "bodyProject10", innerHTML := markupBodyProject10 } },
    { cardData := { className := "project", id := "project11", title := "cv" },
      contentData := { id := "bodyProject11", innerHTML := markupBodyProject11 } },
    { cardData := { className := "project", id := "project12", title := "exercices (personnel)" },
      contentData := { id := "bodyProject12", innerHTML := markupBodyProject12 } }
  ]

/-! ## `Creator.createNavbar` and `Creator.createCards` -/

/-- The markup of one navigation entry. -/
def liMarkup (e : NavEntry) : String :=
  "<li data-class='" ++ e.dataClass ++ "'>" ++ e.text ++ "</li>"

/-- The value assigned to `list.innerHTML` in `createNavbar`. -/
def navbarItemsMarkup (token : String) : String :=
  (if isUnlocked token then "<li data-class='identity'>Identité</li>" else "")
    ++ "<li data-class='professional'>Expériences Pro</li>"
    ++ "<li data-class='formation'>Formations</li>"
    ++ "<li data-class='skills'>Compétences</li>"
    ++ "<li data-class='project'>Projets</li>"

/-- The `li` elements that `navbarItemsMarkup` denotes, in document order. -/
def navbarItems (token : String) : List NavEntry :=
  (if isUnlocked token then [{ dataClass := "identity", text := "Identité", title := "" }]
    else [])
    ++ [{ dataClass := "professional", text := "Expériences Pro", title := "" },
        { dataClass := "formation", text := "Formations", title := "" },
        { dataClass := "skills", text := "Compétences", title := "" },
        { dataClass := "project", text := "Projets", title := "" }]

/-- The `nav` element built by `createNavbar`, before it is appended to the root. -/
def navbarElement (token : String) : Node :=
  let header := createElement "h1" [("className", "header"), ("id", "header")]
    [Child.str "Curriculum Vitae"]
  let btnLabel := createElement "label"
    [("className", "btnLabel"), ("id", "labelBtnNavbar"), ("for", "btnNavbar")] []
  let btnLabel := btnLabel.setInnerHTML "<span></span><span></span><span></span>"
  let button := createElement "input"
    [("className", "btn"), ("id", "btnNavbar"), ("type", "checkbox")] []
  let list := createElement "ul" [("className", "navbarItems"), ("id", "navbarItems")] []
  let list := list.setInnerHTML (navbarItemsMarkup token)
  createElement "nav" [("className", "fixed"), ("id", "navbar")]
    [Child.node header, Child.node btnLabel, Child.node button, Child.node list]

/-- `Creator.createNavbar(root)`. -/
def createNavbar (token : String) (root : Node) : Node :=
  root.appendChild (navbarElement token)

/-- The loop shared by the card-group builders:
`records.forEach((r) => root.appendChild(createCard(r.cardData, r.contentData)))`. -/
def appendCards (root : Node) (records : List CardRecord) : Node :=
  records.foldl (fun root r => root.appendChild (createCard r.cardData r.contentData)) root

/-- `Creator.createIdentityCards(root)`. -/
def createIdentityCards (root : Node) : Node := appendCards root identityCards

/-- `Creator.createProfessionalExCards(root)`. -/
def createProfessionalExCards (root : Node) : Node := appendCards root experiences.reverse

/-- `Creator.createFormationsCards(root)`. -/
def createFormationsCards (root : Node) : Node := appendCards root formations.reverse

/-- `Creator.createSkillsCards(root)`. -/
def createSkillsCards (root : Node) : Node := appendCards root skillsCards

/-- `Creator.createProjectsCards(root)`. -/
def createProjectsCards (root : Node) : Node := appendCards root projects

/-- The cards container built by `createCards`, before it is appended to the root. -/
def cardsContainer (token : String) : Node :=
  let cards := createElement "div" [("className", "cards"), ("id", "cards")] []
  let cards := if isUnlocked token then createIdentityCards cards else cards
  let cards := createProfessionalExCards cards
  let cards := createFormationsCards cards
  let cards := createSkillsCards cards
  createProjectsCards cards

/-- `Creator.createCards(root)`. -/
def createCards (token : String) (root : Node) : Node :=
  root.appendChild (cardsContainer token)

/-! ## The page state, `clickCards` and its click listener -/

/-- An `input` element of the document: its `id` and its `checked` state. -/
structure InputElement where
  id : String
  checked : Bool
  deriving DecidableEq, Repr

/-- A call observed while a handler runs. -/
inductive Call where
  | showCards (cardType : String)
  | setTimeout (callback : String) (delay : Nat)
  deriving DecidableEq, Repr

/-- The state of the page that the event handlers read and write: the globals
`cardType` and `token`, the `nav ul li` elements in document order, each with
the number of click listeners attached to it, the `input` elements of the
document in document order, the elements of class `card` in document order, the
timers scheduled and not yet run, and the calls made so far. -/
structure Page where
  cardType : String
  token : String
  buttons : List (NavEntry × Nat)
  inputs : List InputElement
  cards : List Node
  timers : List (String × Nat)
  calls : List Call
  deriving Repr

/-- A call of `showCards()` in a page. -/
def Page.showCards (st : Page) : Page :=
  { st with cards := CV.showCards st.cardType st.cards,
            calls := st.calls ++ [Call.showCards st.cardType] }

/-- A call of `setTimeout(callback, delay)` in a page. -/
def Page.setTimeout (st : Page) (callback : String) (delay : Nat) : Page :=
  { st with timers := st.timers ++ [(callback, delay)],
            calls := st.calls ++ [Call.setTimeout callback delay] }

/-- The click listener that `clickCards` attaches to a navigation entry; `entry`
is `event.currentTarget`. The result is `none` when the document has no `input`
element (`document.querySelector("input")` is `null`). -/
def clickListener (entry : NavEntry) (st : Page) : Option Page :=
  let st := { st with cardType := entry.dataClass }
  match st.inputs with
  | [] => none
  | input :: rest =>
    let st := { st with inputs := { input with checked := false } :: rest }
    let st := st.showCards
    some (st.setTimeout "scrollToTopOfCardsWithOffset" 10)

/-- `clickCards()`: `cardType` becomes `identity` when the page is unlocked, and
every navigation button gets one more click listener. -/
def clickCards (st : Page) : Page :=
  { st with cardType := if isUnlocked st.token then "identity" else st.cardType,
            buttons := st.buttons.map (fun b => (b.1, b.2 + 1)) }

/-- Run the click listener `count` times on an entry, stopping at an exception. -/
def runListeners : Nat → NavEntry → Page → Option Page
  | 0, _, st => some st
  | count + 1, entry, st => (clickListener entry st).bind (runListeners count entry)

/-- One click on the navigation button of index `i`: every click listener
attached to it runs, in order. A click elsewhere changes nothing. -/
def click (i : Nat) (st : Page) : Option Page :=
  match st.buttons.get? i with
  | none => some st
  | some (entry, count) => runListeners count entry st

/-- The page when `clickCards` is called in the `DOMContentLoaded` handler: the
navigation bar and the cards are built, no listener is attached, and the only
`input` is the menu toggle of `createNavbar`. -/
def builtPage (token : String) : Page :=
  { cardType := initialCardType,
    token := token,
    buttons := (navbarItems token).map (fun e => (e, 0)),
    inputs := [{ id := "btnNavbar", checked := false }],
    cards := (cardsContainer token).childNodes,
    timers := [],
    calls := [] }

/-! ## `Creator.createLoading` and the identifiers of a tree -/

/-- The loading indicator built by `createLoading`. -/
def loadingElement : Node :=
  createElement "div" [("className", "loading"), ("id", "loading")] []

/-- `Creator.createLoading(root)`. -/
def createLoading (root : Node) : Node :=
  root.appendChild loadingElement

mutual
/-- The `id` of an element and of the elements below it, in document order. -/
def Node.ids : Node → List String
  | Node.text _ => []
  | Node.element p cs => p.id :: idsOfNodes cs
/-- The identifiers of the elements of a list of trees, in document order. -/
def idsOfNodes : List Node → List String
  | [] => []
  | n :: ns => n.ids ++ idsOfNodes ns
end

/-- The fixed identifiers of the nodes built by `createLoading`, `createNavbar`
and `createCards` around the cards. -/
def shellIds : List String :=
  ["loading", "navbar", "header", "labelBtnNavbar", "btnNavbar", "navbarItems", "cards"]

/-- The five static card tables, in the order of `createCards`. -/
def allCardRecords : List CardRecord :=
  identityCards ++ experiences ++ formations ++ skillsCards ++ projects

/-- The card id and the body id of every record of a list. -/
def recordIds (records : List CardRecord) : List String :=
  records.flatMap (fun r => [r.cardData.id, r.contentData.id])

/-- The categories, among the five, that a card carries as a class. -/
def cardCategories (card : Node) : List String :=
  categories.filter (fun C => card.hasClass C)

/-- The array that `menuDetails` joins into the formation title:
`[bacLevels[0], ...others.filter((o) => !bacLevels.includes(o))].filter(Boolean)`. -/
def formationParts (toUpperCase : String → String) (innerTexts : List String) : List String :=
  let levels := innerTexts.map (fun t => toUpperCase (jsTrim t))
  let bacLevels := sortWith bacCompare (levels.filter (fun l => startsWith l "BAC +"))
  let others := setFromArray (levels.filter (fun l => !startsWith l "BAC +"))
  let parts : List (Option String) :=
    bacLevels.head? :: (others.filter (fun o => !decide (o ∈ bacLevels))).map some
  parts.filterMap (fun p => p.filter (fun x => x ≠ ""))

/-! ## The page after loading and sequences of clicks -/

/-- The page once the `DOMContentLoaded` handler has called `clickCards()` and
`showCards()`. -/
def loadedPage (token : String) : Page :=
  (clickCards (builtPage token)).showCards

/-- A sequence of clicks, given by the indices of the navigation buttons
clicked, stopping at an exception. -/
def clicks : List Nat → Page → Option Page
  | [], st => some st
  | i :: rest, st => (click i st).bind (clicks rest)

/-- What holds of the page after loading and after every click: the token and
the listeners are those set up at load, the document has an `input`, the current
category is the tag of a navigation entry, the cards are those built at load up
to their `visible` flag, and the visible cards are the cards of the current
category. -/
def PageInv (token : String) (st : Page) : Prop :=
  st.token = token
    ∧ st.buttons = (navbarItems token).map (fun e => (e, 1))
    ∧ (∃ toggle rest, st.inputs = toggle :: rest)
    ∧ st.cardType ∈ (navbarItems token).map (fun e => e.dataClass)
    ∧ (∀ t, t ≠ "visible" →
        st.cards.map (fun c => c.hasClass t)
          = (cardsContainer token).childNodes.map (fun c => c.hasClass t))
    ∧ st.cards.map (fun c => c.hasClass "visible")
        = st.cards.map (fun c => c.hasClass st.cardType)

/-! ## The `DOMContentLoaded` handler on the document tree -/

/-- `el.classList.toggle(token)`. -/
def Node.toggleClass (token : String) (n : Node) : Node :=
  if n.hasClass token then n.setClassList (classListRemove n.classList token)
  else n.setClassList (classListAdd n.classList token)

mutual
/-- `showCards()` on a tree: every element of class `card` in it gets the body
of the `forEach` of `showCards`. -/
def Node.showCardsIn (cardType : String) : Node → Node
  | Node.text d => Node.text d
  | Node.element p cs =>
    if (Node.element p cs).hasClass "card" then
      showCard cardType (Node.element p (showCardsInAll cardType cs))
    else Node.element p (showCardsInAll cardType cs)
/-- `showCards()` on a list of trees. -/
def showCardsInAll (cardType : String) : List Node → List Node
  | [] => []
  | n :: ns => n.showCardsIn cardType :: showCardsInAll cardType ns
end

/-- The part of the document that the handler works on: the parent element of
the mount container, its children before the mount container, the mount
container (the element of id `content`), the children after it, and the children
appended to the parent by the script. The host page is such that
`getElementById` finds the mount container for `content` and the indicator of
`createLoading` for `loading`. -/
structure Document where
  parent : ElementProps
  before : List Node
  content : Node
  after : List Node
  appended : List Node
  deriving Repr

/-- `document.getElementById("content").parentElement` with its children. -/
def Document.parentElement (d : Document) : Node :=
  Node.element d.parent (d.before ++ d.content :: (d.after ++ d.appended))

/-- `Creator.createLoading(document.getElementById("content").parentElement)`. -/
def Document.createLoading (d : Document) : Document :=
  { d with appended := d.appended ++ [loadingElement] }

/-- `document.getElementById("loading").classList.toggle("load")`. -/
def Document.toggleLoad (d : Document) : Document :=
  { d with appended :=
      d.appended.map (fun n => if n.id = "loading" then n.toggleClass "load" else n) }

/-- `showCards()` on the document. -/
def Document.showCards (cardType : String) (d : Document) : Document :=
  { d with before := showCardsInAll cardType d.before,
           content := d.content.showCardsIn cardType,
           after := showCardsInAll cardType d.after,
           appended := showCardsInAll cardType d.appended }

/-- The `DOMContentLoaded` handler on the document tree; `params` lists the
pairs of the query string. The listeners attached by `clickCards()` and the
titles set by `menuDetails()` are not part of the tree: they are kept in `Page`
and in the navigation entries. The result is `none` when the handler throws. -/
def domContentLoaded (params : List (String × String)) (d : Document) : Option Document := do
  let token ← getAndUseAccessToken params initialToken
  let d := d.createLoading
  let d := d.toggleLoad
  let d := { d with content := createNavbar token d.content }
  let d := { d with content := createCards token d.content }
  let page := clickCards (builtPage token)
  let d := d.showCards page.cardType
  some d.toggleLoad

/-- A host document whose mount container is empty and is the only child of its
parent. -/
def emptyHost : Document :=
  { parent := { tag := "body", classList := [], id := "", attributes := [], innerHTML := "" },
    before := [],
    content := Node.element
      { tag := "div", classList := [], id := "content", attributes := [], innerHTML := "" } [],
    after := [],
    appended := [] }

/-! ## Example nodes -/

/-- An element with the given tag, `role` attribute and children, as the parser
builds it from markup such as the body of a project card. -/
def roleElement (tag role : String) (childNodes : List Node) : Node :=
  Node.element
    { tag := tag, classList := [], id := "", attributes := [("role", role)], innerHTML := "" }
    childNodes

/-- A card body with the given child nodes. -/
def bodyElement (id : String) (childNodes : List Node) : Node :=
  Node.element
    { tag := "div", classList := ["body"], id := id, attributes := [], innerHTML := "" }
    childNodes

/-- Three project card bodies: two with one `access` child each, one whose only
`access` element is nested in a child of another role. -/
def exampleProjectBodies : List Node :=
  [ bodyElement "bodyA"
      [Node.text "\n", roleElement "div" "repository" [Node.text "Repository"],
       roleElement "div" "access" [Node.text "Access"],
       roleElement "div" "description" [Node.text "A"]],
    bodyElement "bodyB"
      [roleElement "ul" "repository" [roleElement "li" "access" [Node.text "nested"]],
       roleElement "div" "description" [Node.text "B"]],
    bodyElement "bodyC"
      [roleElement "div" "access" [Node.text "Access"],
       roleElement "ul" "technologies" [Node.text "C"]] ]

/-! ## Reference definitions for the formation title -/

/-- The elements of `xs` that do not occur in `before` nor earlier in `xs`, in
the order of `xs`. -/
def distinctAfter : List String → List String → List String
  | _, [] => []
  | before, x :: xs =>
    if x ∈ before then distinctAfter (x :: before) xs
    else x :: distinctAfter (x :: before) xs

/-- The distinct elements of a list, each kept once at its first occurrence. -/
def distinctInOrder (xs : List String) : List String := distinctAfter [] xs

/-- The levels as `menuDetails` reads them: trimmed, then upper-cased. -/
def normalizedLevels (toUpperCase : String → String) (innerTexts : List String) : List String :=
  innerTexts.map (fun t => toUpperCase (jsTrim t))

/-- The levels that start with `BAC +`, in document order. -/
def bacLabels (levels : List String) : List String :=
  levels.filter (fun l => startsWith l "BAC +")

/-- The levels that do not start with `BAC +`, in document order. -/
def otherLabels (levels : List String) : List String :=
  levels.filter (fun l => !startsWith l "BAC +")

/-- The integer that follows `BAC +` in a level that has one. -/
def bacNumber (l : String) : Int := (bacKey l).getD 0

/-- A decimal digit character. -/
def IsDecDigit (c : Char) : Prop := 48 ≤ c.toNat ∧ c.toNat ≤ 57

/-- The value of a string of decimal digits read after the value `acc`. -/
def decValue (acc : Nat) (ds : List Char) : Nat :=
  ds.foldl (fun a c => a * 10 + (c.toNat - 48)) acc

/-! ## Reference definitions for Base64 -/

/-- The 6-bit value of a character of the Base64 alphabet (`0` for any other). -/
def base64Index (c : Char) : Nat :=
  let n := c.toNat
  if 65 ≤ n ∧ n ≤ 90 then n - 65
  else if 97 ≤ n ∧ n ≤ 122 then n - 71
  else if 48 ≤ n ∧ n ≤ 57 then n + 4
  else if n = 43 then 62
  else if n = 47 then 63
  else 0

/-- The bytes that a padded Base64 text stands for; the inverse of
`base64OfBytes`. -/
def bytesOfBase64 : List Char → List Nat
  | a :: b :: c :: d :: rest =>
    if c = '=' then [base64Index a * 4 + base64Index b / 16]
    else if d = '=' then
      [base64Index a * 4 + base64Index b / 16,
       base64Index b % 16 * 16 + base64Index c / 4]
    else
      (base64Index a * 4 + base64Index b / 16)
        :: (base64Index b % 16 * 16 + base64Index c / 4)
        :: (base64Index c % 4 * 64 + base64Index d) :: bytesOfBase64 rest
  | _ => []

/-- The string whose Base64 encoding is the constant of `isUnlocked`: the
characters of the bytes that the constant stands for. -/
def secret : String :=
  String.mk ((bytesOfBase64 "THVjYXNLdW50ejU3MDcwTWV0eg==".data).map Char.ofNat)

/-! ## `base64Decode`: `atob`, `escape` and `decodeURIComponent` -/

/-- Whether a character belongs to the Base64 alphabet: `+`, `/` or an ASCII
alphanumeric. -/
def isBase64Char (c : Char) : Bool :=
  decide (65 ≤ c.toNat ∧ c.toNat ≤ 90) || decide (97 ≤ c.toNat ∧ c.toNat ≤ 122)
    || decide (48 ≤ c.toNat ∧ c.toNat ≤ 57) || decide (c.toNat = 43) || decide (c.toNat = 47)

/-- Remove one or two `=` from the end of a text. -/
def stripPadding (d : List Char) : List Char :=
  match d.reverse with
  | '=' :: '=' :: r => r.reverse
  | '=' :: r => r.reverse
  | _ => d

/-- The bytes of a run of 6-bit values: four values give three bytes, a rest of
three gives two bytes, a rest of two gives one. -/
def bytesOfSextets : List Nat → List Nat
  | a :: b :: c :: d :: rest =>
    (a * 4 + b / 16) :: (b % 16 * 16 + c / 4) :: (c % 4 * 64 + d) :: bytesOfSextets rest
  | [a, b, c] => [a * 4 + b / 16, b % 16 * 16 + c / 4]
  | [a, b] => [a * 4 + b / 16]
  | _ => []

/-- `atob(data)`, the forgiving Base64 decoding of the HTML standard, giving the
code units of the binary string; `none` is an `InvalidCharacterError`. -/
def atob (data : String) : Option (List Nat) :=
  let d := data.data.filter (fun c => !isAsciiWhitespace c)
  let d := if d.length % 4 = 0 then stripPadding d else d
  if d.length % 4 = 1 then none
  else if d.all isBase64Char then some (bytesOfSextets (d.map base64Index))
  else none

/-- The code units `escape` leaves as they are: `A-Z a-z 0-9 @ * _ + - . /`. -/
def isEscapeUnreserved (u : Nat) : Bool :=
  decide (65 ≤ u ∧ u ≤ 90) || decide (97 ≤ u ∧ u ≤ 122) || decide (48 ≤ u ∧ u ≤ 57)
    || decide (u ∈ [64, 42, 95, 43, 45, 46, 47])

/-- `escape` for one code unit (ECMAScript, Annex B). -/
def escapeUnit (u : Nat) : List Char :=
  if isEscapeUnreserved u then [Char.ofNat u]
  else if u < 256 then ['%', hexDigit (u / 16), hexDigit (u % 16)]
  else ['%', 'u', hexDigit (u / 4096 % 16), hexDigit (u / 256 % 16), hexDigit (u / 16 % 16),
    hexDigit (u % 16)]

/-- `escape(string)` on the code units of the string. -/
def escape (units : List Nat) : String :=
  String.mk (units.flatMap escapeUnit)

/-- What `decodeURIComponent` reads: a character copied as it is, or the byte of
an escape `%XX`. -/
inductive UriItem where
  | lit (c : Char)
  | byte (b : Nat)
  deriving DecidableEq, Repr

/-- The characters and escapes of a text; `none` (a `URIError`) when a `%` is
not followed by two hexadecimal digits. -/
def percentItems : List Char → Option (List UriItem)
  | [] => some []
  | '%' :: a :: b :: rest =>
    match hexRun [a.toNat, b.toNat] with
    | some v => (percentItems rest).map (fun items => UriItem.byte v :: items)
    | none => none
  | '%' :: _ => none
  | c :: rest => (percentItems rest).map (fun items => UriItem.lit c :: items)

/-- A continuation byte of UTF-8: `10xxxxxx`. -/
def isContinuation (b : Nat) : Bool := decide (0x80 ≤ b) && decide (b < 0xC0)

/-- Whether a value read from `need + 1` bytes is a code point in its shortest
UTF-8 encoding: at least `low`, not a surrogate and at most `0x10FFFF`. -/
def isDecodedCodePoint (low cp : Nat) : Bool :=
  decide (low ≤ cp) && !(decide (0xD800 ≤ cp) && decide (cp ≤ 0xDFFF)) && decide (cp ≤ 0x10FFFF)

/-- The decoding loop of `decodeURIComponent`. `need` counts the continuation
bytes still expected for the current character (`0` between characters), `acc`
holds the bits read so far and `low` the least code point that needs so many
bytes. A byte below `0x80` is its character; a lead byte `110xxxxx`, `1110xxxx`
or `11110xxx` takes one, two or three escapes that must be continuation bytes;
anything else is a `URIError`. -/
def decodeFrom : Nat → Nat → Nat → List UriItem → Option (List Char)
  | 0, _, _, [] => some []
  | _ + 1, _, _, [] => none
  | 0, _, _, UriItem.lit c :: rest => (decodeFrom 0 0 0 rest).map (fun cs => c :: cs)
  | _ + 1, _, _, UriItem.lit _ :: _ => none
  | 0, _, _, UriItem.byte b :: rest =>
    if b < 0x80 then (decodeFrom 0 0 0 rest).map (fun cs => Char.ofNat b :: cs)
    else if b < 0xC0 then none
    else if b < 0xE0 then decodeFrom 1 (b - 0xC0) 0x80 rest
    else if b < 0xF0 then decodeFrom 2 (b - 0xE0) 0x800 rest
    else if b < 0xF8 then decodeFrom 3 (b - 0xF0) 0x10000 rest
    else none
  | need + 1, acc, low, UriItem.byte b :: rest =>
    if isContinuation b then
      if need = 0 then
        if isDecodedCodePoint low (acc * 64 + (b - 0x80)) then
          (decodeFrom 0 0 0 rest).map (fun cs => Char.ofNat (acc * 64 + (b - 0x80)) :: cs)
        else none
      else decodeFrom need (acc * 64 + (b - 0x80)) low rest
    else none

/-- The characters that a run of items stands for. -/
def decodeItems (items : List UriItem) : Option (List Char) :=
  decodeFrom 0 0 0 items

/-- `decodeURIComponent(str)`; `none` is a `URIError`. -/
def decodeURIComponent (str : String) : Option String :=
  ((percentItems str.data).bind decodeItems).map String.mk

/-- `base64Decode(encoded)`: `decodeURIComponent(escape(atob(encoded)))`. -/
def base64Decode (encoded : String) : Option String :=
  (atob encoded).bind (fun units => decodeURIComponent (escape units))

/-- The 6-bit values that Base64 writes for a list of bytes, without padding. -/
def sextetsOfBytes : List Nat → List Nat
  | [] => []
  | [a] => [a / 4, a % 4 * 16]
  | [a, b] => [a / 4, a % 4 * 16 + b / 16, b % 16 * 4]
  | a :: b :: c :: rest =>
    (a / 4) :: (a % 4 * 16 + b / 16) :: (b % 16 * 4 + c / 64) :: (c % 64) :: sextetsOfBytes rest

/-- The number of `=` that Base64 appends for a list of bytes. -/
def paddingOfBytes : List Nat → Nat
  | [] => 0
  | [_] => 2
  | [_, _] => 1
  | _ :: _ :: _ :: rest => paddingOfBytes rest

/-- What `decodeURIComponent` reads for a code unit below 256 written by
`escape`. -/
def itemOfUnit (u : Nat) : UriItem :=
  if isEscapeUnreserved u then UriItem.lit (Char.ofNat u) else UriItem.byte u

/-! ## Lemmas on ordered sets -/

theorem mem_foldl_setAppend (x : String) (xs acc : List String) :
    x ∈ xs.foldl setAppend acc ↔ x ∈ acc ∨ x ∈ xs := by
  induction xs generalizing acc with
  | nil => simp
  | cons y ys ih =>
    rw [List.foldl_cons, ih]
    unfold setAppend
    by_cases hy : y ∈ acc
    · simp only [hy, if_true, List.mem_cons]
      constructor
      · rintro (h | h)
        · exact Or.inl h
        · exact Or.inr (Or.inr h)
      · rintro (h | h | h)
        · exact Or.inl h
        · exact Or.inl (h ▸ hy)
        · exact Or.inr h
    · simp only [hy, if_false, List.mem_append, List.mem_singleton, List.mem_cons]
      tauto

theorem mem_setFromArray (x : String) (xs : List String) :
    x ∈ setFromArray xs ↔ x ∈ xs := by
  simp [setFromArray, mem_foldl_setAppend]

theorem splitAux_card (l : List Char) :
    splitAux ('c' :: 'a' :: 'r' :: 'd' :: ' ' :: l) [] = ['c', 'a', 'r', 'd'] :: splitAux l [] := by
  simp [splitAux, isAsciiWhitespace]

theorem splitOnAsciiWhitespace_card (s : String) :
    splitOnAsciiWhitespace ("card " ++ s) = "card" :: splitOnAsciiWhitespace s := by
  unfold splitOnAsciiWhitespace
  have h : ("card " ++ s).data = 'c' :: 'a' :: 'r' :: 'd' :: ' ' :: s.data := by
    rw [String.data_append]; rfl
  rw [h, splitAux_card]
  rfl

/-- The class list of a created card: `card` and the tokens of the record's `className`. -/
theorem classList_createCard (cd : CardData) (ct : ContentData) :
    (createCard cd ct).classList
      = setFromArray ("card" :: splitOnAsciiWhitespace cd.className) := by
  simp [createCard, createElement, applyAttribute, appendChildOf, Node.appendChild,
    Node.classList, parseOrderedSet, splitOnAsciiWhitespace_card]

/-! ## Lemmas on `showCards` -/

theorem hasClass_showCard_visible (cardType : String) (n : Node) :
    (showCard cardType n).hasClass "visible" = n.hasClass cardType := by
  cases n with
  | text d => simp [showCard, Node.hasClass, Node.classList, Node.setClassList, classListContains]
  | element p cs =>
    by_cases h : cardType ∈ p.classList
    · simp [showCard, Node.hasClass, Node.classList, Node.setClassList, classListContains,
        classListAdd, setAppend, h]
      split <;> simp_all
    · simp [showCard, Node.hasClass, Node.classList, Node.setClassList, classListContains,
        classListRemove, h]

theorem hasClass_showCard_of_ne (cardType t : String) (ht : t ≠ "visible") (n : Node) :
    (showCard cardType n).hasClass t = n.hasClass t := by
  cases n with
  | text d => simp [showCard, Node.hasClass, Node.classList, Node.setClassList, classListContains]
  | element p cs =>
    by_cases h : cardType ∈ p.classList
    · simp [showCard, Node.hasClass, Node.classList, Node.setClassList, classListContains,
        classListAdd, setAppend, h]
      split <;> simp_all
    · simp [showCard, Node.hasClass, Node.classList, Node.setClassList, classListContains,
        classListRemove, h, ht]

theorem showCard_idem (cardType : String) (n : Node) :
    showCard cardType (showCard cardType n) = showCard cardType n := by
  cases n with
  | text d => simp [showCard, Node.hasClass, Node.classList, Node.setClassList, classListContains]
  | element p cs =>
    by_cases h : cardType ∈ p.classList
    · by_cases hv : "visible" ∈ p.classList
      · simp [showCard, Node.hasClass, Node.classList, Node.setClassList, classListContains,
          classListAdd, setAppend, h, hv]
      · simp [showCard, Node.hasClass, Node.classList, Node.setClassList, classListContains,
          classListAdd, setAppend, h, hv]
    · by_cases hv : cardType = "visible"
      · subst hv
        simp [showCard, Node.hasClass, Node.classList, Node.setClassList, classListContains,
          classListRemove, h]
      · simp [showCard, Node.hasClass, Node.classList, Node.setClassList, classListContains,
          classListRemove, h, hv]

theorem classList_filter_showCard (cardType : String) (n : Node) :
    (showCard cardType n).classList.filter (fun t => t ≠ "visible")
      = n.classList.filter (fun t => t ≠ "visible") := by
  cases n with
  | text d => simp [showCard, Node.hasClass, Node.classList, Node.setClassList, classListContains]
  | element p cs =>
    by_cases h : cardType ∈ p.classList
    · simp [showCard, Node.hasClass, Node.classList, Node.setClassList, classListContains,
        classListAdd, setAppend, h]
      split <;> simp
    · simp [showCard, Node.hasClass, Node.classList, Node.setClassList, classListContains,
        classListRemove, h]

theorem hasClass_createCard (r : CardRecord) (C : String) (hC : C ≠ "card") :
    (createCard r.cardData r.contentData).hasClass C = r.hasCategory C := by
  simp [Node.hasClass, classListContains, classList_createCard, mem_setFromArray,
    CardRecord.hasCategory, hC]

theorem appendCards_element (p : ElementProps) (cs : List Node) (records : List CardRecord) :
    appendCards (Node.element p cs) records
      = Node.element p (cs ++ records.map (fun r => createCard r.cardData r.contentData)) := by
  induction records generalizing cs with
  | nil => simp [appendCards]
  | cons r rs ih =>
    have h := ih (cs ++ [createCard r.cardData r.contentData])
    simp only [appendCards, List.foldl_cons, Node.appendChild] at h ⊢
    rw [h]
    simp

theorem createCard_eq (cd : CardData) (ct : ContentData) :
    createCard cd ct
      = Node.element
          { tag := "div",
            classList := setFromArray ("card" :: splitOnAsciiWhitespace cd.className),
            id := cd.id, attributes := [], innerHTML := "" }
          [Node.text cd.title,
           Node.element
             { tag := "div", classList := ["body"], id := ct.id, attributes := [],
               innerHTML := ct.innerHTML } []] := by
  have hb : parseOrderedSet "body" = ["body"] := by decide
  simp [createCard, createElement, applyAttribute, appendChildOf, Node.appendChild,
    Node.setInnerHTML, parseOrderedSet, splitOnAsciiWhitespace_card]
  exact hb

/-! ## Properties of the category filter and of the card builders -/

/-- C1: for cards rendered from any list of records, with any `visible` flags
before the call, and any of the five categories `C`, after `showCards` runs with
`cardType = C` a card carries `visible` exactly when its record has category
`C`; the visible cards of the page are then exactly its cards of class `C`, and
no class token other than `visible` has changed. -/
theorem showCards_visible_iff_category (C : String) (hC : C ∈ categories)
    (records : List CardRecord) (cards : List Node)
    (hcards : ∀ t, t ≠ "visible" →
      cards.map (fun c => c.hasClass t) = (renderCards records).map (fun c => c.hasClass t)) :
    (showCards C cards).map (fun c => c.hasClass "visible")
        = records.map (fun r => r.hasCategory C)
      ∧ (showCards C cards).filter (fun c => c.hasClass "visible")
        = (showCards C cards).filter (fun c => c.hasClass C)
      ∧ (showCards C cards).map (fun c => c.classList.filter (fun t => t ≠ "visible"))
        = cards.map (fun c => c.classList.filter (fun t => t ≠ "visible")) := by
  have hv : C ≠ "visible" := by
    intro h; subst h; revert hC; decide
  have hc : C ≠ "card" := by
    intro h; subst h; revert hC; decide
  refine ⟨?_, ?_, ?_⟩
  · have h1 : (showCards C cards).map (fun c => c.hasClass "visible")
        = cards.map (fun c => c.hasClass C) := by
      simp [showCards, hasClass_showCard_visible]
    rw [h1, hcards C hv]
    simp [renderCards, hasClass_createCard _ _ hc]
  · apply List.filter_congr
    intro c hcmem
    simp only [showCards, List.mem_map] at hcmem
    obtain ⟨n, _, rfl⟩ := hcmem
    rw [hasClass_showCard_visible, hasClass_showCard_of_ne _ _ hv]
  · simp only [showCards, List.map_map]
    apply List.map_congr_left
    intro c _
    exact classList_filter_showCard C c

/-- Witness of C1: two rendered cards, `skills` selected. -/
theorem showCards_visible_iff_category_witness :
    "skills" ∈ categories
      ∧ (showCards "skills" (renderCards (skillsCards.take 1 ++ projects.take 1))).map
          (fun c => c.hasClass "visible")
        = (skillsCards.take 1 ++ projects.take 1).map (fun r => r.hasCategory "skills") :=
  ⟨by decide,
   (showCards_visible_iff_category "skills" (by decide)
      (skillsCards.take 1 ++ projects.take 1)
      (renderCards (skillsCards.take 1 ++ projects.take 1)) (fun _ _ => rfl)).1⟩

/-- C9: `showCards` is idempotent: a second run with the same `cardType` leaves
every card, hence every class list, as the first run left it. -/
theorem showCards_idempotent (cardType : String) (cards : List Node) :
    showCards cardType (showCards cardType cards) = showCards cardType cards := by
  simp [showCards, showCard_idem]

/-- C10: a card-group builder appends to its container one card per record, in
the order of the records, after the children already there; each card is a `div`
whose class list is the ordered set of `card` and the class tokens of the
record, with the record's id, a text node with the record's title and one `body`
element with the record's body id and markup. The builders of the skills and of
the professional cards are that loop on their table, the latter reversed. -/
theorem appendCards_one_card_per_record (p : ElementProps) (cs : List Node)
    (records : List CardRecord) :
    appendCards (Node.element p cs) records
        = Node.element p (cs ++ records.map (fun r => createCard r.cardData r.contentData))
      ∧ (appendCards (Node.element p cs) records).childNodes.length
        = cs.length + records.length
      ∧ records.map (fun r => createCard r.cardData r.contentData)
        = records.map (fun r =>
            Node.element
              { tag := "div",
                classList := setFromArray ("card" :: splitOnAsciiWhitespace r.cardData.className),
                id := r.cardData.id, attributes := [], innerHTML := "" }
              [Node.text r.cardData.title,
               Node.element
                 { tag := "div", classList := ["body"], id := r.contentData.id,
                   attributes := [], innerHTML := r.contentData.innerHTML } []])
      ∧ records.all (fun r =>
          (createCard r.cardData r.contentData).hasClass "card"
            && (splitOnAsciiWhitespace r.cardData.className).all
                (fun t => (createCard r.cardData r.contentData).hasClass t)) = true
      ∧ createSkillsCards (Node.element p cs)
        = Node.element p (cs ++ skillsCards.map (fun r => createCard r.cardData r.contentData))
      ∧ createProfessionalExCards (Node.element p cs)
        = Node.element p
            (cs ++ experiences.reverse.map (fun r => createCard r.cardData r.contentData)) := by
  refine ⟨appendCards_element p cs records, ?_, ?_, ?_, appendCards_element p cs _,
    appendCards_element p cs _⟩
  · simp [appendCards_element, Node.childNodes]
  · simp [createCard_eq]
  · simp only [List.all_eq_true, Bool.and_eq_true]
    intro r _
    refine ⟨?_, ?_⟩
    · simp [Node.hasClass, classListContains, classList_createCard, mem_setFromArray]
    · intro t ht
      simp [Node.hasClass, classListContains, classList_createCard, mem_setFromArray, ht]

/-- C8: in a page where one click listener is attached to the navigation entry
tagged `C` (as `clickCards` leaves every entry) and whose first `input` element
is the menu toggle, one click on that entry sets `cardType` to `C` whatever it
was, unchecks the toggle, runs `showCards` once, with the new category, on the
cards, and schedules `scrollToTopOfCardsWithOffset` once, after 10 ms: these two
calls are the only ones added, in that order. -/
theorem click_transition (st : Page) (i : Nat) (entry : NavEntry) (toggle : InputElement)
    (rest : List InputElement) (hbutton : st.buttons.get? i = some (entry, 1))
    (hinputs : st.inputs = toggle :: rest) :
    click i st
        = some
            { cardType := entry.dataClass,
              token := st.token,
              buttons := st.buttons,
              inputs := { id := toggle.id, checked := false } :: rest,
              cards := showCards entry.dataClass st.cards,
              timers := st.timers ++ [("scrollToTopOfCardsWithOffset", 10)],
              calls := st.calls ++ [Call.showCards entry.dataClass,
                Call.setTimeout "scrollToTopOfCardsWithOffset" 10] }
      ∧ (clickCards (builtPage st.token)).buttons
        = (navbarItems st.token).map (fun e => (e, 1)) := by
  constructor
  · unfold click
    rw [hbutton]
    simp [runListeners, clickListener, hinputs, Page.showCards, Page.setTimeout]
  · simp [clickCards, builtPage]

/-- Witness of C8: on the locked page, after `clickCards`, a click on the
`skills` entry while `professional` is shown. -/
theorem click_transition_witness :
    (clickCards (builtPage initialToken)).buttons.get? 2
        = some ({ dataClass := "skills", text := "Compétences", title := "" }, 1)
      ∧ (clickCards (builtPage initialToken)).cardType = "professional"
      ∧ (click 2 (clickCards (builtPage initialToken))).map (fun st => st.cardType)
        = some "skills"
      ∧ (click 2 (clickCards (builtPage initialToken))).map (fun st => st.calls)
        = some [Call.showCards "skills", Call.setTimeout "scrollToTopOfCardsWithOffset" 10] :=
  ⟨rfl, rfl,
   by rw [(click_transition (clickCards (builtPage initialToken)) 2
        { dataClass := "skills", text := "Compétences", title := "" }
        { id := "btnNavbar", checked := false } [] rfl rfl).1]; rfl,
   by rw [(click_transition (clickCards (builtPage initialToken)) 2
        { dataClass := "skills", text := "Compétences", title := "" }
        { id := "btnNavbar", checked := false } [] rfl rfl).1]; rfl⟩

set_option maxRecDepth 100000 in
/-- C7: the navigation list of `createNavbar` has an entry tagged `identity`
exactly when `isUnlocked()` holds at render time, and so has the cards container
of `createCards` a card of class `identity`; the entries and the cards of
`professional`, `formation`, `skills` and `project` are there in both cases. The
entries are those denoted by the markup that `createNavbar` assigns to its list,
the fourth child of the `nav` element, and both cases occur: the page is locked
for the initial token and unlocked for the constant. -/
theorem identity_present_iff_unlocked (token : String) :
    (navbarItems token).any (fun e => decide (e.dataClass = "identity")) = isUnlocked token
      ∧ (cardsContainer token).childNodes.any (fun c => c.hasClass "identity")
        = isUnlocked token
      ∧ ["professional", "formation", "skills", "project"].all (fun C =>
          (navbarItems token).any (fun e => decide (e.dataClass = C))
            && (cardsContainer token).childNodes.any (fun c => c.hasClass C)) = true
      ∧ (navbarElement token).childNodes.map (fun n => (n.id, n.innerHTML))
        = [("header", ""), ("labelBtnNavbar", "<span></span><span></span><span></span>"),
            ("btnNavbar", ""), ("navbarItems", navbarItemsMarkup token)]
      ∧ navbarItemsMarkup token = String.join ((navbarItems token).map liMarkup)
      ∧ isUnlocked initialToken = false
      ∧ isUnlocked "THVjYXNLdW50ejU3MDcwTWV0eg==" = true := by
  have hnav : (navbarElement token).childNodes.map (fun n => (n.id, n.innerHTML))
      = [("header", ""), ("labelBtnNavbar", "<span></span><span></span><span></span>"),
          ("btnNavbar", ""), ("navbarItems", navbarItemsMarkup token)] := by
    simp [navbarElement, createElement, applyAttribute, appendChildOf, Node.appendChild,
      Node.setInnerHTML, Node.childNodes, Node.id, Node.innerHTML]
  cases h : isUnlocked token
  · refine ⟨?_, ?_, ?_, hnav, ?_, ?_, ?_⟩
    · simp only [navbarItems, h]; decide
    · simp only [cardsContainer, h]; decide
    · simp only [navbarItems, cardsContainer, h]; decide
    · simp only [navbarItems, navbarItemsMarkup, h]; rfl
    · decide
    · decide
  · refine ⟨?_, ?_, ?_, hnav, ?_, ?_, ?_⟩
    · simp only [navbarItems, h]; decide
    · simp only [cardsContainer, h]; decide
    · simp only [navbarItems, cardsContainer, h]; decide
    · simp only [navbarItems, navbarItemsMarkup, h]; rfl
    · decide
    · decide

/-! ## Lemmas on numbers and their decimal strings -/

theorem digitChar_toNat (m : Nat) (h : m < 10) : (Nat.digitChar m).toNat = 48 + m := by
  interval_cases m <;> rfl

theorem toDigitsCore_isDecDigit (fuel : Nat) :
    ∀ (n : Nat) (acc : List Char), (∀ c ∈ acc, IsDecDigit c) →
      ∀ c ∈ Nat.toDigitsCore 10 fuel n acc, IsDecDigit c := by
  induction fuel with
  | zero => intro n acc hacc; simpa [Nat.toDigitsCore] using hacc
  | succ fuel ih =>
    intro n acc hacc
    have hd : IsDecDigit (Nat.digitChar (n % 10)) := by
      have := digitChar_toNat (n % 10) (Nat.mod_lt _ (by decide))
      unfold IsDecDigit
      omega
    have hacc2 : ∀ c ∈ Nat.digitChar (n % 10) :: acc, IsDecDigit c := by
      intro c hc
      rcases List.mem_cons.1 hc with rfl | hc
      · exact hd
      · exact hacc c hc
    simp only [Nat.toDigitsCore]
    split
    · exact hacc2
    · exact ih _ _ hacc2

theorem toDigitsCore_value (fuel : Nat) :
    ∀ (n : Nat) (acc : List Char), n < fuel →
      decValue 0 (Nat.toDigitsCore 10 fuel n acc) = decValue n acc := by
  induction fuel with
  | zero => intro n acc h; omega
  | succ fuel ih =>
    intro n acc h
    have hd := digitChar_toNat (n % 10) (Nat.mod_lt _ (by decide))
    simp only [Nat.toDigitsCore]
    split
    · next h0 =>
      simp only [decValue, List.foldl_cons, hd]
      congr 1
      omega
    · next h0 =>
      rw [ih (n / 10) _ (by omega)]
      simp only [decValue, List.foldl_cons, hd]
      congr 1
      omega

theorem toDigitsCore_ne_nil (fuel n : Nat) (acc : List Char) (h : acc ≠ []) :
    Nat.toDigitsCore 10 fuel n acc ≠ [] := by
  induction fuel generalizing n acc with
  | zero => simpa [Nat.toDigitsCore] using h
  | succ fuel ih =>
    simp only [Nat.toDigitsCore]
    split
    · simp
    · exact ih _ _ (by simp)

theorem toDigits_ne_nil (n : Nat) : Nat.toDigits 10 n ≠ [] := by
  simp only [Nat.toDigits, Nat.toDigitsCore]
  split
  · simp
  · exact toDigitsCore_ne_nil _ _ _ (by simp)

theorem toDigits_isDecDigit (n : Nat) : ∀ c ∈ Nat.toDigits 10 n, IsDecDigit c :=
  toDigitsCore_isDecDigit _ _ _ (by simp)

theorem toDigits_value (n : Nat) : decValue 0 (Nat.toDigits 10 n) = n := by
  rw [Nat.toDigits, toDigitsCore_value _ _ _ (Nat.lt_succ_self n)]
  rfl

theorem toString_nat_data (n : Nat) : (toString n).data = Nat.toDigits 10 n := rfl

theorem digitValue_of_isDecDigit (c : Char) (h : IsDecDigit c) :
    digitValue 10 c = some (c.toNat - 48) := by
  unfold IsDecDigit at h
  unfold digitValue
  simp only [h, and_self, if_true]
  have : c.toNat - 48 < 10 := by omega
  simp [this]

theorem parseDigits_of_isDecDigit (ds : List Char) (h : ∀ c ∈ ds, IsDecDigit c) (acc : Nat) :
    parseDigits 10 ds acc true = some (decValue acc ds) := by
  induction ds generalizing acc with
  | nil => simp [parseDigits, decValue]
  | cons c cs ih =>
    have hc := digitValue_of_isDecDigit c (h c (List.mem_cons_self _ _))
    simp only [parseDigits, hc]
    rw [ih (fun x hx => h x (List.mem_cons_of_mem _ hx))]
    simp [decValue]

theorem isDecDigit_not_whitespace (c : Char) (h : IsDecDigit c) : isJsWhiteSpace c = false := by
  unfold IsDecDigit at h
  unfold isJsWhiteSpace
  simp only [List.mem_cons, List.mem_singleton, List.not_mem_nil, or_false, Bool.or_eq_false_iff,
    decide_eq_false_iff_not, Bool.and_eq_false_iff, not_le]
  omega

theorem isDecDigit_toNat_ne (c : Char) (h : IsDecDigit c) (d : Char)
    (hd : d.toNat < 48 ∨ 57 < d.toNat) : c ≠ d := by
  intro hcd
  subst hcd
  unfold IsDecDigit at h
  omega

theorem parseUnsigned_of_isDecDigit (ds : List Char) (hne : ds ≠ [])
    (h : ∀ c ∈ ds, IsDecDigit c) : parseUnsigned ds = some (decValue 0 ds) := by
  have key : parseDigits 10 ds 0 false = some (decValue 0 ds) := by
    cases ds with
    | nil => exact absurd rfl hne
    | cons c cs =>
      have hc := digitValue_of_isDecDigit c (h c (List.mem_cons_self _ _))
      simp only [parseDigits, hc]
      rw [parseDigits_of_isDecDigit cs (fun x hx => h x (List.mem_cons_of_mem _ hx))]
      simp [decValue]
  unfold parseUnsigned
  split
  · next cs =>
    exact absurd rfl (isDecDigit_toNat_ne 'x' (h _ (by simp)) 'x' (by decide))
  · next cs =>
    exact absurd rfl (isDecDigit_toNat_ne 'X' (h _ (by simp)) 'X' (by decide))
  · exact key

theorem parseInt_of_isDecDigit (ds : List Char) (hne : ds ≠ [])
    (h : ∀ c ∈ ds, IsDecDigit c) : parseInt (String.mk ds) = some ((decValue 0 ds : Nat) : Int) := by
  have hdrop : ds.dropWhile isJsWhiteSpace = ds := by
    cases ds with
    | nil => rfl
    | cons c cs =>
      simp [List.dropWhile, isDecDigit_not_whitespace c (h c (List.mem_cons_self _ _))]
  unfold parseInt
  simp only [hdrop]
  split
  · exact absurd rfl (isDecDigit_toNat_ne '-' (h _ (by simp)) '-' (by decide))
  · exact absurd rfl (isDecDigit_toNat_ne '+' (h _ (by simp)) '+' (by decide))
  · simp [parseUnsigned_of_isDecDigit ds hne h]

theorem indexOfFrom_digits (ds : List Char) (h : ∀ c ∈ ds, IsDecDigit c) (i : Nat) :
    indexOfFrom [' ', 'm', 'o', 'i', 's'] (ds ++ [' ', 'm', 'o', 'i', 's']) i
      = ((i + ds.length : Nat) : Int) := by
  induction ds generalizing i with
  | nil => simp [indexOfFrom, List.isPrefixOf]
  | cons c cs ih =>
    have hc : c ≠ ' ' := isDecDigit_toNat_ne c (h c (List.mem_cons_self _ _)) ' ' (by decide)
    have hc2 : (' ' == c) = false := by
      simp only [beq_eq_false_iff_ne, ne_eq]
      exact fun e => hc e.symm
    have step : indexOfFrom [' ', 'm', 'o', 'i', 's'] (c :: (cs ++ [' ', 'm', 'o', 'i', 's'])) i
        = indexOfFrom [' ', 'm', 'o', 'i', 's'] (cs ++ [' ', 'm', 'o', 'i', 's']) (i + 1) := by
      simp [indexOfFrom, List.isPrefixOf, hc2]
    rw [List.cons_append, step, ih (fun x hx => h x (List.mem_cons_of_mem _ hx))]
    simp only [List.length_cons]
    congr 1
    omega

/-- Reading back the month count of `<n> mois`. -/
theorem monthsOfDiff_toString (n : Nat) :
    monthsOfDiff (toString n ++ " mois") = some (n : Int) := by
  have hdata : (toString n ++ " mois").data = Nat.toDigits 10 n ++ [' ', 'm', 'o', 'i', 's'] := by
    rw [String.data_append, toString_nat_data]
  have hidx : indexOf (toString n ++ " mois") " mois" = ((Nat.toDigits 10 n).length : Int) := by
    unfold indexOf
    rw [hdata]
    have := indexOfFrom_digits (Nat.toDigits 10 n) (toDigits_isDecDigit n) 0
    simpa using this
  have hsub : substring (toString n ++ " mois") 0 (indexOf (toString n ++ " mois") " mois")
      = String.mk (Nat.toDigits 10 n) := by
    unfold substring
    rw [hidx, hdata]
    simp
  unfold monthsOfDiff
  rw [hsub, parseInt_of_isDecDigit _ (toDigits_ne_nil n) (toDigits_isDecDigit n), toDigits_value]

/-! ## Lemmas on `menuDetails` -/

theorem mapM_map_some (f : String → Option Int) (ds : List String) :
    (ds.map some).mapM (fun (d : Option String) => d.map f) = some (ds.map f) := by
  induction ds with
  | nil => rfl
  | cons d ds ih =>
    simp only [List.map_cons, List.mapM_cons, ih]
    rfl

theorem totalPro_map_some (ds : List String) :
    totalPro (ds.map some) = some ((ds.map monthsOfDiff).foldl addNumber (some 0)) := by
  unfold totalPro
  rw [mapM_map_some]
  rfl

theorem foldl_addNumber_some (ms : List Nat) (a : Int) :
    (ms.map (fun (m : Nat) => some (m : Int))).foldl addNumber (some a)
      = some (a + ((ms.sum : Nat) : Int)) := by
  induction ms generalizing a with
  | nil => simp
  | cons m ms ih =>
    simp only [List.map_cons, List.foldl_cons, addNumber, ih, List.sum_cons]
    congr 1
    push_cast
    ring

theorem totalPro_months (months : List Nat) :
    totalPro (months.map (fun m => some (toString m ++ " mois")))
      = some (some ((months.sum : Nat) : Int)) := by
  have h : months.map (fun m => some (toString m ++ " mois"))
      = (months.map (fun m => toString m ++ " mois")).map some := by simp
  rw [h, totalPro_map_some, List.map_map]
  have h2 : (monthsOfDiff ∘ fun m => toString m ++ " mois") = fun (m : Nat) => some (m : Int) := by
    funext m
    exact monthsOfDiff_toString m
  rw [h2, foldl_addNumber_some]
  simp

/-- On the navigation list of `createNavbar`, `menuDetails` finds its three
entries and sets their titles. -/
theorem menuDetails_titles (toUpperCase : String → String) (token : String)
    (periodDiffs : List (Option String)) (total : Option Int)
    (htotal : totalPro periodDiffs = some total)
    (levelTexts : List String) (projectBodies : List Node) :
    ∃ nav, menuDetails toUpperCase (navbarItems token) periodDiffs levelTexts projectBodies
        = some nav
      ∧ entryTitle "professional" nav = some (tenureTitle total)
      ∧ entryTitle "formation" nav = some (formationTitle toUpperCase levelTexts)
      ∧ entryTitle "project" nav = some (projectTitle (totalAccess projectBodies)) := by
  cases h : isUnlocked token <;>
    simp [menuDetails, navbarItems, h, htotal, setEntryTitle, entryTitle]

theorem tenureTitle_nat (s : Nat) :
    tenureTitle (some (s : Int))
      = toString (s / 12) ++ " an" ++ (if s / 12 > 1 then "s" else "") ++ " & "
          ++ toString (s % 12) ++ " mois" := by
  have hy : ((s : Int) / 12) = ((s / 12 : Nat) : Int) := by norm_cast
  have hm : ((s : Int) - (s : Int) / 12 * 12) = ((s % 12 : Nat) : Int) := by
    rw [hy]; push_cast; omega
  have ht : ∀ k : Nat, toString ((k : Nat) : Int) = toString k := fun k => rfl
  simp only [tenureTitle, Option.map_some']
  rw [hm]
  simp only [hy, numberToString, ht]
  have hgt : (((s / 12 : Nat) : Int) > 1) ↔ (s / 12 > 1) := by omega
  simp only [hgt, decide_eq_true_eq]

theorem foldl_add_eq_sum (l : List Nat) (a : Nat) :
    l.foldl (fun sum val => sum + val) a = a + l.sum := by
  induction l generalizing a with
  | nil => simp
  | cons x xs ih => simp [ih, Nat.add_assoc]

/-! ## Properties of the summaries -/

/-- C2: when the professional period elements carry `<n> mois` for natural
numbers `n` of sum `S`, `menuDetails` sets the title of the professional entry
to `<Y> an<s> & <M> mois` with `Y = S / 12`, `M = S % 12` and `<s>` the letter
`s` exactly when `Y > 1`; so `M < 12` and `12 * Y + M = S`. For the periods
2, 4, 18, 15, 36, 2 the title is `6 ans & 5 mois`; 11 months give `0 an` and
23 months `1 an`. Numbers are exact integers here, as JavaScript numbers are
below `2 ^ 53`. -/
theorem menuDetails_professional_title (toUpperCase : String → String) (token : String)
    (months : List Nat) (levelTexts : List String) (projectBodies : List Node) :
    (menuDetails toUpperCase (navbarItems token)
        (months.map (fun m => some (toString m ++ " mois"))) levelTexts projectBodies).bind
        (entryTitle "professional")
      = some (toString (months.sum / 12) ++ " an" ++ (if months.sum / 12 > 1 then "s" else "")
          ++ " & " ++ toString (months.sum % 12) ++ " mois")
    ∧ months.sum % 12 < 12
    ∧ 12 * (months.sum / 12) + months.sum % 12 = months.sum
    ∧ (menuDetails toUpperCase (navbarItems token)
        [some "2 mois", some "4 mois", some "18 mois", some "15 mois", some "36 mois",
          some "2 mois"] levelTexts projectBodies).bind (entryTitle "professional")
      = some "6 ans & 5 mois"
    ∧ (menuDetails toUpperCase (navbarItems token) [some "11 mois"] levelTexts
        projectBodies).bind (entryTitle "professional")
      = some "0 an & 11 mois"
    ∧ (menuDetails toUpperCase (navbarItems token) [some "23 mois"] levelTexts
        projectBodies).bind (entryTitle "professional")
      = some "1 an & 11 mois" := by
  have gen : ∀ ms : List Nat,
      (menuDetails toUpperCase (navbarItems token)
        (ms.map (fun m => some (toString m ++ " mois"))) levelTexts projectBodies).bind
        (entryTitle "professional")
      = some (toString (ms.sum / 12) ++ " an" ++ (if ms.sum / 12 > 1 then "s" else "")
          ++ " & " ++ toString (ms.sum % 12) ++ " mois") := by
    intro ms
    obtain ⟨nav, hnav, hpro, -, -⟩ := menuDetails_titles toUpperCase token _ _
      (totalPro_months ms) levelTexts projectBodies
    rw [hnav, Option.some_bind, hpro, tenureTitle_nat]
  exact ⟨gen months, Nat.mod_lt _ (by decide), by omega, gen [2, 4, 18, 15, 36, 2], gen [11],
    gen [23]⟩

/-- C5: `menuDetails` sets the title of the project entry to
`<N> projets accessibles`, where `N` adds up, over the project card bodies, the
number of child nodes of the body that are elements with role `access`; nothing
below a child is looked at. For three bodies of which two have one such child
and the third has none (but a nested one), the title is
`2 projets accessibles`. -/
theorem menuDetails_project_title (toUpperCase : String → String) (token : String)
    (periodDiffs levelTexts : List String) (projectBodies : List Node) :
    (menuDetails toUpperCase (navbarItems token) (periodDiffs.map some) levelTexts
        projectBodies).bind (entryTitle "project")
      = some (toString
          ((projectBodies.map (fun body =>
            (body.childNodes.filter (fun n =>
              n.isElement && decide (n.role = some "access"))).length)).sum)
          ++ " projets accessibles")
    ∧ (menuDetails toUpperCase (navbarItems token) (periodDiffs.map some) levelTexts
        exampleProjectBodies).bind (entryTitle "project")
      = some "2 projets accessibles" := by
  have gen : ∀ bodies : List Node,
      (menuDetails toUpperCase (navbarItems token) (periodDiffs.map some) levelTexts
        bodies).bind (entryTitle "project")
      = some (toString
          ((bodies.map (fun body =>
            (body.childNodes.filter (fun n =>
              n.isElement && decide (n.role = some "access"))).length)).sum)
          ++ " projets accessibles") := by
    intro bodies
    obtain ⟨nav, hnav, -, -, hproj⟩ := menuDetails_titles toUpperCase token _ _
      (totalPro_map_some periodDiffs) levelTexts bodies
    rw [hnav, Option.some_bind, hproj]
    have hcount : accessCount = fun body =>
        (body.childNodes.filter (fun n =>
          n.isElement && decide (n.role = some "access"))).length := by
      funext body
      simp only [accessCount, Node.children, List.filter_filter]
      congr 2
      funext n
      exact Bool.and_comm _ _
    simp only [projectTitle, totalAccess, foldl_add_eq_sum, Nat.zero_add, hcount]
  refine ⟨gen projectBodies, ?_⟩
  rw [gen exampleProjectBodies]
  rfl

/-! ## Lemmas on the formation title -/

theorem foldl_setAppend_eq (xs acc before : List String)
    (h : ∀ y, y ∈ acc ↔ y ∈ before) :
    xs.foldl setAppend acc = acc ++ distinctAfter before xs := by
  induction xs generalizing acc before with
  | nil => simp [distinctAfter]
  | cons x xs ih =>
    by_cases hx : x ∈ acc
    · have hb : x ∈ before := (h x).1 hx
      have h2 : ∀ y, y ∈ acc ↔ y ∈ x :: before := by
        intro y
        constructor
        · intro hy; exact List.mem_cons_of_mem _ ((h y).1 hy)
        · intro hy
          rcases List.mem_cons.1 hy with rfl | hy
          · exact hx
          · exact (h y).2 hy
      simp only [List.foldl_cons, setAppend, hx, if_true, distinctAfter, hb]
      exact ih acc (x :: before) h2
    · have hb : x ∉ before := fun hb => hx ((h x).2 hb)
      have h2 : ∀ y, y ∈ acc ++ [x] ↔ y ∈ x :: before := by
        intro y
        simp only [List.mem_append, List.mem_singleton, List.mem_cons, h y]
        tauto
      simp only [List.foldl_cons, setAppend, hx, if_false, distinctAfter, hb]
      rw [ih (acc ++ [x]) (x :: before) h2]
      simp

/-- The iteration order of `new Set(xs)` is the order of first occurrence. -/
theorem setFromArray_eq_distinctInOrder (xs : List String) :
    setFromArray xs = distinctInOrder xs := by
  simpa [setFromArray, distinctInOrder] using foldl_setAppend_eq xs [] [] (fun _ => Iff.rfl)

theorem filter_distinctAfter (p : String → Bool) (xs before before2 : List String)
    (h : ∀ y, p y = true → (y ∈ before ↔ y ∈ before2)) :
    (distinctAfter before xs).filter p = distinctAfter before2 (xs.filter p) := by
  induction xs generalizing before before2 with
  | nil => simp [distinctAfter]
  | cons x xs ih =>
    by_cases hp : p x = true
    · have h2 : ∀ y, p y = true → (y ∈ x :: before ↔ y ∈ x :: before2) := by
        intro y hy
        simp only [List.mem_cons, h y hy]
      by_cases hx : x ∈ before
      · have hx2 : x ∈ before2 := (h x hp).1 hx
        simp only [List.filter_cons, hp, if_true, distinctAfter, hx, hx2]
        exact ih _ _ h2
      · have hx2 : x ∉ before2 := fun hb => hx ((h x hp).2 hb)
        simp only [List.filter_cons, hp, if_true, distinctAfter, hx, hx2, if_false]
        rw [ih _ _ h2]
    · have h2 : ∀ y, p y = true → (y ∈ x :: before ↔ y ∈ before2) := by
        intro y hy
        have hne : y ≠ x := by
          intro e; subst e; exact hp hy
        simp only [List.mem_cons, hne, false_or, h y hy]
      by_cases hx : x ∈ before
      · simp only [List.filter_cons, hp, distinctAfter, hx, if_true]
        exact ih _ _ h2
      · simp only [List.filter_cons, hp, distinctAfter, hx, if_false]
        exact ih _ _ h2

theorem filter_distinctInOrder (p : String → Bool) (xs : List String) :
    (distinctInOrder xs).filter p = distinctInOrder (xs.filter p) :=
  filter_distinctAfter p xs [] [] (fun _ _ => Iff.rfl)

theorem mem_sortedInsert (cmp : String → String → Option Int) (a x : String) (l : List String) :
    x ∈ sortedInsert cmp a l ↔ x = a ∨ x ∈ l := by
  induction l with
  | nil => simp [sortedInsert]
  | cons b l ih =>
    simp only [sortedInsert]
    split
    · simp
    · simp only [List.mem_cons, ih]
      tauto

theorem mem_sortWith (cmp : String → String → Option Int) (x : String) (l : List String) :
    x ∈ sortWith cmp l ↔ x ∈ l := by
  induction l with
  | nil => simp [sortWith]
  | cons a l ih => simp [sortWith, mem_sortedInsert, ih]

theorem bacCompare_of_isSome (a b : String) (ha : (bacKey a).isSome) (hb : (bacKey b).isSome) :
    bacCompare a b = some (bacNumber b - bacNumber a) := by
  obtain ⟨x, hx⟩ := Option.isSome_iff_exists.1 ha
  obtain ⟨y, hy⟩ := Option.isSome_iff_exists.1 hb
  simp [bacCompare, bacNumber, hx, hy]

/-- The first element of the sorted `bacLevels` is the first label, in the
original order, whose number is the greatest. -/
theorem head_sortWith_bacCompare (l : List String) (h : ∀ x ∈ l, (bacKey x).isSome) :
    (l = [] ∧ (sortWith bacCompare l).head? = none)
      ∨ ∃ pre m post, l = pre ++ m :: post
          ∧ (∀ x ∈ pre, bacNumber x < bacNumber m)
          ∧ (∀ x ∈ post, bacNumber x ≤ bacNumber m)
          ∧ (sortWith bacCompare l).head? = some m := by
  induction l with
  | nil => exact Or.inl ⟨rfl, rfl⟩
  | cons a l ih =>
    right
    have ha : (bacKey a).isSome := h a (List.mem_cons_self _ _)
    have hl : ∀ x ∈ l, (bacKey x).isSome := fun x hx => h x (List.mem_cons_of_mem _ hx)
    rcases ih hl with ⟨rfl, _⟩ | ⟨pre, m, post, hdec, hpre, hpost, hhead⟩
    · exact ⟨[], a, [], rfl, by simp, by simp, by simp [sortWith, sortedInsert]⟩
    · have hm : (bacKey m).isSome := hl m (by rw [hdec]; simp)
      obtain ⟨tl, htl⟩ : ∃ tl, sortWith bacCompare l = m :: tl := by
        cases hs : sortWith bacCompare l with
        | nil => rw [hs] at hhead; simp at hhead
        | cons b tl =>
          rw [hs] at hhead
          simp only [List.head?_cons, Option.some.injEq] at hhead
          exact ⟨tl, by rw [hhead]⟩
      by_cases hle : bacNumber m ≤ bacNumber a
      · refine ⟨[], a, l, rfl, by simp, ?_, ?_⟩
        · intro x hx
          rw [hdec] at hx
          rcases List.mem_append.1 hx with hx | hx
          · exact le_trans (le_of_lt (hpre x hx)) hle
          · rcases List.mem_cons.1 hx with rfl | hx
            · exact hle
            · exact le_trans (hpost x hx) hle
        · have hd : decide (bacNumber m - bacNumber a ≤ 0) = true := by
            simp only [decide_eq_true_eq]; omega
          simp [sortWith, htl, sortedInsert, bacCompare_of_isSome a m ha hm, hle]
      · refine ⟨a :: pre, m, post, by rw [hdec]; rfl, ?_, hpost, ?_⟩
        · intro x hx
          rcases List.mem_cons.1 hx with rfl | hx
          · omega
          · exact hpre x hx
        · have hd : decide (bacNumber m - bacNumber a ≤ 0) = false := by
            simp only [decide_eq_false_iff_not]; omega
          simp [sortWith, htl, sortedInsert, bacCompare_of_isSome a m ha hm, hle]

theorem ne_empty_of_startsWith_bac (l : String) (h : startsWith l "BAC +" = true) : l ≠ "" := by
  intro e
  subst e
  revert h
  decide

theorem filterMap_keepNonEmpty (l : List String) :
    (l.map some).filterMap (fun p => Option.filter (fun x => decide (x ≠ "")) p)
      = l.filter (fun x => decide (x ≠ "")) := by
  induction l with
  | nil => rfl
  | cons a l ih =>
    rw [List.map_cons, List.filterMap_cons, List.filter_cons, ih]
    by_cases h : a = ""
    · have hf : Option.filter (fun x => decide (x ≠ "")) (some a) = none := by
        simp [Option.filter, h]
      have hd : decide (a ≠ "") = false := by simp [h]
      rw [hf, hd]
      rfl
    · have hf : Option.filter (fun x => decide (x ≠ "")) (some a) = some a := by
        simp [Option.filter, h]
      have hd : decide (a ≠ "") = true := by simp [h]
      rw [hf, hd]
      rfl

/-- The formation title in terms of the head of the sorted `bacLevels` and of
the first occurrences of the other labels. -/
theorem formationTitle_eq (toUpperCase : String → String) (innerTexts : List String) :
    formationTitle toUpperCase innerTexts
      = join " / "
          (((sortWith bacCompare
              (bacLabels (normalizedLevels toUpperCase innerTexts))).head?).toList
            ++ distinctInOrder
                ((otherLabels (normalizedLevels toUpperCase innerTexts)).filter
                  (fun l => l ≠ "")))
      ∧ (setFromArray (otherLabels (normalizedLevels toUpperCase innerTexts))).filter
          (fun o => !decide (o ∈ sortWith bacCompare
            (bacLabels (normalizedLevels toUpperCase innerTexts))))
        = setFromArray (otherLabels (normalizedLevels toUpperCase innerTexts)) := by
  have hex : (setFromArray (otherLabels (normalizedLevels toUpperCase innerTexts))).filter
        (fun o => !decide (o ∈ sortWith bacCompare
          (bacLabels (normalizedLevels toUpperCase innerTexts))))
      = setFromArray (otherLabels (normalizedLevels toUpperCase innerTexts)) := by
    apply List.filter_eq_self.2
    intro o ho
    rw [mem_setFromArray] at ho
    simp only [otherLabels, List.mem_filter, Bool.not_eq_true'] at ho
    simp only [Bool.not_eq_true', decide_eq_false_iff_not, mem_sortWith, bacLabels,
      List.mem_filter, not_and, Bool.not_eq_true]
    intro _
    exact ho.2
  refine ⟨?_, hex⟩
  have hhead : ∀ m, (sortWith bacCompare
      (bacLabels (normalizedLevels toUpperCase innerTexts))).head? = some m → m ≠ "" := by
    intro m hm
    have hmem : m ∈ sortWith bacCompare (bacLabels (normalizedLevels toUpperCase innerTexts)) :=
      List.mem_of_mem_head? hm
    rw [mem_sortWith] at hmem
    simp only [bacLabels, List.mem_filter] at hmem
    exact ne_empty_of_startsWith_bac m hmem.2
  unfold formationTitle
  simp only []
  change join " / " (List.filterMap (fun p => Option.filter (fun x => decide (x ≠ "")) p)
      ((sortWith bacCompare (bacLabels (normalizedLevels toUpperCase innerTexts))).head? ::
        List.map some ((setFromArray (otherLabels (normalizedLevels toUpperCase innerTexts))).filter
          (fun o => !decide (o ∈ sortWith bacCompare
            (bacLabels (normalizedLevels toUpperCase innerTexts))))))) = _
  rw [hex, setFromArray_eq_distinctInOrder, ← filter_distinctInOrder]
  congr 1
  cases hs : (sortWith bacCompare (bacLabels (normalizedLevels toUpperCase innerTexts))).head? with
  | none =>
    rw [List.filterMap_cons, filterMap_keepNonEmpty]
    rfl
  | some m =>
    have hne : decide (m ≠ "") = true := by simpa using hhead m hs
    rw [List.filterMap_cons, filterMap_keepNonEmpty]
    simp only [Option.filter, hne, if_true, Option.toList, List.singleton_append]

theorem startsWith_append (a t : String) : startsWith (a ++ t) a = true := by
  simp [startsWith, String.data_append, List.isPrefixOf_iff_prefix]

theorem endsWith_append (t a : String) : endsWith (t ++ a) a = true := by
  simp [endsWith, String.data_append, List.isPrefixOf_iff_prefix]

theorem join_cons_eq_append (sep a : String) (rest : List String) :
    ∃ t, join sep (a :: rest) = a ++ t := by
  cases rest with
  | nil => exact ⟨"", by simp [join]⟩
  | cons b rest => exact ⟨sep ++ join sep (b :: rest), by simp [join, String.append_assoc]⟩

theorem join_eq_append_getLast (sep : String) (l : List String) (last : String)
    (h : l.getLast? = some last) : ∃ t, join sep l = t ++ last := by
  induction l with
  | nil => simp at h
  | cons a l ih =>
    cases l with
    | nil =>
      simp only [List.getLast?_singleton, Option.some.injEq] at h
      subst h
      exact ⟨"", by simp [join]⟩
    | cons b l =>
      rw [List.getLast?_cons_cons] at h
      obtain ⟨t, ht⟩ := ih h
      exact ⟨a ++ sep ++ t, by simp [join, ht, String.append_assoc]⟩

theorem join_head_last (sep : String) (l : List String) :
    l.head?.all (fun h => startsWith (join sep l) h) = true
      ∧ l.getLast?.all (fun h => endsWith (join sep l) h) = true := by
  constructor
  · cases l with
    | nil => rfl
    | cons a rest =>
      obtain ⟨t, ht⟩ := join_cons_eq_append sep a rest
      simp [ht, startsWith_append]
  · cases hl : l.getLast? with
    | none => rfl
    | some last =>
      obtain ⟨t, ht⟩ := join_eq_append_getLast sep l last hl
      simp [ht, endsWith_append]

theorem join_eq_empty_iff (sep : String) (l : List String) (h : ∀ x ∈ l, x ≠ "") :
    join sep l = "" ↔ l = [] := by
  constructor
  · intro hj
    cases l with
    | nil => rfl
    | cons a rest =>
      exfalso
      obtain ⟨t, ht⟩ := join_cons_eq_append sep a rest
      rw [ht] at hj
      have ha : a ≠ "" := h a (List.mem_cons_self _ _)
      apply ha
      have hd : (a ++ t).data = [] := by rw [hj]
      rw [String.data_append, List.append_eq_nil] at hd
      exact String.ext hd.1
  · intro hl
    subst hl
    rfl

theorem mem_distinctAfter (x : String) (xs before : List String) :
    x ∈ distinctAfter before xs → x ∈ xs := by
  induction xs generalizing before with
  | nil => simp [distinctAfter]
  | cons y ys ih =>
    simp only [distinctAfter]
    split
    · intro h; exact List.mem_cons_of_mem _ (ih _ h)
    · intro h
      rcases List.mem_cons.1 h with rfl | h
      · exact List.mem_cons_self _ _
      · exact List.mem_cons_of_mem _ (ih _ h)

/-! ## Properties of the formation title -/

/-- C3, amended: when every level that starts with `BAC +` (after trimming and
upper-casing) has an integer after the `+`, the formation title is the first
`BAC +` label, in document order, whose integer is the greatest (when there is
such a label), followed by each distinct non-empty other label once, in order of
first occurrence, all joined with ` / `. The step that excludes other labels
found among the `BAC +` labels removes nothing. For `Bac +2`, `Bac +3`,
`RNCP 6`, in any order of the two `Bac` levels, the title is `BAC +3 / RNCP 6`. -/
theorem formationTitle_with_bac (toUpperCase : String → String) (innerTexts : List String)
    (hint : ∀ l ∈ bacLabels (normalizedLevels toUpperCase innerTexts), (bacKey l).isSome = true) :
    ((bacLabels (normalizedLevels toUpperCase innerTexts) = []
        ∧ formationTitle toUpperCase innerTexts
          = join " / " (distinctInOrder
              ((otherLabels (normalizedLevels toUpperCase innerTexts)).filter
                (fun l => l ≠ ""))))
      ∨ ∃ pre m post,
          bacLabels (normalizedLevels toUpperCase innerTexts) = pre ++ m :: post
          ∧ (∀ l ∈ pre, bacNumber l < bacNumber m)
          ∧ (∀ l ∈ post, bacNumber l ≤ bacNumber m)
          ∧ formationTitle toUpperCase innerTexts
            = join " / " (m :: distinctInOrder
                ((otherLabels (normalizedLevels toUpperCase innerTexts)).filter
                  (fun l => l ≠ ""))))
    ∧ (setFromArray (otherLabels (normalizedLevels toUpperCase innerTexts))).filter
          (fun o => !decide (o ∈ sortWith bacCompare
            (bacLabels (normalizedLevels toUpperCase innerTexts))))
        = setFromArray (otherLabels (normalizedLevels toUpperCase innerTexts))
    ∧ formationTitle asciiToUpperCase ["Bac +2", "Bac +3", "RNCP 6"] = "BAC +3 / RNCP 6"
    ∧ formationTitle asciiToUpperCase ["Bac +3", "Bac +2", "RNCP 6"] = "BAC +3 / RNCP 6" := by
  obtain ⟨htitle, hex⟩ := formationTitle_eq toUpperCase innerTexts
  refine ⟨?_, hex, by decide, by decide⟩
  rcases head_sortWith_bacCompare _ hint with ⟨hnil, hhead⟩ | ⟨pre, m, post, hdec, hpre, hpost, hhead⟩
  · left
    refine ⟨hnil, ?_⟩
    rw [htitle, hhead]
    rfl
  · right
    refine ⟨pre, m, post, hdec, hpre, hpost, ?_⟩
    rw [htitle, hhead]
    rfl

/-- Witness of C3: the levels of the three formation cards. -/
theorem formationTitle_with_bac_witness :
    (∀ l ∈ bacLabels (normalizedLevels asciiToUpperCase ["Bac +2", "Bac +3", "RNCP 6"]),
        (bacKey l).isSome = true)
      ∧ (setFromArray
            (otherLabels (normalizedLevels asciiToUpperCase ["Bac +2", "Bac +3", "RNCP 6"]))).filter
          (fun o => !decide (o ∈ sortWith bacCompare
            (bacLabels (normalizedLevels asciiToUpperCase ["Bac +2", "Bac +3", "RNCP 6"]))))
        = setFromArray
            (otherLabels (normalizedLevels asciiToUpperCase ["Bac +2", "Bac +3", "RNCP 6"])) :=
  ⟨by decide,
   (formationTitle_with_bac asciiToUpperCase ["Bac +2", "Bac +3", "RNCP 6"] (by decide)).2.1⟩

/-- Counterexample to C3 as stated: with the levels `Bac +2` and an empty one the
title is `BAC +2`, while the `BAC +` label followed by each distinct other label
joined with ` / ` is `BAC +2 / `: the empty label is left out of the title. -/
theorem formationTitle_omits_empty_label :
    (∀ l ∈ bacLabels (normalizedLevels asciiToUpperCase ["Bac +2", ""]),
        (bacKey l).isSome = true)
      ∧ formationTitle asciiToUpperCase ["Bac +2", ""] = "BAC +2"
      ∧ join " / " ("BAC +2" :: distinctInOrder
          (otherLabels (normalizedLevels asciiToUpperCase ["Bac +2", ""]))) = "BAC +2 / "
      ∧ formationTitle asciiToUpperCase ["Bac +2", ""]
        ≠ join " / " ("BAC +2" :: distinctInOrder
          (otherLabels (normalizedLevels asciiToUpperCase ["Bac +2", ""]))) := by
  refine ⟨by decide, by decide, by decide, by decide⟩

/-- C4: when no level starts with `BAC +` after trimming and upper-casing, the
formation title is the list of the distinct non-empty labels, each kept once at
its first occurrence, joined with ` / `: it is empty exactly when there is no
such label, and otherwise it starts with the first of them and ends with the
last. For `RNCP 6`, `RNCP 6` the title is `RNCP 6`. -/
theorem formationTitle_without_bac (toUpperCase : String → String) (innerTexts : List String)
    (hno : ∀ t ∈ innerTexts, startsWith (toUpperCase (jsTrim t)) "BAC +" = false) :
    formationTitle toUpperCase innerTexts
        = join " / " (distinctInOrder
            ((normalizedLevels toUpperCase innerTexts).filter (fun l => l ≠ "")))
      ∧ (formationTitle toUpperCase innerTexts = ""
          ↔ distinctInOrder
              ((normalizedLevels toUpperCase innerTexts).filter (fun l => l ≠ "")) = [])
      ∧ (distinctInOrder
            ((normalizedLevels toUpperCase innerTexts).filter (fun l => l ≠ ""))).head?.all
          (fun l => startsWith (formationTitle toUpperCase innerTexts) l) = true
      ∧ (distinctInOrder
            ((normalizedLevels toUpperCase innerTexts).filter (fun l => l ≠ ""))).getLast?.all
          (fun l => endsWith (formationTitle toUpperCase innerTexts) l) = true
      ∧ formationTitle asciiToUpperCase ["RNCP 6", "RNCP 6"] = "RNCP 6" := by
  have hother : otherLabels (normalizedLevels toUpperCase innerTexts)
      = normalizedLevels toUpperCase innerTexts := by
    apply List.filter_eq_self.2
    intro l hl
    simp only [normalizedLevels, List.mem_map] at hl
    obtain ⟨t, ht, rfl⟩ := hl
    simp [hno t ht]
  have hbac : bacLabels (normalizedLevels toUpperCase innerTexts) = [] := by
    apply List.filter_eq_nil_iff.2
    intro l hl
    simp only [normalizedLevels, List.mem_map] at hl
    obtain ⟨t, ht, rfl⟩ := hl
    simp [hno t ht]
  have htitle : formationTitle toUpperCase innerTexts
      = join " / " (distinctInOrder
          ((normalizedLevels toUpperCase innerTexts).filter (fun l => l ≠ ""))) := by
    rw [(formationTitle_eq toUpperCase innerTexts).1, hbac, hother]
    rfl
  have hne : ∀ x ∈ distinctInOrder
      ((normalizedLevels toUpperCase innerTexts).filter (fun l => l ≠ "")), x ≠ "" := by
    intro x hx
    have := mem_distinctAfter x _ _ hx
    simpa using (List.mem_filter.1 this).2
  refine ⟨htitle, ?_, ?_, ?_, by decide⟩
  · rw [htitle]; exact join_eq_empty_iff _ _ hne
  · rw [htitle]; exact (join_head_last _ _).1
  · rw [htitle]; exact (join_head_last _ _).2

/-- Witness of C4: twice the level `RNCP 6`. -/
theorem formationTitle_without_bac_witness :
    (∀ t ∈ ["RNCP 6", "RNCP 6"], startsWith (asciiToUpperCase (jsTrim t)) "BAC +" = false)
      ∧ formationTitle asciiToUpperCase ["RNCP 6", "RNCP 6"]
        = join " / " (distinctInOrder
            ((normalizedLevels asciiToUpperCase ["RNCP 6", "RNCP 6"]).filter (fun l => l ≠ ""))) :=
  ⟨by decide, (formationTitle_without_bac asciiToUpperCase ["RNCP 6", "RNCP 6"] (by decide)).1⟩

/-! ## Lemmas on the token encoding -/

theorem char_toNat_lt (c : Char) : c.toNat < 0x110000 := by
  have h := c.valid
  simp only [UInt32.isValidChar, Nat.isValidChar] at h
  have : c.toNat = c.val.toNat := rfl
  omega

theorem char_toNat_injective (c d : Char) (h : c.toNat = d.toNat) : c = d := by
  rw [← Char.ofNat_toNat c, ← Char.ofNat_toNat d, h]

set_option maxRecDepth 100000 in
theorem base64Index_base64Char :
    ∀ i < 64, base64Index (base64Char i) = i ∧ base64Char i ≠ '=' := by
  decide

theorem bytesOfBase64_base64OfBytes (bs : List Nat) (h : ∀ b ∈ bs, b < 256) :
    bytesOfBase64 (base64OfBytes bs) = bs := by
  induction bs using base64OfBytes.induct with
  | case1 => rfl
  | case2 a =>
    have ha : a < 256 := h a (by simp)
    have h0 := base64Index_base64Char (a / 4) (by omega)
    have h1 := base64Index_base64Char (a % 4 * 16) (by omega)
    simp only [base64OfBytes, bytesOfBase64, if_true, h0.1, h1.1]
    congr 1
    omega
  | case3 a b =>
    have ha : a < 256 := h a (by simp)
    have hb : b < 256 := h b (by simp)
    have h0 := base64Index_base64Char (a / 4) (by omega)
    have h1 := base64Index_base64Char (a % 4 * 16 + b / 16) (by omega)
    have h2 := base64Index_base64Char (b % 16 * 4) (by omega)
    simp only [base64OfBytes, bytesOfBase64, if_true, h0.1, h1.1, h2.1, h2.2, if_false]
    congr 1
    · omega
    · congr 1; omega
  | case4 a b c rest ih =>
    have ha : a < 256 := h a (by simp)
    have hb : b < 256 := h b (by simp)
    have hc : c < 256 := h c (by simp)
    have h0 := base64Index_base64Char (a / 4) (by omega)
    have h1 := base64Index_base64Char (a % 4 * 16 + b / 16) (by omega)
    have h2 := base64Index_base64Char (b % 16 * 4 + c / 64) (by omega)
    have h3 := base64Index_base64Char (c % 64) (by omega)
    have ih' := ih (fun x hx => h x (by simp [hx]))
    simp only [base64OfBytes, bytesOfBase64, h0.1, h1.1, h2.1, h2.2, h3.1, h3.2, if_false, ih']
    congr 1
    · omega
    · congr 1
      · omega
      · congr 1; omega
theorem unescape_percent (a b : Nat) (v : Nat) (rest : List Nat) (ha : a ≠ 117)
    (hv : hexRun [a, b] = some v) : unescape (37 :: a :: b :: rest) = v :: unescape rest := by
  rw [unescape]
  · simp [hv]
  · intros
    contradiction

theorem unescape_other (u : Nat) (rest : List Nat) (hu : u ≠ 37) :
    unescape (u :: rest) = u :: unescape rest := by
  rw [unescape]
  · intros; contradiction
  · intros; contradiction

set_option maxRecDepth 100000 in
theorem hexRun_hexDigit :
    ∀ b < 256, hexRun [(hexDigit (b / 16)).toNat, (hexDigit (b % 16)).toNat] = some b
      ∧ (hexDigit (b / 16)).toNat ≠ 117 ∧ (hexDigit (b / 16)).toNat < 128
      ∧ (hexDigit (b % 16)).toNat < 128 := by
  decide

theorem utf8Bytes_lt (c : Char) : ∀ b ∈ utf8Bytes c, b < 256 := by
  have hc := char_toNat_lt c
  intro b hb
  unfold utf8Bytes at hb
  simp only at hb
  split_ifs at hb <;> simp only [List.mem_cons, List.mem_singleton, List.not_mem_nil, or_false] at hb <;> omega

theorem utf8_lt (l : List Char) : ∀ b ∈ utf8 l, b < 256 := by
  intro b hb
  simp only [utf8, List.mem_flatMap] at hb
  obtain ⟨c, _, hbc⟩ := hb
  exact utf8Bytes_lt c b hbc

theorem utf16Units_of_lt (c : Char) (h : c.toNat < 128) : utf16Units c = [c.toNat] := by
  unfold utf16Units
  rw [if_pos (by omega)]

theorem unescape_percentEscapes (bs : List Nat) (h : ∀ b ∈ bs, b < 256) (rest : List Nat) :
    unescape ((bs.flatMap percentEscape).flatMap utf16Units ++ rest) = bs ++ unescape rest := by
  induction bs with
  | nil => rfl
  | cons b bs ih =>
    obtain ⟨hrun, hu, h1, h2⟩ := hexRun_hexDigit b (h b (List.mem_cons_self _ _))
    have hp : utf16Units '%' = [37] := rfl
    simp only [List.flatMap_cons, percentEscape, List.cons_append, List.nil_append,
      List.append_assoc, hp, utf16Units_of_lt _ h1, utf16Units_of_lt _ h2]
    rw [unescape_percent _ _ b _ hu hrun, ih (fun x hx => h x (List.mem_cons_of_mem _ hx))]

theorem unreserved_toNat (c : Char) (h : isUriUnreserved c = true) :
    c.toNat < 128 ∧ c.toNat ≠ 37 := by
  unfold isUriUnreserved at h
  simp only [Bool.or_eq_true, decide_eq_true_eq, List.mem_cons, List.mem_singleton,
    List.not_mem_nil, or_false] at h
  omega

/-- `unescape(encodeURIComponent(str))` holds the UTF-8 bytes of `str`, one per
code unit. -/
theorem unescape_encodeURIComponent (l : List Char) :
    unescape ((l.flatMap encodeURIComponentChar).flatMap utf16Units) = utf8 l := by
  induction l with
  | nil => rfl
  | cons c cs ih =>
    simp only [List.flatMap_cons, List.flatMap_append, utf8] at ih ⊢
    by_cases hc : isUriUnreserved c = true
    · obtain ⟨h1, h2⟩ := unreserved_toNat c hc
      have hb : utf8Bytes c = [c.toNat] := by
        unfold utf8Bytes
        simp only
        rw [if_pos h1]
      simp only [encodeURIComponentChar, hc, if_true, List.flatMap_cons, List.flatMap_nil,
        List.append_nil, utf16Units_of_lt c h1, hb, List.singleton_append]
      rw [unescape_other _ _ h2, ih]
    · simp only [encodeURIComponentChar, hc, Bool.false_eq_true, if_false]
      rw [unescape_percentEscapes _ (utf8Bytes_lt c), ih]

theorem base64Encode_eq (str : String) :
    base64Encode str = some (String.mk (base64OfBytes (utf8 str.data))) := by
  have hu : unescape (toCodeUnits (encodeURIComponent str)) = utf8 str.data :=
    unescape_encodeURIComponent str.data
  unfold base64Encode
  rw [hu]
  unfold btoa
  rw [if_pos]
  simp only [List.all_eq_true, decide_eq_true_eq]
  intro b hb
  have := utf8_lt _ b hb
  omega

theorem utf8Bytes_head (c : Char) (h : 128 ≤ c.toNat) : ∃ b ∈ utf8Bytes c, 128 ≤ b := by
  unfold utf8Bytes
  simp only
  by_cases h1 : c.toNat < 0x80
  · omega
  · rw [if_neg h1]
    by_cases h2 : c.toNat < 0x800
    · rw [if_pos h2]
      exact ⟨0xC0 + c.toNat / 64, List.mem_cons_self _ _, by omega⟩
    · rw [if_neg h2]
      by_cases h3 : c.toNat < 0x10000
      · rw [if_pos h3]
        exact ⟨0xE0 + c.toNat / 4096, List.mem_cons_self _ _, by omega⟩
      · rw [if_neg h3]
        exact ⟨0xF0 + c.toNat / 262144, List.mem_cons_self _ _, by omega⟩

theorem utf8_ascii (l : List Char) (h : ∀ b ∈ utf8 l, b < 128) : l.map Char.toNat = utf8 l := by
  induction l with
  | nil => rfl
  | cons c cs ih =>
    simp only [utf8, List.flatMap_cons, List.mem_append] at h ⊢
    have hc : c.toNat < 128 := by
      by_contra hge
      obtain ⟨b, hb, hb2⟩ := utf8Bytes_head c (by omega)
      have := h b (Or.inl hb)
      omega
    have hb : utf8Bytes c = [c.toNat] := by
      unfold utf8Bytes
      simp only
      rw [if_pos hc]
    rw [hb, List.map_cons, List.singleton_append]
    congr 1
    exact ih (fun b hb => h b (Or.inr hb))

/-- Only the secret has the Base64 encoding that `isUnlocked` expects. -/
theorem base64Encode_eq_constant_iff (str : String) :
    base64Encode str = some "THVjYXNLdW50ejU3MDcwTWV0eg==" ↔ str = secret := by
  constructor
  · intro h
    rw [base64Encode_eq] at h
    have h1 : base64OfBytes (utf8 str.data) = "THVjYXNLdW50ejU3MDcwTWV0eg==".data := by
      have := Option.some.inj h
      exact congrArg String.data this
    have h2 : utf8 str.data = bytesOfBase64 "THVjYXNLdW50ejU3MDcwTWV0eg==".data := by
      rw [← h1, bytesOfBase64_base64OfBytes _ (utf8_lt _)]
    have h3 : bytesOfBase64 "THVjYXNLdW50ejU3MDcwTWV0eg==".data = secret.data.map Char.toNat := by
      decide
    rw [h3] at h2
    have h4 : str.data.map Char.toNat = secret.data.map Char.toNat := by
      rw [← h2]
      apply utf8_ascii
      rw [h2]
      decide
    have h5 : str.data = secret.data :=
      List.map_injective_iff.2 (fun c d hcd => char_toNat_injective c d hcd) h4
    exact String.ext h5
  · intro h
    subst h
    decide

/-! ## Properties of the access token -/

/-- C6, amended: after `getAndUseAccessToken` runs on a fresh page,
`isUnlocked()` holds exactly when the query has one parameter, named
`access_token`, whose value is the secret, the string whose `base64Encode` is
the constant of `isUnlocked`. It does not hold for any other value of a single
parameter, for an empty value, for a single parameter of another name, nor for
zero or several parameters. -/
theorem getAndUseAccessToken_unlocked_iff (params : List (String × String)) :
    (getAndUseAccessToken params initialToken).map isUnlocked
        = some (decide (params = [("access_token", secret)]))
      ∧ base64Encode secret = some "THVjYXNLdW50ejU3MDcwTWV0eg==" := by
  refine ⟨?_, by decide⟩
  have hlocked : isUnlocked initialToken = false := by decide
  cases params with
  | nil => simp [getAndUseAccessToken, hlocked]
  | cons p ps =>
    cases ps with
    | cons q qs => simp [getAndUseAccessToken, hlocked]
    | nil =>
      obtain ⟨n, v⟩ := p
      by_cases hn : n = "access_token"
      · subst hn
        have hget : paramsGet [("access_token", v)] "access_token" = some v := by
          simp [paramsGet]
        by_cases hv : v = ""
        · subst hv
          have hs : ("" : String) ≠ secret := by decide
          simp [getAndUseAccessToken, hget, hlocked, hs]
        · have hcond : ([("access_token", v)].length = 1
              ∧ paramsGet [("access_token", v)] "access_token" ≠ some "") := by
            rw [hget]
            exact ⟨rfl, fun h => hv (Option.some.inj h)⟩
          unfold getAndUseAccessToken
          rw [if_pos hcond]
          simp only [hget, Option.getD_some]
          rw [base64Encode_eq, Option.map_some']
          congr 1
          have hiff := base64Encode_eq_constant_iff v
          rw [base64Encode_eq] at hiff
          have hiff2 : String.mk (base64OfBytes (utf8 v.data)) = "THVjYXNLdW50ejU3MDcwTWV0eg=="
              ↔ v = secret := by
            rw [← hiff]
            exact ⟨fun h => congrArg some h, fun h => Option.some.inj h⟩
          simp only [isUnlocked, List.cons.injEq, Prod.mk.injEq, true_and, and_true,
            decide_eq_decide]
          exact hiff2
      · have hget : paramsGet [(n, v)] "access_token" = none := by
          simp [paramsGet, hn]
        have hcond : ([(n, v)].length = 1 ∧ paramsGet [(n, v)] "access_token" ≠ some "") := by
          rw [hget]
          exact ⟨rfl, fun h => Option.noConfusion h⟩
        have hnull : (base64Encode "null").map isUnlocked = some false := by decide
        unfold getAndUseAccessToken
        rw [if_pos hcond]
        simp only [hget, Option.getD_none]
        rw [hnull]
        simp [hn]

/-- Counterexample to C6 as stated: the query has exactly one parameter and its
value is the secret, but its name is not `access_token`; the page stays locked. -/
theorem getAndUseAccessToken_other_name_locked :
    [("token", secret)].length = 1
      ∧ base64Encode secret = some "THVjYXNLdW50ejU3MDcwTWV0eg=="
      ∧ (getAndUseAccessToken [("token", secret)] initialToken).map isUnlocked = some false := by
  decide

/-! ## Properties of the built tree: order of the cards and identifiers -/

theorem cardsContainer_eq (token : String) :
    cardsContainer token
      = Node.element
          { tag := "div", classList := ["cards"], id := "cards", attributes := [],
            innerHTML := "" }
          (renderCards ((if isUnlocked token then identityCards else [])
            ++ experiences.reverse ++ formations.reverse ++ skillsCards ++ projects)) := by
  have hc : parseOrderedSet "cards" = ["cards"] := by decide
  cases h : isUnlocked token <;>
    simp [cardsContainer, h, createIdentityCards, createProfessionalExCards,
      createFormationsCards, createSkillsCards, createProjectsCards, createElement,
      applyAttribute, appendCards_element, renderCards, hc]

set_option maxRecDepth 100000 in
/-- C11: the cards of the container built by `createCards` are, in this order,
the identity cards in table order (only when the page is unlocked), the
professional cards from `professional6` down to `professional1` (the table
reversed), the formation cards from `formation3` down to `formation1`, the
skills cards in table order and the project cards in table order. Every card
carries exactly one of the five categories, so the cards of one category are
contiguous and the categories follow each other in the order identity,
professional, formation, skills, project. -/
theorem cardsContainer_card_order (token : String) :
    (cardsContainer token).childNodes
        = renderCards ((if isUnlocked token then identityCards else [])
            ++ experiences.reverse ++ formations.reverse ++ skillsCards ++ projects)
      ∧ (cardsContainer token).childNodes.map Node.id
        = (if isUnlocked token then ["identity1", "identity2", "identity3", "identity5"] else [])
          ++ ["professional6", "professional5", "professional4", "professional3",
              "professional2", "professional1",
              "formation3", "formation2", "formation1",
              "skills1", "skills2", "skills3", "skills4", "skills5", "skills6", "skills7",
              "project1", "project2", "project3", "project4", "project5", "project6",
              "project7", "project9", "project10", "project11", "project12"]
      ∧ (cardsContainer token).childNodes.map cardCategories
        = (if isUnlocked token then List.replicate 4 ["identity"] else [])
          ++ List.replicate 6 ["professional"] ++ List.replicate 3 ["formation"]
          ++ List.replicate 7 ["skills"] ++ List.replicate 11 ["project"]
      ∧ createCards token (Node.element
            { tag := "div", classList := [], id := "content", attributes := [],
              innerHTML := "" } [])
        = Node.element
            { tag := "div", classList := [], id := "content", attributes := [],
              innerHTML := "" } [cardsContainer token] := by
  refine ⟨by rw [cardsContainer_eq]; rfl, ?_, ?_, rfl⟩
  · cases h : isUnlocked token
    · simp only [cardsContainer, h]; decide
    · simp only [cardsContainer, h]; decide
  · cases h : isUnlocked token
    · simp only [cardsContainer, h]; decide
    · simp only [cardsContainer, h]; decide

set_option maxRecDepth 100000 in
/-- C16: the card ids and the body ids of the five static tables are pairwise
distinct and differ from the seven identifiers of the shell nodes (`loading`,
`navbar`, `header`, `labelBtnNavbar`, `btnNavbar`, `navbarItems`, `cards`),
which are the identifiers that `createLoading`, `createNavbar` and `createCards`
give to the nodes they build; so the identifiers of the elements built for the
page are pairwise distinct whether the page is unlocked or not. -/
theorem ids_pairwise_distinct (token : String) :
    (shellIds ++ recordIds allCardRecords).Nodup
      ∧ loadingElement.ids ++ (navbarElement token).ids ++ [(cardsContainer token).id]
        = shellIds
      ∧ (loadingElement.ids ++ (navbarElement token).ids ++ (cardsContainer token).ids).Nodup
      ∧ (cardsContainer token).ids
        = "cards" :: recordIds ((if isUnlocked token then identityCards else [])
            ++ experiences.reverse ++ formations.reverse ++ skillsCards ++ projects) := by
  refine ⟨by decide, ?_, ?_, ?_⟩
  · cases h : isUnlocked token
    · simp only [navbarElement, navbarItemsMarkup, cardsContainer, h]; decide
    · simp only [navbarElement, navbarItemsMarkup, cardsContainer, h]; decide
  · cases h : isUnlocked token
    · simp only [navbarElement, navbarItemsMarkup, cardsContainer, h]; decide
    · simp only [navbarElement, navbarItemsMarkup, cardsContainer, h]; decide
  · cases h : isUnlocked token
    · simp only [cardsContainer, h]; decide
    · simp only [cardsContainer, h]; decide

/-! ## Defaults of the summaries, ties and the `BAC +` group -/

theorem formationTitle_eq_join_parts (toUpperCase : String → String) (innerTexts : List String) :
    formationTitle toUpperCase innerTexts = join " / " (formationParts toUpperCase innerTexts) :=
  rfl

theorem accessCount_eq_zero (body : Node)
    (h : ∀ n ∈ body.childNodes, n.role ≠ some "access") : accessCount body = 0 := by
  unfold accessCount Node.children
  rw [List.length_eq_zero, List.filter_eq_nil_iff]
  intro n hn
  have hmem : n ∈ body.childNodes := (List.mem_filter.1 hn).1
  simpa using h n hmem

theorem totalAccess_eq_zero (bodies : List Node)
    (h : ∀ b ∈ bodies, ∀ n ∈ b.childNodes, n.role ≠ some "access") : totalAccess bodies = 0 := by
  unfold totalAccess
  rw [foldl_add_eq_sum, Nat.zero_add]
  apply List.sum_eq_zero
  intro x hx
  obtain ⟨b, hb, rfl⟩ := List.mem_map.1 hx
  exact accessCount_eq_zero b (h b hb)

/-- C14: the summaries do not fail when nothing matches. With no professional
period element the tenure title is `0 an & 0 mois`; with no formation level
element the formation title is the empty string; with project bodies none of
which has a child of role `access`, in particular with no project body at all,
the project title is `0 projets accessibles`. In each case `menuDetails` returns
and sets all three titles. -/
theorem menuDetails_defaults (toUpperCase : String → String) (token : String)
    (periodDiffs levelTexts : List String) (projectBodies bodies : List Node)
    (hnone : ∀ b ∈ bodies, ∀ n ∈ b.childNodes, n.role ≠ some "access") :
    (menuDetails toUpperCase (navbarItems token) [] levelTexts projectBodies).bind
        (entryTitle "professional") = some "0 an & 0 mois"
      ∧ (menuDetails toUpperCase (navbarItems token) (periodDiffs.map some) []
          projectBodies).bind (entryTitle "formation") = some ""
      ∧ (menuDetails toUpperCase (navbarItems token) (periodDiffs.map some) levelTexts
          []).bind (entryTitle "project") = some "0 projets accessibles"
      ∧ (menuDetails toUpperCase (navbarItems token) (periodDiffs.map some) levelTexts
          bodies).bind (entryTitle "project") = some "0 projets accessibles"
      ∧ ((menuDetails toUpperCase (navbarItems token) [] [] []).map
          (fun nav => [entryTitle "professional" nav, entryTitle "formation" nav,
            entryTitle "project" nav]))
        = some [some "0 an & 0 mois", some "", some "0 projets accessibles"] := by
  have hzero : totalPro [] = some (some 0) := rfl
  refine ⟨?_, ?_, ?_, ?_, ?_⟩
  · obtain ⟨nav, hnav, hpro, -, -⟩ := menuDetails_titles toUpperCase token [] (some 0) hzero
      levelTexts projectBodies
    rw [hnav, Option.some_bind, hpro]
    rfl
  · obtain ⟨nav, hnav, -, hform, -⟩ := menuDetails_titles toUpperCase token _ _
      (totalPro_map_some periodDiffs) [] projectBodies
    rw [hnav, Option.some_bind, hform]
    rfl
  · obtain ⟨nav, hnav, -, -, hproj⟩ := menuDetails_titles toUpperCase token _ _
      (totalPro_map_some periodDiffs) levelTexts []
    rw [hnav, Option.some_bind, hproj]
    rfl
  · obtain ⟨nav, hnav, -, -, hproj⟩ := menuDetails_titles toUpperCase token _ _
      (totalPro_map_some periodDiffs) levelTexts bodies
    rw [hnav, Option.some_bind, hproj, totalAccess_eq_zero bodies hnone]
    rfl
  · obtain ⟨nav, hnav, hpro, hform, hproj⟩ := menuDetails_titles toUpperCase token [] (some 0)
      hzero [] []
    rw [hnav, Option.map_some', hpro, hform, hproj]
    rfl

/-- Witness of C14: two project bodies without any `access` child. -/
theorem menuDetails_defaults_witness :
    (∀ b ∈ [bodyElement "bodyA" [roleElement "div" "repository" []], bodyElement "bodyB" []],
        ∀ n ∈ b.childNodes, n.role ≠ some "access")
      ∧ (menuDetails asciiToUpperCase (navbarItems initialToken) ([].map some) []
          [bodyElement "bodyA" [roleElement "div" "repository" []], bodyElement "bodyB" []]).bind
          (entryTitle "project") = some "0 projets accessibles" :=
  ⟨by decide,
   (menuDetails_defaults asciiToUpperCase initialToken [] [] []
      [bodyElement "bodyA" [roleElement "div" "repository" []], bodyElement "bodyB" []]
      (by decide)).2.2.2.1⟩

theorem head_sortedInsert (cmp : String → String → Option Int) (a : String) (l : List String) :
    (sortedInsert cmp a l).head?
      = match l with
        | [] => some a
        | b :: _ =>
          if (match cmp a b with | some d => decide (d ≤ 0) | none => true) then some a
          else some b := by
  cases l with
  | nil => rfl
  | cons b l =>
    simp only [sortedInsert]
    split <;> rfl

/-- The head of the sorted `bacLevels` is the label `m` as soon as every label
before `m` has a smaller number and no label after it has a greater one. -/
theorem head_sortWith_of_first_max (pre post : List String) (m : String)
    (h : ∀ x ∈ pre ++ m :: post, (bacKey x).isSome)
    (hpre : ∀ x ∈ pre, bacNumber x < bacNumber m)
    (hpost : ∀ x ∈ post, bacNumber x ≤ bacNumber m) :
    (sortWith bacCompare (pre ++ m :: post)).head? = some m := by
  have hm : (bacKey m).isSome := h m (by simp)
  induction pre with
  | nil =>
    simp only [List.nil_append, sortWith, head_sortedInsert]
    cases hs : sortWith bacCompare post with
    | nil => rfl
    | cons b tl =>
      have hb : b ∈ post := by
        rw [← mem_sortWith bacCompare, hs]; exact List.mem_cons_self _ _
      have hbk : (bacKey b).isSome := h b (by simp [hb])
      have hle := hpost b hb
      simp only [bacCompare_of_isSome m b hm hbk]
      rw [if_pos]
      simp only [decide_eq_true_eq]
      omega
  | cons a pre ih =>
    have ha : (bacKey a).isSome := h a (by simp)
    have ih' := ih (fun x hx => h x (by
        rcases List.mem_append.1 hx with hx | hx
        · simp [hx]
        · simp only [List.cons_append, List.mem_cons, List.mem_append]
          right; right; exact List.mem_cons.1 hx))
      (fun x hx => hpre x (List.mem_cons_of_mem _ hx))
    have hlt := hpre a (List.mem_cons_self _ _)
    simp only [List.cons_append, sortWith, head_sortedInsert]
    cases hs : sortWith bacCompare (pre ++ m :: post) with
    | nil => rw [hs] at ih'; simp at ih'
    | cons b tl =>
      rw [hs] at ih'
      simp only [List.head?_cons, Option.some.injEq] at ih'
      subst ih'
      simp only [bacCompare_of_isSome a b ha hm]
      rw [if_neg]
      simp only [decide_eq_true_eq]
      omega

theorem filter_sortedInsert (a : String) (l : List String) (k : Int)
    (h : ∀ x ∈ a :: l, (bacKey x).isSome) :
    (sortedInsert bacCompare a l).filter (fun x => decide (bacNumber x = k))
      = (a :: l).filter (fun x => decide (bacNumber x = k)) := by
  induction l with
  | nil => rfl
  | cons b l ih =>
    have ha : (bacKey a).isSome := h a (by simp)
    have hb : (bacKey b).isSome := h b (by simp)
    simp only [sortedInsert, bacCompare_of_isSome a b ha hb]
    by_cases hle : bacNumber b - bacNumber a ≤ 0
    · rw [if_pos (by simpa using hle)]
    · rw [if_neg (by simpa using hle)]
      have ih' := ih (fun x hx => h x (by
        rcases List.mem_cons.1 hx with rfl | hx
        · simp
        · simp [hx]))
      by_cases hak : bacNumber a = k
      · have hbk : ¬ bacNumber b = k := by omega
        simp only [List.filter_cons, hbk, decide_False, Bool.false_eq_true, if_false, ih',
          hak, decide_True, if_true]
      · simp only [List.filter_cons, ih', hak, decide_False, Bool.false_eq_true, if_false]

/-- The sort of `bacLevels` is stable: the labels of any one number keep the
order they have in the document. -/
theorem filter_sortWith (l : List String) (k : Int) (h : ∀ x ∈ l, (bacKey x).isSome) :
    (sortWith bacCompare l).filter (fun x => decide (bacNumber x = k))
      = l.filter (fun x => decide (bacNumber x = k)) := by
  induction l with
  | nil => rfl
  | cons a l ih =>
    have ih' := ih (fun x hx => h x (List.mem_cons_of_mem _ hx))
    have hs : ∀ x ∈ a :: sortWith bacCompare l, (bacKey x).isSome := by
      intro x hx
      rcases List.mem_cons.1 hx with rfl | hx
      · exact h _ (List.mem_cons_self _ _)
      · exact h x (List.mem_cons_of_mem _ ((mem_sortWith _ _ _).1 hx))
    simp only [sortWith]
    rw [filter_sortedInsert a _ k hs, List.filter_cons, List.filter_cons, ih']

theorem pairwise_sortedInsert (a : String) (l : List String)
    (h : ∀ x ∈ a :: l, (bacKey x).isSome)
    (hl : l.Pairwise (fun x y => bacNumber y ≤ bacNumber x)) :
    (sortedInsert bacCompare a l).Pairwise (fun x y => bacNumber y ≤ bacNumber x) := by
  induction l with
  | nil => simp [sortedInsert]
  | cons b l ih =>
    have ha : (bacKey a).isSome := h a (by simp)
    have hb : (bacKey b).isSome := h b (by simp)
    obtain ⟨hbl, hl'⟩ := List.pairwise_cons.1 hl
    simp only [sortedInsert, bacCompare_of_isSome a b ha hb]
    by_cases hle : bacNumber b - bacNumber a ≤ 0
    · rw [if_pos (by simpa using hle)]
      refine List.pairwise_cons.2 ⟨?_, hl⟩
      intro y hy
      rcases List.mem_cons.1 hy with rfl | hy
      · omega
      · have := hbl y hy
        omega
    · rw [if_neg (by simpa using hle)]
      have ih' := ih (fun x hx => h x (by
        rcases List.mem_cons.1 hx with rfl | hx
        · simp
        · simp [hx])) hl'
      refine List.pairwise_cons.2 ⟨?_, ih'⟩
      intro y hy
      rcases (mem_sortedInsert _ _ _ _).1 hy with rfl | hy
      · omega
      · exact hbl y hy

/-- The sorted `bacLevels` are in descending order of their numbers. -/
theorem pairwise_sortWith (l : List String) (h : ∀ x ∈ l, (bacKey x).isSome) :
    (sortWith bacCompare l).Pairwise (fun x y => bacNumber y ≤ bacNumber x) := by
  induction l with
  | nil => simp [sortWith]
  | cons a l ih =>
    have ih' := ih (fun x hx => h x (List.mem_cons_of_mem _ hx))
    have hs : ∀ x ∈ a :: sortWith bacCompare l, (bacKey x).isSome := by
      intro x hx
      rcases List.mem_cons.1 hx with rfl | hx
      · exact h _ (List.mem_cons_self _ _)
      · exact h x (List.mem_cons_of_mem _ ((mem_sortWith _ _ _).1 hx))
    exact pairwise_sortedInsert a _ hs ih'

/-- C17: when the `BAC +` labels all carry an integer and `m` is the first of
them, in document order, with the greatest integer (every `BAC +` label before
it has a smaller integer, none after it has a greater one, so that labels tied
with `m` come after it), the label selected for the formation title is `m`. The
sort is descending and stable: labels of equal integer keep their document
order. With `BAC +3` before `BAC +03` the title is `BAC +3`, and with `BAC +03`
before `BAC +3` it is `BAC +03`. -/
theorem formationTitle_tie_first_occurrence (toUpperCase : String → String)
    (innerTexts pre post : List String) (m : String) (k : Int)
    (hint : ∀ l ∈ bacLabels (normalizedLevels toUpperCase innerTexts), (bacKey l).isSome = true)
    (hdec : bacLabels (normalizedLevels toUpperCase innerTexts) = pre ++ m :: post)
    (hpre : ∀ l ∈ pre, bacNumber l < bacNumber m)
    (hpost : ∀ l ∈ post, bacNumber l ≤ bacNumber m) :
    (sortWith bacCompare (bacLabels (normalizedLevels toUpperCase innerTexts))).head? = some m
      ∧ formationTitle toUpperCase innerTexts
        = join " / " (m :: distinctInOrder
            ((otherLabels (normalizedLevels toUpperCase innerTexts)).filter (fun l => l ≠ "")))
      ∧ (sortWith bacCompare (bacLabels (normalizedLevels toUpperCase innerTexts))).Pairwise
          (fun x y => bacNumber y ≤ bacNumber x)
      ∧ (sortWith bacCompare (bacLabels (normalizedLevels toUpperCase innerTexts))).filter
          (fun x => decide (bacNumber x = k))
        = (bacLabels (normalizedLevels toUpperCase innerTexts)).filter
            (fun x => decide (bacNumber x = k))
      ∧ formationTitle asciiToUpperCase ["BAC +3", "BAC +03"] = "BAC +3"
      ∧ formationTitle asciiToUpperCase ["BAC +03", "BAC +3"] = "BAC +03" := by
  have hhead : (sortWith bacCompare
      (bacLabels (normalizedLevels toUpperCase innerTexts))).head? = some m := by
    rw [hdec]
    exact head_sortWith_of_first_max pre post m (by rw [← hdec]; exact hint) hpre hpost
  refine ⟨hhead, ?_, pairwise_sortWith _ hint, filter_sortWith _ k hint, by decide, by decide⟩
  rw [(formationTitle_eq toUpperCase innerTexts).1, hhead]
  rfl

/-- Witness of C17: `BAC +3` before `BAC +03`, both of number 3, and `BAC +2`. -/
theorem formationTitle_tie_first_occurrence_witness :
    bacLabels (normalizedLevels asciiToUpperCase ["Bac +2", "Bac +3", "Bac +03"])
        = ["BAC +2"] ++ "BAC +3" :: ["BAC +03"]
      ∧ bacNumber "BAC +3" = bacNumber "BAC +03"
      ∧ formationTitle asciiToUpperCase ["Bac +2", "Bac +3", "Bac +03"]
        = join " / " ("BAC +3" :: distinctInOrder
            ((otherLabels (normalizedLevels asciiToUpperCase
              ["Bac +2", "Bac +3", "Bac +03"])).filter (fun l => l ≠ ""))) :=
  ⟨by decide, by decide,
   (formationTitle_tie_first_occurrence asciiToUpperCase ["Bac +2", "Bac +3", "Bac +03"]
      ["BAC +2"] ["BAC +03"] "BAC +3" 3 (by decide) (by decide) (by decide) (by decide)).2.1⟩

theorem count_distinctAfter (x : String) (xs before : List String) :
    (distinctAfter before xs).count x = if x ∈ xs ∧ x ∉ before then 1 else 0 := by
  induction xs generalizing before with
  | nil => simp [distinctAfter]
  | cons y ys ih =>
    by_cases hy : y ∈ before
    · simp only [distinctAfter, hy, if_true, ih, List.mem_cons]
      by_cases hxy : x = y
      · subst hxy
        simp [hy]
      · simp [hxy]
    · simp only [distinctAfter, hy, if_false, List.count_cons, ih, List.mem_cons]
      by_cases hxy : x = y
      · subst hxy
        simp [hy]
      · have hyx : ¬ y = x := fun e => hxy e.symm
        simp [hxy, hyx]

theorem formationParts_eq (toUpperCase : String → String) (innerTexts : List String) :
    formationParts toUpperCase innerTexts
      = ((sortWith bacCompare
            (bacLabels (normalizedLevels toUpperCase innerTexts))).head?).toList
          ++ distinctInOrder
              ((otherLabels (normalizedLevels toUpperCase innerTexts)).filter
                (fun l => l ≠ "")) := by
  have hhead : ∀ m, (sortWith bacCompare
      (bacLabels (normalizedLevels toUpperCase innerTexts))).head? = some m → m ≠ "" := by
    intro m hm
    have hmem : m ∈ sortWith bacCompare (bacLabels (normalizedLevels toUpperCase innerTexts)) :=
      List.mem_of_mem_head? hm
    rw [mem_sortWith] at hmem
    simp only [bacLabels, List.mem_filter] at hmem
    exact ne_empty_of_startsWith_bac m hmem.2
  change List.filterMap (fun p => Option.filter (fun x => decide (x ≠ "")) p)
      ((sortWith bacCompare (bacLabels (normalizedLevels toUpperCase innerTexts))).head? ::
        List.map some ((setFromArray (otherLabels (normalizedLevels toUpperCase innerTexts))).filter
          (fun o => !decide (o ∈ sortWith bacCompare
            (bacLabels (normalizedLevels toUpperCase innerTexts)))))) = _
  rw [(formationTitle_eq toUpperCase innerTexts).2, setFromArray_eq_distinctInOrder,
    ← filter_distinctInOrder]
  cases hs : (sortWith bacCompare (bacLabels (normalizedLevels toUpperCase innerTexts))).head? with
  | none =>
    rw [List.filterMap_cons, filterMap_keepNonEmpty]
    rfl
  | some m =>
    have hne : decide (m ≠ "") = true := by simpa using hhead m hs
    rw [List.filterMap_cons, filterMap_keepNonEmpty]
    simp only [Option.filter, hne, if_true, Option.toList, List.singleton_append]

/-- C18, amended: a level, trimmed and upper-cased, is in the `BAC +` group
exactly when it starts with `BAC +`, whether or not an integer follows. A
non-empty level `l` that does not start with `BAC +` is one of the parts joined
into the formation title, exactly once. Of the `BAC +` group only the head of
the sorted group is a part, so a level such as `BAC +` or `BAC + PRO` is in the
title only when it is that head. -/
theorem formationParts_other_label_once (toUpperCase : String → String)
    (innerTexts : List String) (l : String)
    (hl : l ∈ normalizedLevels toUpperCase innerTexts)
    (hother : startsWith l "BAC +" = false) (hne : l ≠ "") :
    (formationParts toUpperCase innerTexts).count l = 1
      ∧ formationTitle toUpperCase innerTexts
        = join " / " (formationParts toUpperCase innerTexts)
      ∧ (∀ x, x ∈ sortWith bacCompare (bacLabels (normalizedLevels toUpperCase innerTexts))
          ↔ (x ∈ normalizedLevels toUpperCase innerTexts ∧ startsWith x "BAC +" = true))
      ∧ (formationParts toUpperCase innerTexts).filter (fun x => startsWith x "BAC +")
        = ((sortWith bacCompare
            (bacLabels (normalizedLevels toUpperCase innerTexts))).head?).toList
      ∧ formationTitle asciiToUpperCase ["Bac + pro"] = "BAC + PRO"
      ∧ formationTitle asciiToUpperCase ["Bac +", "RNCP 6"] = "BAC + / RNCP 6" := by
  have hgroup : ∀ x, x ∈ sortWith bacCompare (bacLabels (normalizedLevels toUpperCase innerTexts))
      ↔ (x ∈ normalizedLevels toUpperCase innerTexts ∧ startsWith x "BAC +" = true) := by
    intro x
    rw [mem_sortWith]
    simp [bacLabels, List.mem_filter]
  have hheadbac : ∀ x ∈ ((sortWith bacCompare
      (bacLabels (normalizedLevels toUpperCase innerTexts))).head?).toList,
      startsWith x "BAC +" = true := by
    intro x hx
    have hx' : (sortWith bacCompare
        (bacLabels (normalizedLevels toUpperCase innerTexts))).head? = some x := by
      simpa [Option.mem_toList] using hx
    exact ((hgroup x).1 (List.mem_of_mem_head? hx')).2
  have hothers : ∀ x ∈ distinctInOrder
      ((otherLabels (normalizedLevels toUpperCase innerTexts)).filter (fun l => l ≠ "")),
      startsWith x "BAC +" = false := by
    intro x hx
    have h1 := mem_distinctAfter x _ _ hx
    have h2 := (List.mem_filter.1 h1).1
    simp only [otherLabels, List.mem_filter, Bool.not_eq_true'] at h2
    exact h2.2
  refine ⟨?_, rfl, hgroup, ?_, by decide, by decide⟩
  · rw [formationParts_eq, List.count_append]
    have h0 : List.count l ((sortWith bacCompare
        (bacLabels (normalizedLevels toUpperCase innerTexts))).head?).toList = 0 := by
      apply List.count_eq_zero.2
      intro hmem
      have := hheadbac l hmem
      rw [hother] at this
      exact Bool.noConfusion this
    rw [h0, Nat.zero_add]
    unfold distinctInOrder
    rw [count_distinctAfter, if_pos]
    refine ⟨?_, List.not_mem_nil _⟩
    simp only [otherLabels, List.mem_filter, Bool.not_eq_true', decide_eq_true_eq]
    exact ⟨⟨hl, hother⟩, hne⟩
  · rw [formationParts_eq, List.filter_append]
    have h1 : List.filter (fun x => startsWith x "BAC +") ((sortWith bacCompare
        (bacLabels (normalizedLevels toUpperCase innerTexts))).head?).toList
        = ((sortWith bacCompare
            (bacLabels (normalizedLevels toUpperCase innerTexts))).head?).toList :=
      List.filter_eq_self.2 hheadbac
    have h2 : List.filter (fun x => startsWith x "BAC +") (distinctInOrder
        ((otherLabels (normalizedLevels toUpperCase innerTexts)).filter (fun l => l ≠ "")))
        = [] := by
      apply List.filter_eq_nil_iff.2
      intro x hx
      rw [hothers x hx]
      exact Bool.false_ne_true
    rw [h1, h2, List.append_nil]

/-- Witness of C18: the level `RNCP 6` beside `BAC +3` and `BAC + PRO`. -/
theorem formationParts_other_label_once_witness :
    "RNCP 6" ∈ normalizedLevels asciiToUpperCase ["Bac +3", "Bac + pro", "RNCP 6"]
      ∧ startsWith "RNCP 6" "BAC +" = false
      ∧ (formationParts asciiToUpperCase ["Bac +3", "Bac + pro", "RNCP 6"]).count "RNCP 6" = 1 :=
  ⟨by decide, by decide,
   (formationParts_other_label_once asciiToUpperCase ["Bac +3", "Bac + pro", "RNCP 6"] "RNCP 6"
      (by decide) (by decide) (by decide)).1⟩

/-- Counterexample to C18 as stated: `BAC + PRO` starts with `BAC +` and has no
integer after the `+`, yet it is put in the `BAC +` group; beside `BAC +3` it
is not the head of that group and does not appear in the title at all. -/
theorem formationTitle_bac_without_integer :
    bacKey "BAC + PRO" = none
      ∧ normalizedLevels asciiToUpperCase ["Bac +3", "Bac + pro"] = ["BAC +3", "BAC + PRO"]
      ∧ sortWith bacCompare
          (bacLabels (normalizedLevels asciiToUpperCase ["Bac +3", "Bac + pro"]))
        = ["BAC +3", "BAC + PRO"]
      ∧ otherLabels (normalizedLevels asciiToUpperCase ["Bac +3", "Bac + pro"]) = []
      ∧ formationParts asciiToUpperCase ["Bac +3", "Bac + pro"] = ["BAC +3"]
      ∧ formationTitle asciiToUpperCase ["Bac +3", "Bac + pro"] = "BAC +3" := by
  decide

/-! ## The category state machine -/

theorem map_hasClass_showCards_of_ne (cardType t : String) (ht : t ≠ "visible")
    (cards : List Node) :
    (showCards cardType cards).map (fun c => c.hasClass t) = cards.map (fun c => c.hasClass t) := by
  simp only [showCards, List.map_map]
  apply List.map_congr_left
  intro c _
  exact hasClass_showCard_of_ne cardType t ht c

theorem map_hasClass_showCards_visible (cardType : String) (cards : List Node) :
    (showCards cardType cards).map (fun c => c.hasClass "visible")
      = (showCards cardType cards).map (fun c => c.hasClass cardType) := by
  simp only [showCards, List.map_map]
  apply List.map_congr_left
  intro c _
  by_cases h : cardType = "visible"
  · subst h; rfl
  · simp only [Function.comp, hasClass_showCard_visible, hasClass_showCard_of_ne _ _ h]

theorem any_eq_any_map (l : List Node) (f : Node → Bool) :
    l.any f = (l.map f).any (fun b => b) := by
  induction l with
  | nil => rfl
  | cons a l ih => simp only [List.any_cons, List.map_cons, ih]

theorem navbarItems_ne_visible (token : String) (C : String)
    (h : C ∈ (navbarItems token).map (fun e => e.dataClass)) : C ≠ "visible" := by
  intro e
  subst e
  revert h
  cases hu : isUnlocked token <;> simp only [navbarItems, hu] <;> decide

theorem clickCards_cardType (token : String) :
    (clickCards (builtPage token)).cardType
      = if isUnlocked token then "identity" else "professional" := by
  cases h : isUnlocked token <;> simp [clickCards, builtPage, h, initialCardType]

theorem pageInv_loadedPage (token : String) : PageInv token (loadedPage token) := by
  refine ⟨rfl, ?_, ⟨_, _, rfl⟩, ?_, ?_, ?_⟩
  · simp [loadedPage, Page.showCards, clickCards, builtPage]
  · show (clickCards (builtPage token)).cardType ∈ _
    rw [clickCards_cardType]
    cases h : isUnlocked token <;> simp only [navbarItems, h] <;> decide
  · intro t ht
    exact map_hasClass_showCards_of_ne _ t ht _
  · exact map_hasClass_showCards_visible _ _

theorem click_of_pageInv (token : String) (st : Page) (h : PageInv token st) (i : Nat) :
    ∃ st2, click i st = some st2 ∧ PageInv token st2
      ∧ st2.cardType = (((navbarItems token).get? i).map (fun e => e.dataClass)).getD st.cardType := by
  obtain ⟨htok, hbut, ⟨toggle, rest, hin⟩, hcat, hcards, hvis⟩ := h
  have hbget : st.buttons.get? i = ((navbarItems token).get? i).map (fun e => (e, 1)) := by
    rw [hbut, List.get?_eq_getElem?, List.get?_eq_getElem?, List.getElem?_map]
  cases hget : (navbarItems token).get? i with
  | none =>
    have hb : st.buttons.get? i = none := by rw [hbget, hget]; rfl
    refine ⟨st, ?_, ⟨htok, hbut, ⟨toggle, rest, hin⟩, hcat, hcards, hvis⟩, ?_⟩
    · unfold click
      rw [hb]
    · rfl
  | some e =>
    have hb : st.buttons.get? i = some (e, 1) := by rw [hbget, hget]; rfl
    have he : e.dataClass ∈ (navbarItems token).map (fun e => e.dataClass) :=
      List.mem_map.2 ⟨e, List.get?_mem hget, rfl⟩
    refine ⟨{ cardType := e.dataClass,
              token := st.token,
              buttons := st.buttons,
              inputs := { id := toggle.id, checked := false } :: rest,
              cards := showCards e.dataClass st.cards,
              timers := st.timers ++ [("scrollToTopOfCardsWithOffset", 10)],
              calls := st.calls ++ [Call.showCards e.dataClass,
                Call.setTimeout "scrollToTopOfCardsWithOffset" 10] },
      ?_, ⟨htok, hbut, ⟨_, _, rfl⟩, he, ?_, ?_⟩, rfl⟩
    · unfold click
      rw [hb]
      simp [runListeners, clickListener, hin, Page.showCards, Page.setTimeout]
    · intro t ht
      exact (map_hasClass_showCards_of_ne _ t ht _).trans (hcards t ht)
    · exact map_hasClass_showCards_visible _ _

theorem clicks_of_pageInv (token : String) (is : List Nat) (st : Page) (h : PageInv token st) :
    ∃ st2, clicks is st = some st2 ∧ PageInv token st2 := by
  induction is generalizing st with
  | nil => exact ⟨st, rfl, h⟩
  | cons i rest ih =>
    obtain ⟨st1, h1, hinv1, -⟩ := click_of_pageInv token st h i
    obtain ⟨st2, h2, hinv2⟩ := ih st1 hinv1
    exact ⟨st2, by simp [clicks, h1, h2], hinv2⟩

set_option maxRecDepth 100000 in
theorem exists_card_of_category (token : String) (C : String)
    (h : C ∈ (navbarItems token).map (fun e => e.dataClass)) :
    (cardsContainer token).childNodes.any (fun c => c.hasClass C) = true := by
  revert h
  cases hu : isUnlocked token
  · simp only [navbarItems, cardsContainer, hu]
    intro h
    simp only [Bool.false_eq_true, if_false, List.nil_append, List.map_cons, List.map_nil,
      List.mem_cons, List.mem_singleton, List.not_mem_nil, or_false] at h
    rcases h with rfl | rfl | rfl | rfl <;> decide
  · simp only [navbarItems, cardsContainer, hu]
    intro h
    simp only [if_true, List.singleton_append, List.map_cons, List.map_nil,
      List.mem_cons, List.mem_singleton, List.not_mem_nil, or_false] at h
    rcases h with rfl | rfl | rfl | rfl | rfl <;> decide

/-- C15: after `clickCards`, `cardType` is `identity` when the page is unlocked
and `professional` otherwise. In every state reached from the loaded page by a
sequence of clicks on navigation buttons, `cardType` is the tag of a navigation
entry of the page and some card of the page has that class; it is `identity`
only when the page is unlocked; the visible cards are the cards of that
category; no further sequence of clicks fails; and one click on the entry of
index `i` leads to the state whose category is the tag of that entry, so that
every category of the page is one click away. -/
theorem cardType_invariant (token : String) (is : List Nat) (st : Page)
    (hreach : clicks is (loadedPage token) = some st) :
    (clickCards (builtPage token)).cardType
        = (if isUnlocked token then "identity" else "professional")
      ∧ (loadedPage token).cardType = (if isUnlocked token then "identity" else "professional")
      ∧ st.cardType ∈ (navbarItems token).map (fun e => e.dataClass)
      ∧ st.cards.any (fun c => c.hasClass st.cardType) = true
      ∧ (decide (st.cardType = "identity") && !isUnlocked token) = false
      ∧ st.cards.map (fun c => c.hasClass "visible")
        = st.cards.map (fun c => c.hasClass st.cardType)
      ∧ (∀ js, ∃ st2, clicks js st = some st2)
      ∧ (∀ i, ∃ st2, click i st = some st2
          ∧ st2.cardType
            = (((navbarItems token).get? i).map (fun e => e.dataClass)).getD st.cardType)
      ∧ (∀ C, C ∈ (navbarItems token).map (fun e => e.dataClass) →
          ∃ i st2, click i st = some st2 ∧ st2.cardType = C) := by
  obtain ⟨st', hst', hinv⟩ := clicks_of_pageInv token is _ (pageInv_loadedPage token)
  rw [hreach] at hst'
  have hst : st = st' := Option.some.inj hst'
  subst hst
  have hinv' := hinv
  obtain ⟨htok, hbut, hin, hcat, hcards, hvis⟩ := hinv'
  refine ⟨clickCards_cardType token, clickCards_cardType token, hcat, ?_, ?_, hvis, ?_, ?_, ?_⟩
  · have hne := navbarItems_ne_visible token _ hcat
    have hex := exists_card_of_category token _ hcat
    have hmap := hcards _ hne
    have h1 : st.cards.any (fun c => c.hasClass st.cardType)
        = (st.cards.map (fun c => c.hasClass st.cardType)).any (fun b => b) :=
      any_eq_any_map _ _
    have h2 : (cardsContainer token).childNodes.any (fun c => c.hasClass st.cardType)
        = ((cardsContainer token).childNodes.map (fun c => c.hasClass st.cardType)).any
            (fun b => b) :=
      any_eq_any_map _ _
    rw [h1, hmap, ← h2, hex]
  · cases hu : isUnlocked token
    · have hni : st.cardType ≠ "identity" := by
        intro e
        rw [e] at hcat
        revert hcat
        simp only [navbarItems, hu]
        decide
      simp [hni]
    · simp
  · intro js
    obtain ⟨st2, h2, -⟩ := clicks_of_pageInv token js st hinv
    exact ⟨st2, h2⟩
  · intro i
    obtain ⟨st2, h2, -, hc⟩ := click_of_pageInv token st hinv i
    exact ⟨st2, h2, hc⟩
  · intro C hC
    obtain ⟨e, he, rfl⟩ := List.mem_map.1 hC
    obtain ⟨i, hi⟩ := List.get?_of_mem he
    obtain ⟨st2, h2, -, hc⟩ := click_of_pageInv token st hinv i
    exact ⟨i, st2, h2, by rw [hc, hi]; rfl⟩

/-- Witness of C15: on the locked page, the state after one click on `skills`. -/
theorem cardType_invariant_witness :
    clicks [2] (loadedPage initialToken)
        = some
            { cardType := "skills",
              token := initialToken,
              buttons := (loadedPage initialToken).buttons,
              inputs := [{ id := "btnNavbar", checked := false }],
              cards := showCards "skills" (loadedPage initialToken).cards,
              timers := [("scrollToTopOfCardsWithOffset", 10)],
              calls := [Call.showCards "professional", Call.showCards "skills",
                Call.setTimeout "scrollToTopOfCardsWithOffset" 10] }
      ∧ (loadedPage initialToken).cardType = "professional"
      ∧ "skills" ∈ (navbarItems initialToken).map (fun e => e.dataClass) :=
  ⟨rfl, rfl,
   (cardType_invariant initialToken [2]
      { cardType := "skills",
        token := initialToken,
        buttons := (loadedPage initialToken).buttons,
        inputs := [{ id := "btnNavbar", checked := false }],
        cards := showCards "skills" (loadedPage initialToken).cards,
        timers := [("scrollToTopOfCardsWithOffset", 10)],
        calls := [Call.showCards "professional", Call.showCards "skills",
          Call.setTimeout "scrollToTopOfCardsWithOffset" 10] } rfl).2.2.1⟩


/-! ## Properties of the `DOMContentLoaded` handler -/

theorem id_setClassList (cl : List String) (n : Node) : (n.setClassList cl).id = n.id := by
  cases n <;> rfl

theorem childNodes_setClassList (cl : List String) (n : Node) :
    (n.setClassList cl).childNodes = n.childNodes := by
  cases n <;> rfl

theorem id_showCard (cardType : String) (n : Node) : (showCard cardType n).id = n.id := by
  unfold showCard
  split <;> exact id_setClassList _ _

theorem childNodes_showCard (cardType : String) (n : Node) :
    (showCard cardType n).childNodes = n.childNodes := by
  unfold showCard
  split <;> exact childNodes_setClassList _ _

theorem id_showCardsIn (cardType : String) (n : Node) : (n.showCardsIn cardType).id = n.id := by
  cases n with
  | text d => simp [Node.showCardsIn]
  | element p cs =>
    simp only [Node.showCardsIn]
    split
    · rw [id_showCard]; rfl
    · rfl

theorem childNodes_showCardsIn (cardType : String) (n : Node) :
    (n.showCardsIn cardType).childNodes = showCardsInAll cardType n.childNodes := by
  cases n with
  | text d => simp [Node.showCardsIn, Node.childNodes, showCardsInAll]
  | element p cs =>
    simp only [Node.showCardsIn]
    split
    · rw [childNodes_showCard]; rfl
    · rfl

theorem map_id_showCardsInAll (cardType : String) (l : List Node) :
    (showCardsInAll cardType l).map Node.id = l.map Node.id := by
  induction l with
  | nil => rfl
  | cons n ns ih => simp only [showCardsInAll, List.map_cons, id_showCardsIn, ih]

theorem length_showCardsInAll (cardType : String) (l : List Node) :
    (showCardsInAll cardType l).length = l.length := by
  induction l with
  | nil => rfl
  | cons n ns ih => simp only [showCardsInAll, List.length_cons, ih]

theorem id_toggleClass (token : String) (n : Node) : (n.toggleClass token).id = n.id := by
  unfold Node.toggleClass
  split <;> exact id_setClassList _ _

theorem map_id_toggleLoad (l : List Node) :
    (l.map (fun n => if n.id = "loading" then n.toggleClass "load" else n)).map Node.id
      = l.map Node.id := by
  induction l with
  | nil => rfl
  | cons n ns ih =>
    simp only [List.map_cons, ih]
    congr 1
    split
    · exact id_toggleClass _ _
    · rfl

theorem getAndUseAccessToken_some (params : List (String × String)) (token : String) :
    ∃ t, getAndUseAccessToken params token = some t := by
  unfold getAndUseAccessToken
  split
  · exact ⟨_, base64Encode_eq _⟩
  · exact ⟨_, rfl⟩

set_option maxRecDepth 100000 in
theorem id_navbarElement_cardsContainer (token : String) :
    (navbarElement token).id = "navbar" ∧ (cardsContainer token).id = "cards" := by
  constructor
  · simp [navbarElement, createElement, applyAttribute, appendChildOf, Node.appendChild, Node.id]
  · rw [cardsContainer_eq]; rfl

/-- C12, amended: on page load the handler returns, appends the loading
indicator to the parent of the mount container, after the children the parent
already has, and appends to the mount container exactly two children, the
navigation bar and then the cards container, after the children it already has.
No other child is added to or removed from the parent or the mount container. -/
theorem domContentLoaded_children (params : List (String × String)) (d : Document)
    (p : ElementProps) (cs : List Node) (hcontent : d.content = Node.element p cs) :
    ∃ d2, domContentLoaded params d = some d2
      ∧ d2.content.childNodes.map Node.id = cs.map Node.id ++ ["navbar", "cards"]
      ∧ d2.content.childNodes.length = cs.length + 2
      ∧ d2.content.id = d.content.id
      ∧ d2.before.map Node.id = d.before.map Node.id
      ∧ d2.after.map Node.id = d.after.map Node.id
      ∧ d2.appended.map Node.id = d.appended.map Node.id ++ ["loading"]
      ∧ d2.parentElement.childNodes.map Node.id
        = d.parentElement.childNodes.map Node.id ++ ["loading"]
      ∧ d.createLoading.parentElement = createLoading d.parentElement := by
  obtain ⟨token, htoken⟩ := getAndUseAccessToken_some params initialToken
  obtain ⟨hnav, hcards⟩ := id_navbarElement_cardsContainer token
  have hbuilt : createCards token (createNavbar token d.content)
      = Node.element p (cs ++ [navbarElement token, cardsContainer token]) := by
    rw [hcontent]
    simp [createCards, createNavbar, Node.appendChild]
  have hcontent2 : ((createCards token (createNavbar token d.content)).showCardsIn
        (clickCards (builtPage token)).cardType).childNodes.map Node.id
      = cs.map Node.id ++ ["navbar", "cards"] := by
    rw [childNodes_showCardsIn, map_id_showCardsInAll, hbuilt]
    simp [Node.childNodes, hnav, hcards]
  have happ : ((showCardsInAll (clickCards (builtPage token)).cardType
        ((d.appended ++ [loadingElement]).map
          (fun n => if n.id = "loading" then n.toggleClass "load" else n))).map
          (fun n => if n.id = "loading" then n.toggleClass "load" else n)).map Node.id
      = d.appended.map Node.id ++ ["loading"] := by
    rw [map_id_toggleLoad, map_id_showCardsInAll, map_id_toggleLoad]
    simp
    rfl
  have hcid : ((createCards token (createNavbar token d.content)).showCardsIn
        (clickCards (builtPage token)).cardType).id = d.content.id := by
    rw [id_showCardsIn, hbuilt, hcontent]
    rfl
  refine ⟨_, by simp only [domContentLoaded, htoken, Option.bind_eq_bind, Option.some_bind]; rfl,
    hcontent2, ?_, hcid, map_id_showCardsInAll _ _, map_id_showCardsInAll _ _, happ, ?_, ?_⟩
  · have := congrArg List.length hcontent2
    simpa using this
  · show List.map Node.id
        (showCardsInAll (clickCards (builtPage token)).cardType d.before
          ++ ((createCards token (createNavbar token d.content)).showCardsIn
              (clickCards (builtPage token)).cardType)
            :: (showCardsInAll (clickCards (builtPage token)).cardType d.after
              ++ (showCardsInAll (clickCards (builtPage token)).cardType
                  ((d.appended ++ [loadingElement]).map
                    (fun n => if n.id = "loading" then n.toggleClass "load" else n))).map
                  (fun n => if n.id = "loading" then n.toggleClass "load" else n)))
      = List.map Node.id (d.before ++ d.content :: (d.after ++ d.appended)) ++ ["loading"]
    rw [List.map_append, List.map_cons, List.map_append, map_id_showCardsInAll,
      map_id_showCardsInAll, hcid, happ]
    simp
  · simp [Document.createLoading, Document.parentElement, createLoading, Node.appendChild]

set_option maxRecDepth 100000 in
/-- Witness of C12: the handler on the host whose mount container is empty. -/
theorem domContentLoaded_children_witness :
    emptyHost.content
        = Node.element
            { tag := "div", classList := [], id := "content", attributes := [], innerHTML := "" }
            []
      ∧ (domContentLoaded [] emptyHost).map (fun d => d.content.childNodes.map Node.id)
        = some ([].map Node.id ++ ["navbar", "cards"]) := by
  obtain ⟨d2, h1, h2, -⟩ := domContentLoaded_children [] emptyHost
    { tag := "div", classList := [], id := "content", attributes := [], innerHTML := "" } [] rfl
  exact ⟨rfl, by rw [h1]; exact congrArg some h2⟩

set_option maxRecDepth 100000 in
/-- Counterexample to C12 as stated: on the host whose mount container is empty,
the mount container has two children after loading, the navigation bar and the
cards container; the loading indicator is a child of the parent of the mount
container, after it. -/
theorem domContentLoaded_loading_outside_content :
    (domContentLoaded [] emptyHost).map (fun d =>
        (d.content.childNodes.map Node.id, d.parentElement.childNodes.map Node.id))
      = some (["navbar", "cards"], ["content", "loading"]) := by
  decide

/-! ## Lemmas on the token decoding -/

theorem base64OfBytes_eq (bs : List Nat) :
    base64OfBytes bs
      = (sextetsOfBytes bs).map base64Char ++ List.replicate (paddingOfBytes bs) '=' := by
  induction bs using base64OfBytes.induct with
  | case1 => rfl
  | case2 a => rfl
  | case3 a b => rfl
  | case4 a b c rest ih => simp [base64OfBytes, sextetsOfBytes, paddingOfBytes, ih]

theorem sextetsOfBytes_lt (bs : List Nat) (h : ∀ b ∈ bs, b < 256) :
    ∀ x ∈ sextetsOfBytes bs, x < 64 := by
  induction bs using base64OfBytes.induct with
  | case1 => simp [sextetsOfBytes]
  | case2 a =>
    have ha : a < 256 := h a (by simp)
    intro x hx
    simp only [sextetsOfBytes, List.mem_cons, List.mem_singleton, List.not_mem_nil,
      or_false] at hx
    omega
  | case3 a b =>
    have ha : a < 256 := h a (by simp)
    have hb : b < 256 := h b (by simp)
    intro x hx
    simp only [sextetsOfBytes, List.mem_cons, List.mem_singleton, List.not_mem_nil,
      or_false] at hx
    omega
  | case4 a b c rest ih =>
    have ha : a < 256 := h a (by simp)
    have hb : b < 256 := h b (by simp)
    have hc : c < 256 := h c (by simp)
    have ih' := ih (fun x hx => h x (by simp [hx]))
    intro x hx
    simp only [sextetsOfBytes, List.mem_cons] at hx
    rcases hx with rfl | rfl | rfl | rfl | hx
    · omega
    · omega
    · omega
    · omega
    · exact ih' x hx

theorem bytesOfSextets_sextetsOfBytes (bs : List Nat) (h : ∀ b ∈ bs, b < 256) :
    bytesOfSextets (sextetsOfBytes bs) = bs := by
  induction bs using base64OfBytes.induct with
  | case1 => rfl
  | case2 a =>
    have ha : a < 256 := h a (by simp)
    simp only [sextetsOfBytes, bytesOfSextets]
    congr 1
    omega
  | case3 a b =>
    have ha : a < 256 := h a (by simp)
    have hb : b < 256 := h b (by simp)
    simp only [sextetsOfBytes, bytesOfSextets]
    congr 1
    · omega
    · congr 1; omega
  | case4 a b c rest ih =>
    have ha : a < 256 := h a (by simp)
    have hb : b < 256 := h b (by simp)
    have hc : c < 256 := h c (by simp)
    have ih' := ih (fun x hx => h x (by simp [hx]))
    simp only [sextetsOfBytes, bytesOfSextets, ih']
    congr 1
    · omega
    · congr 1
      · omega
      · congr 1; omega

theorem sextets_padding_length (bs : List Nat) :
    ((sextetsOfBytes bs).length + paddingOfBytes bs) % 4 = 0 ∧ paddingOfBytes bs ≤ 2
      ∧ (0 < paddingOfBytes bs → sextetsOfBytes bs ≠ []) := by
  induction bs using base64OfBytes.induct with
  | case1 => simp [sextetsOfBytes, paddingOfBytes]
  | case2 a => simp [sextetsOfBytes, paddingOfBytes]
  | case3 a b => simp [sextetsOfBytes, paddingOfBytes]
  | case4 a b c rest ih =>
    obtain ⟨h1, h2, _⟩ := ih
    simp only [sextetsOfBytes, paddingOfBytes, List.length_cons]
    refine ⟨by omega, h2, fun _ => by simp⟩

set_option maxRecDepth 100000 in
theorem base64Char_facts :
    ∀ i < 64, isBase64Char (base64Char i) = true ∧ isAsciiWhitespace (base64Char i) = false
      ∧ base64Char i ≠ '=' ∧ base64Index (base64Char i) = i := by
  decide

theorem stripPadding_append (X : List Char) (k : Nat) (hk : k ≤ 2) (hX : ∀ c ∈ X, c ≠ '=')
    (hne : 0 < k → X ≠ []) :
    stripPadding (X ++ List.replicate k '=') = X := by
  unfold stripPadding
  rw [List.reverse_append, List.reverse_replicate]
  cases hr : X.reverse with
  | nil =>
    have hXnil : X = [] := by simpa using hr
    have hk0 : k = 0 := by
      by_contra hk0
      exact hne (by omega) hXnil
    subst hk0
    subst hXnil
    rfl
  | cons c r =>
    have hc : c ≠ '=' := hX c (by
      have : c ∈ X.reverse := by rw [hr]; exact List.mem_cons_self _ _
      exact List.mem_reverse.1 this)
    have hXr : X = (c :: r).reverse := by rw [← hr, List.reverse_reverse]
    interval_cases k
    · simp only [List.replicate, List.nil_append, List.append_nil]
      split
      · next heq => simp only [List.cons.injEq] at heq; exact absurd heq.1 hc
      · next heq => simp only [List.cons.injEq] at heq; exact absurd heq.1 hc
      · rfl
    · simp only [List.replicate, List.cons_append, List.nil_append]
      split
      · next heq =>
        simp only [List.cons.injEq, true_and] at heq
        exact absurd heq.1 hc
      · next heq =>
        simp only [List.cons.injEq, true_and] at heq
        rw [← heq, hXr]
      · next h1 h2 => exact absurd rfl (h2 _)
    · simp only [List.replicate, List.cons_append, List.nil_append]
      exact hXr.symm


theorem atob_base64OfBytes (bs : List Nat) (h : ∀ b ∈ bs, b < 256) :
    atob (String.mk (base64OfBytes bs)) = some bs := by
  obtain ⟨hlen, hpad, hne⟩ := sextets_padding_length bs
  have hsx := sextetsOfBytes_lt bs h
  have hX : ∀ c ∈ (sextetsOfBytes bs).map base64Char,
      isBase64Char c = true ∧ isAsciiWhitespace c = false ∧ c ≠ '=' := by
    intro c hc
    obtain ⟨i, hi, rfl⟩ := List.mem_map.1 hc
    obtain ⟨h1, h2, h3, -⟩ := base64Char_facts i (hsx i hi)
    exact ⟨h1, h2, h3⟩
  have hfilter : (base64OfBytes bs).filter (fun c => !isAsciiWhitespace c) = base64OfBytes bs := by
    apply List.filter_eq_self.2
    intro c hc
    rw [base64OfBytes_eq, List.mem_append] at hc
    rcases hc with hc | hc
    · simp [(hX c hc).2.1]
    · rw [List.eq_of_mem_replicate hc]
      rfl
  have hlen2 : (base64OfBytes bs).length % 4 = 0 := by
    rw [base64OfBytes_eq, List.length_append, List.length_map, List.length_replicate]
    exact hlen
  have hstrip : stripPadding (base64OfBytes bs) = (sextetsOfBytes bs).map base64Char := by
    rw [base64OfBytes_eq]
    apply stripPadding_append _ _ hpad (fun c hc => (hX c hc).2.2)
    intro hk
    have := hne hk
    simpa using this
  have hall : ((sextetsOfBytes bs).map base64Char).all isBase64Char = true := by
    rw [List.all_eq_true]
    exact fun c hc => (hX c hc).1
  have hidx : ((sextetsOfBytes bs).map base64Char).map base64Index = sextetsOfBytes bs := by
    rw [List.map_map]
    conv => rhs; rw [← List.map_id (sextetsOfBytes bs)]
    apply List.map_congr_left
    intro i hi
    exact (base64Char_facts i (hsx i hi)).2.2.2
  have hmod : ((sextetsOfBytes bs).map base64Char).length % 4 ≠ 1 := by
    rw [List.length_map]
    omega
  unfold atob
  simp only [hfilter, hlen2, if_true, hstrip, hmod, if_false, hall, hidx,
    bytesOfSextets_sextetsOfBytes bs h]

set_option maxRecDepth 100000 in
theorem ofNat_toNat_lt :
    ∀ u < 256, (Char.ofNat u).toNat = u := by
  decide

theorem percentItems_lit (c : Char) (rest : List Char) (hc : c ≠ '%') :
    percentItems (c :: rest) = (percentItems rest).map (fun items => UriItem.lit c :: items) := by
  rw [percentItems]
  · intros; contradiction
  · intros; contradiction

theorem percentItems_escape (units : List Nat) (h : ∀ u ∈ units, u < 256) :
    percentItems (units.flatMap escapeUnit) = some (units.map itemOfUnit) := by
  induction units with
  | nil => rfl
  | cons u us ih =>
    have hu : u < 256 := h u (List.mem_cons_self _ _)
    have ih' := ih (fun x hx => h x (List.mem_cons_of_mem _ hx))
    simp only [List.flatMap_cons, List.map_cons, escapeUnit, itemOfUnit]
    by_cases hr : isEscapeUnreserved u = true
    · have hne : Char.ofNat u ≠ '%' := by
        intro e
        have h1 := ofNat_toNat_lt u hu
        rw [e] at h1
        have h2 : u = 37 := h1.symm
        subst h2
        revert hr
        decide
      simp only [hr, if_true, List.singleton_append]
      rw [percentItems_lit _ _ hne, ih']
      rfl
    · obtain ⟨hrun, -, -, -⟩ := hexRun_hexDigit u hu
      simp only [hr, Bool.false_eq_true, if_false, if_pos hu, List.cons_append, List.nil_append]
      rw [percentItems, hrun, ih']
      rfl


theorem char_not_surrogate (c : Char) : c.toNat < 0xD800 ∨ 0xDFFF < c.toNat := by
  have h := c.valid
  simp only [UInt32.isValidChar, Nat.isValidChar] at h
  have : c.toNat = c.val.toNat := rfl
  omega

theorem itemOfUnit_of_ge (u : Nat) (h : 128 ≤ u) : itemOfUnit u = UriItem.byte u := by
  have hr : isEscapeUnreserved u = false := by
    unfold isEscapeUnreserved
    simp only [List.mem_cons, List.mem_singleton, List.not_mem_nil, or_false,
      Bool.or_eq_false_iff, decide_eq_false_iff_not]
    omega
  simp [itemOfUnit, hr]

theorem decodeItems_utf8Bytes (c : Char) (rest : List UriItem) :
    decodeItems ((utf8Bytes c).map itemOfUnit ++ rest)
      = (decodeItems rest).map (fun cs => c :: cs) := by
  have hlt := char_toNat_lt c
  have hsur := char_not_surrogate c
  have hc : Char.ofNat c.toNat = c := Char.ofNat_toNat c
  unfold decodeItems utf8Bytes
  simp only
  by_cases h1 : c.toNat < 0x80
  · rw [if_pos h1]
    simp only [List.map_cons, List.map_nil, List.singleton_append, itemOfUnit]
    by_cases hr : isEscapeUnreserved c.toNat = true
    · simp only [hr, if_true]
      rw [decodeFrom, hc]
    · simp only [hr, Bool.false_eq_true, if_false]
      rw [decodeFrom, if_pos h1, hc]
  · rw [if_neg h1]
    by_cases h2 : c.toNat < 0x800
    · rw [if_pos h2]
      simp only [List.map_cons, List.map_nil, List.cons_append, List.nil_append,
        itemOfUnit_of_ge _ (show 128 ≤ 0xC0 + c.toNat / 64 by omega),
        itemOfUnit_of_ge _ (show 128 ≤ 0x80 + c.toNat % 64 by omega)]
      have hcp : (0xC0 + c.toNat / 64 - 0xC0) * 64 + (0x80 + c.toNat % 64 - 0x80) = c.toNat := by
        omega
      have hcont : isContinuation (0x80 + c.toNat % 64) = true := by
        simp only [isContinuation, Bool.and_eq_true, decide_eq_true_eq]; omega
      have hok : isDecodedCodePoint 0x80 c.toNat = true := by
        simp only [isDecodedCodePoint, Bool.and_eq_true, decide_eq_true_eq, Bool.not_eq_true',
          Bool.and_eq_false_iff, decide_eq_false_iff_not]
        omega
      rw [decodeFrom, if_neg (by omega), if_neg (by omega), if_pos (by omega)]
      rw [decodeFrom, if_pos hcont, if_pos rfl, hcp, if_pos hok, hc]
    · rw [if_neg h2]
      by_cases h3 : c.toNat < 0x10000
      · rw [if_pos h3]
        simp only [List.map_cons, List.map_nil, List.cons_append, List.nil_append,
          itemOfUnit_of_ge _ (show 128 ≤ 0xE0 + c.toNat / 4096 by omega),
          itemOfUnit_of_ge _ (show 128 ≤ 0x80 + c.toNat / 64 % 64 by omega),
          itemOfUnit_of_ge _ (show 128 ≤ 0x80 + c.toNat % 64 by omega)]
        have hcp : ((0xE0 + c.toNat / 4096 - 0xE0) * 64 + (0x80 + c.toNat / 64 % 64 - 0x80)) * 64
            + (0x80 + c.toNat % 64 - 0x80) = c.toNat := by omega
        have hcont1 : isContinuation (0x80 + c.toNat / 64 % 64) = true := by
          simp only [isContinuation, Bool.and_eq_true, decide_eq_true_eq]; omega
        have hcont2 : isContinuation (0x80 + c.toNat % 64) = true := by
          simp only [isContinuation, Bool.and_eq_true, decide_eq_true_eq]; omega
        have hok : isDecodedCodePoint 0x800 c.toNat = true := by
          simp only [isDecodedCodePoint, Bool.and_eq_true, decide_eq_true_eq, Bool.not_eq_true',
            Bool.and_eq_false_iff, decide_eq_false_iff_not]
          omega
        rw [decodeFrom, if_neg (by omega), if_neg (by omega), if_neg (by omega),
          if_pos (by omega)]
        rw [decodeFrom, if_pos hcont1, if_neg (by decide)]
        rw [decodeFrom, if_pos hcont2, if_pos rfl, hcp, if_pos hok, hc]
      · rw [if_neg h3]
        simp only [List.map_cons, List.map_nil, List.cons_append, List.nil_append,
          itemOfUnit_of_ge _ (show 128 ≤ 0xF0 + c.toNat / 262144 by omega),
          itemOfUnit_of_ge _ (show 128 ≤ 0x80 + c.toNat / 4096 % 64 by omega),
          itemOfUnit_of_ge _ (show 128 ≤ 0x80 + c.toNat / 64 % 64 by omega),
          itemOfUnit_of_ge _ (show 128 ≤ 0x80 + c.toNat % 64 by omega)]
        have hcp : (((0xF0 + c.toNat / 262144 - 0xF0) * 64
            + (0x80 + c.toNat / 4096 % 64 - 0x80)) * 64
            + (0x80 + c.toNat / 64 % 64 - 0x80)) * 64
            + (0x80 + c.toNat % 64 - 0x80) = c.toNat := by omega
        have hcont1 : isContinuation (0x80 + c.toNat / 4096 % 64) = true := by
          simp only [isContinuation, Bool.and_eq_true, decide_eq_true_eq]; omega
        have hcont2 : isContinuation (0x80 + c.toNat / 64 % 64) = true := by
          simp only [isContinuation, Bool.and_eq_true, decide_eq_true_eq]; omega
        have hcont3 : isContinuation (0x80 + c.toNat % 64) = true := by
          simp only [isContinuation, Bool.and_eq_true, decide_eq_true_eq]; omega
        have hok : isDecodedCodePoint 0x10000 c.toNat = true := by
          simp only [isDecodedCodePoint, Bool.and_eq_true, decide_eq_true_eq, Bool.not_eq_true',
            Bool.and_eq_false_iff, decide_eq_false_iff_not]
          omega
        rw [decodeFrom, if_neg (by omega), if_neg (by omega), if_neg (by omega),
          if_neg (by omega), if_pos (by omega)]
        rw [decodeFrom, if_pos hcont1, if_neg (by decide)]
        rw [decodeFrom, if_pos hcont2, if_neg (by decide)]
        rw [decodeFrom, if_pos hcont3, if_pos rfl, hcp, if_pos hok, hc]

theorem decodeItems_utf8 (l : List Char) :
    decodeItems ((utf8 l).map itemOfUnit) = some l := by
  induction l with
  | nil => rfl
  | cons c cs ih =>
    simp only [utf8, List.flatMap_cons, List.map_append] at ih ⊢
    rw [decodeItems_utf8Bytes, ih]
    rfl

/-- Decoding undoes encoding. -/
theorem base64Decode_base64Encode (s : String) :
    (base64Encode s).bind base64Decode = some s := by
  rw [base64Encode_eq, Option.some_bind]
  unfold base64Decode
  rw [atob_base64OfBytes _ (utf8_lt _), Option.some_bind]
  unfold decodeURIComponent escape
  simp only
  rw [percentItems_escape _ (utf8_lt _), Option.some_bind, decodeItems_utf8]
  rfl


/-! ## Reversibility of the token encoding -/

/-- C13: for every string `s` (a sequence of Unicode scalar values),
`base64Encode(s)` returns and `base64Decode(base64Encode(s))` is `s`; hence two
strings have the same encoding only when they are equal. -/
theorem base64Encode_reversible (s t : String) :
    (base64Encode s).bind base64Decode = some s
      ∧ (∃ e, base64Encode s = some e ∧ base64Decode e = some s)
      ∧ (base64Encode s = base64Encode t ↔ s = t) := by
  have hs := base64Decode_base64Encode s
  have ht := base64Decode_base64Encode t
  refine ⟨hs, ?_, ?_⟩
  · refine ⟨_, base64Encode_eq s, ?_⟩
    rw [base64Encode_eq, Option.some_bind] at hs
    exact hs
  · constructor
    · intro h
      rw [h, ht] at hs
      exact (Option.some.inj hs).symm
    · intro h
      rw [h]

end CV
